import Mathlib

/-!
# isc-dpl-visualizer: frame pool, point-cloud reprojection and pipeline

A shallow embedding of `src/src/pcl_data_ring_buffer.cpp` (the frame pool
`PclDataRingBuffer`) and of `src/src/pcl_support.cpp` (`BuildPointCloud`, the
filters, `InitializePclViz`, `StartPclViz`, `RunPclViz`, `StopPclViz`, the
workers `BuildPCLThread` and `VisualizerThread`, `PointPickCallback`), followed
by the properties of the specification that concern them.

Conventions of the embedding

* C `int` cursors and slot states are `Int`; no arithmetic in the pool can
  leave the 32-bit range (cursors stay below `buffer_count_`).
* `buffer_data_` is a `List BufferData`; `none` stands for `nullptr`.
  Indexing it outside the list is undefined behaviour in the source and is
  reported as `Outcome.outOfBounds`.
* Every method body runs inside the critical section of the object, so a
  call is one atomic step on the pool value.
* `float`/`double` values are the rationals they stand for and `FloatVal.nan`
  is the quiet NaN. `BuildPointCloud` reads the arithmetic over exact
  rationals; `BuildPointCloudRounded` is the same code with every rounding of
  the `float` and `double` operations explicit (`Rounding`, with the IEEE
  round-to-nearest `Rounding.ieee` as the instance of the build target).
* The OpenCV and PCL calls are parameters (`Library`); a worker is run on its
  own, one pass of its loop at a time, and what the other thread writes
  meanwhile is an argument of the model where a property depends on it.
-/

namespace IscDpl

/-! ## Frame pool: data model -/

/-- Result of running a method of the pool. -/
inductive Outcome (α : Type) where
  /-- the call returned normally -/
  | ok (a : α)
  /-- the call indexed `buffer_data_` outside the allocated array -/
  | outOfBounds
  /-- the loop budget of the model ran out (shown never to happen) -/
  | outOfFuel
  deriving DecidableEq, Repr

/-- The fields of `PclDataRingBuffer::BufferData` the pool methods touch.
`state` is 0: nothing, 1: under write, 2: write done, 3: read/using. -/
structure BufferData where
  inedx : Int
  state : Int
  time : Nat
  deriving DecidableEq, Repr

/-- The private members of `PclDataRingBuffer` that drive the hand-off. -/
structure PclDataRingBuffer where
  last_mode_ : Bool
  allow_overwrite_ : Bool
  buffer_count_ : Int
  buffer_data_ : Option (List BufferData)
  write_inex_ : Int
  read_index_ : Int
  put_index_ : Int
  geted_inedx_ : Int
  deriving DecidableEq, Repr

/-- Read of `buffer_data_[i]`; `none` when `i` is outside the array. -/
def readSlot (bd : List BufferData) (i : Int) : Option BufferData :=
  if i < 0 then none else bd[i.toNat]?

/-- Store to `buffer_data_[i]` (only ever performed on an index that was read). -/
def writeSlot (bd : List BufferData) (i : Int) (b : BufferData) : List BufferData :=
  if i < 0 then bd else bd.set i.toNat b

namespace PclDataRingBuffer

/-- The object as the constructor leaves it (`buffer_data_ = nullptr`). -/
def new : PclDataRingBuffer :=
  { last_mode_ := false, allow_overwrite_ := false, buffer_count_ := 0,
    buffer_data_ := none, write_inex_ := 0, read_index_ := 0, put_index_ := 0,
    geted_inedx_ := 0 }

/-- `PclDataRingBuffer::Initialize` for `count ≥ 0` (a negative `count` makes
`new[]` throw): allocates `count` slots, slot `i` with `inedx = i`, state 0 and
time 0, and always returns 0. The frame size only sizes the image buffers, which
the hand-off methods never index. -/
def Initialize (_self : PclDataRingBuffer) (last_mpde allow_overwrite : Bool) (count : Nat)
    (_width_def _height_def : Int) : PclDataRingBuffer × Int :=
  ({ last_mode_ := last_mpde, allow_overwrite_ := allow_overwrite, buffer_count_ := count,
     buffer_data_ :=
       some ((List.range count).map fun (i : Nat) => { inedx := (i : Int), state := 0, time := 0 }),
     write_inex_ := 0, read_index_ := 0, put_index_ := 0, geted_inedx_ := 0 }, 0)

/-- `PclDataRingBuffer::Clear`: cursors to 0 and the state of each of the
`buffer_count_` slots to 0 (all the slots of an initialised pool; the stored
times are left as they are). -/
def Clear (self : PclDataRingBuffer) : PclDataRingBuffer × Int :=
  ({ self with
      write_inex_ := 0, read_index_ := 0, put_index_ := 0, geted_inedx_ := 0,
      buffer_data_ := self.buffer_data_.map fun bd => bd.map fun b => { b with state := 0 } }, 0)

/-- `PclDataRingBuffer::GetPutBuffer`: the new pool and the returned index
(-1 on failure). The slot pointer written to `*buffer_data` is the slot at the
returned index. -/
def GetPutBuffer (self : PclDataRingBuffer) (time : Nat) : Outcome (PclDataRingBuffer × Int) :=
  match self.buffer_data_ with
  | none => .ok (self, -1)
  | some bd =>
    let local_write_inex := self.write_inex_
    match readSlot bd local_write_inex with
    | none => .outOfBounds
    | some slot =>
      if slot.state = 3 then .ok (self, -1)
      else if self.allow_overwrite_ = false ∧ slot.state ≠ 0 then .ok (self, -1)
      else
        .ok ({ self with
                buffer_data_ := some (writeSlot bd local_write_inex { slot with time := time, state := 1 }),
                put_index_ := local_write_inex }, local_write_inex)

/-- `PclDataRingBuffer::DonePutBuffer`: the new pool and the return code.
The `__debugbreak()` branch is modelled by its `return -1`. -/
def DonePutBuffer (self : PclDataRingBuffer) (index status : Int) : Outcome (PclDataRingBuffer × Int) :=
  match self.buffer_data_ with
  | none => .ok (self, -1)
  | some bd =>
    if index < 0 ∨ index ≥ self.buffer_count_ then .ok (self, -1)
    else if index ≠ self.put_index_ then .ok (self, -1)
    else
      match readSlot bd index with
      | none => .outOfBounds
      | some slot =>
        if slot.state ≠ 1 then .ok (self, -1)
        else if status = 0 then
          .ok ({ self with buffer_data_ := some (writeSlot bd index { slot with state := 0 }) }, 0)
        else
          .ok ({ self with
                  buffer_data_ := some (writeSlot bd index { slot with state := 2 }),
                  read_index_ := if self.last_mode_ then index else self.read_index_,
                  write_inex_ := if self.write_inex_ + 1 ≥ self.buffer_count_ then 0
                                 else self.write_inex_ + 1 }, 0)

/-- The `for (int i = s; i != e;)` loop of `GetGetBuffer` ("clear previous"):
while slot `i` is in state 2 set it to 0, step `i` down by one and, when the
new `i` equals 0, jump to `buffer_count_ - 1`. -/
def clearPrevious (buffer_count_ e : Int) : Nat → List BufferData → Int → Outcome (List BufferData)
  | 0, _, _ => .outOfFuel
  | fuel + 1, bd, i =>
    if i = e then .ok bd
    else
      match readSlot bd i with
      | none => .outOfBounds
      | some slot =>
        if slot.state ≠ 2 then .ok bd
        else
          clearPrevious buffer_count_ e fuel (writeSlot bd i { slot with state := 0 })
            (if i - 1 = 0 then buffer_count_ - 1 else i - 1)

/-- `PclDataRingBuffer::GetGetBuffer`: the new pool, the returned index (-1 on
failure) and the value of `*time_get` after the call. -/
def GetGetBuffer (self : PclDataRingBuffer) (time_get : Nat) :
    Outcome (PclDataRingBuffer × Int × Nat) :=
  match self.buffer_data_ with
  | none => .ok (self, -1, time_get)
  | some bd =>
    let local_read_index := self.read_index_
    match readSlot bd local_read_index with
    | none => .outOfBounds
    | some slot =>
      if slot.state ≠ 2 then .ok (self, -1, time_get)
      else
        let bd1 := writeSlot bd local_read_index { slot with state := 3 }
        if self.last_mode_ then
          if self.allow_overwrite_ = false then
            let s := if local_read_index - 1 = -1 then self.buffer_count_ - 1 else local_read_index - 1
            let e := if local_read_index + 1 ≥ self.buffer_count_ then 0 else local_read_index + 1
            match clearPrevious self.buffer_count_ e (bd1.length + 1) bd1 s with
            | .ok bd2 =>
              .ok ({ self with buffer_data_ := some bd2, geted_inedx_ := local_read_index },
                   local_read_index, slot.time)
            | .outOfBounds => .outOfBounds
            | .outOfFuel => .outOfFuel
          else
            .ok ({ self with buffer_data_ := some bd1, geted_inedx_ := local_read_index },
                 local_read_index, slot.time)
        else
          .ok ({ self with
                  buffer_data_ := some bd1, geted_inedx_ := local_read_index,
                  read_index_ := if self.read_index_ + 1 ≥ self.buffer_count_ then 0
                                 else self.read_index_ + 1 },
               local_read_index, slot.time)

/-- `PclDataRingBuffer::DoneGetBuffer` (a `void` method): the new pool. -/
def DoneGetBuffer (self : PclDataRingBuffer) (index : Int) : Outcome PclDataRingBuffer :=
  match self.buffer_data_ with
  | none => .ok self
  | some bd =>
    if index < 0 ∨ index ≥ self.buffer_count_ then .ok self
    else if index ≠ self.geted_inedx_ then .ok self
    else
      match readSlot bd index with
      | none => .outOfBounds
      | some slot => .ok { self with buffer_data_ := some (writeSlot bd index { slot with state := 0 }) }

end PclDataRingBuffer


/-! ## Frame pool: call sequences -/

/-- Sequencing of method calls: a call that left the array stops the run. -/
def Outcome.bind {α β : Type} (x : Outcome α) (f : α → Outcome β) : Outcome β :=
  match x with
  | .ok a => f a
  | .outOfBounds => .outOfBounds
  | .outOfFuel => .outOfFuel

/-- A pool as `Clear()` leaves it: allocated, every slot in state 0, the four
cursors at 0. -/
def IsCleared (p : PclDataRingBuffer) : Prop :=
  match p.buffer_data_ with
  | none => False
  | some bd =>
    (bd.length : Int) = p.buffer_count_ ∧ (∀ b ∈ bd, b.state = 0) ∧
      p.write_inex_ = 0 ∧ p.read_index_ = 0 ∧ p.put_index_ = 0 ∧ p.geted_inedx_ = 0

instance (p : PclDataRingBuffer) : Decidable (IsCleared p) := by
  unfold IsCleared
  cases p.buffer_data_ <;> infer_instance

/-- The pool `Initialize(last_mpde, allow_overwrite, count, ...)` followed by
`Clear()` produces (the start of a capture session in `StartPclViz`). -/
def clearedPool (last_mpde allow_overwrite : Bool) (count : Nat) : PclDataRingBuffer :=
  ((PclDataRingBuffer.new.Initialize last_mpde allow_overwrite count 0 0).1.Clear).1

/-- The producer's use of the pool in `RunPclViz`: `GetPutBuffer(time)` and then
`DonePutBuffer(put_index, image_status)` with `image_status = 1` exactly when a
slot was obtained. Yields the pool and both return values. -/
def submitFrame (p : PclDataRingBuffer) (time : Nat) : Outcome (PclDataRingBuffer × Int × Int) :=
  (p.GetPutBuffer time).bind fun r =>
    (r.1.DonePutBuffer r.2 (if r.2 ≥ 0 then 1 else 0)).bind fun r' =>
      .ok (r'.1, r.2, r'.2)

/-- One `submitFrame` per time stamp, in order; collects the pairs
(index from `GetPutBuffer`, return code of `DonePutBuffer`). -/
def submitFrames : PclDataRingBuffer → List Nat → Outcome (PclDataRingBuffer × List (Int × Int))
  | p, [] => .ok (p, [])
  | p, t :: ts =>
    (submitFrame p t).bind fun r =>
      (submitFrames r.1 ts).bind fun r' => .ok (r'.1, (r.2.1, r.2.2) :: r'.2)

/-- The consumer's use of the pool in `BuildPCLThread`: `GetGetBuffer` with
`time = 0` and, when an index was obtained, `DoneGetBuffer(get_index)`.
Yields the pool, the index and the time read. -/
def readFrame (p : PclDataRingBuffer) : Outcome (PclDataRingBuffer × Int × Nat) :=
  (p.GetGetBuffer 0).bind fun r =>
    if r.2.1 ≥ 0 then (r.1.DoneGetBuffer r.2.1).bind fun p' => .ok (p', r.2.1, r.2.2)
    else .ok r

/-- The `readFrame` step repeated `n` times; collects the pairs (index, time). -/
def readFrames : PclDataRingBuffer → Nat → Outcome (PclDataRingBuffer × List (Int × Nat))
  | p, 0 => .ok (p, [])
  | p, n + 1 =>
    (readFrame p).bind fun r =>
      (readFrames r.1 n).bind fun r' => .ok (r'.1, (r.2.1, r.2.2) :: r'.2)

/-- A pool together with what its two users hold. `writing` is the slot the
producer got from `GetPutBuffer` and has not committed, with the time it passed;
`reading` is the slot the consumer got from `GetGetBuffer` and has not released;
`committed` records the index and time of the most recent
`DonePutBuffer(index, status)` with `status ≠ 0`. -/
structure Sys where
  pool : PclDataRingBuffer
  writing : Option (Int × Nat)
  reading : Option Int
  committed : Option (Int × Nat)
  deriving DecidableEq, Repr

/-- The calls the two users of the pool make. -/
inductive Call where
  /-- producer: `GetPutBuffer(&buffer, time)` -/
  | getPut (time : Nat)
  /-- producer: `DonePutBuffer(index it got, status)` -/
  | donePut (status : Int)
  /-- consumer: `GetGetBuffer(&buffer, &time)` -/
  | getGet (time_get : Nat)
  /-- consumer: `DoneGetBuffer(index it got)` -/
  | doneGet
  deriving DecidableEq, Repr

/-- One disciplined call: the producer acquires only when it holds nothing and
commits only the index it holds, likewise the consumer. `none` when the call is
out of turn or the method left the array. -/
def Sys.call (s : Sys) : Call → Option Sys
  | .getPut time =>
    match s.writing with
    | some _ => none
    | none =>
      match s.pool.GetPutBuffer time with
      | .ok (p, idx) =>
        some (if idx < 0 then { s with pool := p } else { s with pool := p, writing := some (idx, time) })
      | _ => none
  | .donePut status =>
    match s.writing with
    | none => none
    | some (idx, time) =>
      match s.pool.DonePutBuffer idx status with
      | .ok (p, _) =>
        some { s with pool := p, writing := none,
                      committed := if status = 0 then s.committed else some (idx, time) }
      | _ => none
  | .getGet time_get =>
    match s.reading with
    | some _ => none
    | none =>
      match s.pool.GetGetBuffer time_get with
      | .ok (p, idx, _) =>
        some (if idx < 0 then { s with pool := p } else { s with pool := p, reading := some idx })
      | _ => none
  | .doneGet =>
    match s.reading with
    | none => none
    | some idx =>
      match s.pool.DoneGetBuffer idx with
      | .ok p => some { s with pool := p, reading := none }
      | _ => none

/-- A sequence of disciplined calls, first call first. -/
def Sys.run : Sys → List Call → Option Sys
  | s, [] => some s
  | s, c :: cs => (s.call c).bind fun s' => s'.run cs

/-- A pool nobody holds a slot of and into which nothing was committed. -/
def Sys.start (p : PclDataRingBuffer) : Sys :=
  { pool := p, writing := none, reading := none, committed := none }

/-- State of slot `i` of the pool, `none` when there is no such slot. -/
def PclDataRingBuffer.stateAt (p : PclDataRingBuffer) (i : Int) : Option Int :=
  (p.buffer_data_.bind fun bd => readSlot bd i).map BufferData.state

/-- Stored time of slot `i` of the pool, `none` when there is no such slot. -/
def PclDataRingBuffer.timeAt (p : PclDataRingBuffer) (i : Int) : Option Nat :=
  (p.buffer_data_.bind fun bd => readSlot bd i).map BufferData.time

/-! ## Point cloud construction: data model -/

/-- A `float` read over the rationals, with the quiet NaN. -/
inductive FloatVal where
  | num (q : ℚ)
  | nan
  deriving DecidableEq

/-- The members of `pcl::PointXYZRGBA` that `BuildPointCloud` sets. -/
structure PointXYZRGBA where
  x : FloatVal
  y : FloatVal
  z : FloatVal
  r : Nat
  g : Nat
  b : Nat
  deriving DecidableEq

/-- A default-constructed point: zero coordinates, zero colour. -/
def PointXYZRGBA.zero : PointXYZRGBA :=
  { x := .num 0, y := .num 0, z := .num 0, r := 0, g := 0, b := 0 }

/-- The members of `pcl::PointCloud<pcl::PointXYZRGBA>` in use. -/
structure PointCloud where
  width : Nat
  height : Nat
  is_dense : Bool
  points : List PointXYZRGBA
  deriving DecidableEq

/-- A freshly constructed cloud, as `BuildPCLThread` passes it (`is_dense`
already set to false there). -/
def PointCloud.fresh : PointCloud :=
  { width := 0, height := 0, is_dense := false, points := [] }

/-- Library behaviour of `std::vector::resize(n)`: cut to `n` elements or pad
with default-constructed points. -/
def vectorResize (v : List PointXYZRGBA) (n : Nat) : List PointXYZRGBA :=
  v.take n ++ List.replicate (n - v.length) PointXYZRGBA.zero

/-- Library behaviour of `pcl::PointCloud::push_back`: append the point, set
`width` to the number of points and `height` to 1. -/
def PointCloud.push_back (c : PointCloud) (pt : PointXYZRGBA) : PointCloud :=
  { c with points := c.points ++ [pt], width := (c.points.length + 1) % 2 ^ 32, height := 1 }

/-- A `cv::Mat` of at least the size `BuildPointCloud` walks: its type code and
the element at (row, column). -/
structure Mat (α : Type) where
  type : Int
  px : Nat → Nat → α

/-- OpenCV type code of an 8-bit 3-channel matrix. -/
def CV_8UC3 : Int := 16

/-- OpenCV type code of an 8-bit 4-channel matrix. -/
def CV_8UC4 : Int := 24

/-- The local `point_nan` of `BuildPointCloud`. -/
def point_nan : PointXYZRGBA :=
  { x := .nan, y := .nan, z := .nan, r := 0, g := 0, b := 0 }

/-- Body of the inner loop of `BuildPointCloud` for pixel (row `i`, column `j`):
the point that is pushed. `src_depth_j` is `src_depth[j]`, `src_image_j c` is
`src_image[j][c]`. -/
def pixelPoint (d_inf base_length bf min_distance max_distance : ℚ) (xc yc : Int) (i j : Nat)
    (src_depth_j : ℚ) (src_image_j : Nat → Nat) : PointXYZRGBA :=
  let value := src_depth_j - d_inf
  if value > 0 then
    let x := (base_length * (((j : Int) - xc : Int) : ℚ)) / value
    let y := (base_length * ((yc - (i : Int) : Int) : ℚ)) / value
    let z := bf / value
    if z ≥ min_distance ∧ z < max_distance then
      { x := .num (-1 * x), y := .num y, z := .num z,
        r := src_image_j 2, g := src_image_j 1, b := src_image_j 0 }
    else point_nan
  else point_nan

/-- The two nested loops of `BuildPointCloud`: rows `0 .. height-1`, in each
row columns `0 .. width-1`, one `push_back` per pixel. -/
def pushPixels (width height : Nat) (d_inf base_length bf min_distance max_distance : ℚ)
    (xc yc : Int) (base_image : Mat (Nat → Nat)) (depth_data : Mat ℚ) (cloud : PointCloud) :
    PointCloud :=
  (List.range height).foldl
    (fun c i =>
      (List.range width).foldl
        (fun c j =>
          c.push_back
            (pixelPoint d_inf base_length bf min_distance max_distance xc yc i j
              (depth_data.px i j) (base_image.px i j)))
        c)
    cloud

/-- Number of points `cloud->points.resize(cloud->height * cloud->width)` asks
for: the product of two `uint32_t` members. -/
def presize (width height : Nat) : Nat :=
  ((height % 2 ^ 32) * (width % 2 ^ 32)) % 2 ^ 32

/-- `BuildPointCloud` for `width, height ≥ 0`: sets the cloud's size members,
resizes `points`, then runs the pixel loops of the branch selected by the type
of `base_image` (the `CV_8UC3` and `CV_8UC4` branches differ only in the pixel
type read). -/
def BuildPointCloud (width height : Nat) (d_inf base_length bf min_distance max_distance : ℚ)
    (base_image : Mat (Nat → Nat)) (depth_data : Mat ℚ) (cloud : PointCloud) : PointCloud :=
  let cloud0 : PointCloud :=
    { width := width % 2 ^ 32, height := height % 2 ^ 32, is_dense := false,
      points := vectorResize cloud.points (presize width height) }
  let yc : Int := ((height / 2 : Nat) : Int)
  let xc : Int := ((width / 2 : Nat) : Int)
  if base_image.type = CV_8UC3 then
    pushPixels width height d_inf base_length bf min_distance max_distance xc yc
      base_image depth_data cloud0
  else if base_image.type = CV_8UC4 then
    pushPixels width height d_inf base_length bf min_distance max_distance xc yc
      base_image depth_data cloud0
  else cloud0

/-- The point `BuildPointCloud` pushed for pixel (row `r`, column `c`): pushes
start behind the `presize` points of the resize and go row by row. -/
def emittedPoint (width height : Nat) (out : PointCloud) (r c : Nat) : Option PointXYZRGBA :=
  out.points[presize width height + r * width + c]?

/-- What every disciplined run keeps true: the array has `buffer_count_` slots;
the slot the producer holds is the last-put cursor's, in state 1, with the time
the producer passed; the slot the consumer holds is the last-get cursor's, in
state 3; no other slot is in state 1 or 3; and in latest-wins mode a read cursor
on a slot in state 2 is on the most recently committed frame. -/
def Sys.Inv (s : Sys) : Prop :=
  ∃ bd, s.pool.buffer_data_ = some bd ∧ (bd.length : Int) = s.pool.buffer_count_ ∧
    (∀ idx t, s.writing = some (idx, t) →
      s.pool.put_index_ = idx ∧
        ∃ slot, readSlot bd idx = some slot ∧ slot.state = 1 ∧ slot.time = t) ∧
    (∀ idx, s.reading = some idx →
      s.pool.geted_inedx_ = idx ∧ ∃ slot, readSlot bd idx = some slot ∧ slot.state = 3) ∧
    (∀ j slot, readSlot bd j = some slot → slot.state = 1 → ∃ t, s.writing = some (j, t)) ∧
    (∀ j slot, readSlot bd j = some slot → slot.state = 3 → s.reading = some j) ∧
    (s.pool.last_mode_ = true → ∀ slot, readSlot bd s.pool.read_index_ = some slot →
      slot.state = 2 → s.committed = some (s.pool.read_index_, slot.time))

/-- A FIFO pool of `N` slots in which the frames `ts[j], ..., ts[k-1]` wait in
slots `j .. k-1` (state 2, with their times), every other slot is in state 0,
the write cursor is at `k mod N` and the read cursor at `j mod N`. -/
def FifoState (N : Nat) (ts : List Nat) (j k : Nat) (p : PclDataRingBuffer) : Prop :=
  p.last_mode_ = false ∧ p.buffer_count_ = (N : Int) ∧
  p.write_inex_ = ((k % N : Nat) : Int) ∧ p.read_index_ = ((j % N : Nat) : Int) ∧
  ∃ bd, p.buffer_data_ = some bd ∧ bd.length = N ∧
    ∀ i : Nat, i < N → ∃ slot, readSlot bd (i : Int) = some slot ∧
      (if j ≤ i ∧ i < k then slot.state = 2 ∧ some slot.time = ts[i]? else slot.state = 0)

/-! ## Pipeline control block: data model -/

/-- `PclFilterParameter` of `pcl_def.h` (the nested `Range` and
`RadiusOuterParam` members are flattened). -/
structure PclFilterParameter where
  enabled_remove_nan : Bool
  enabled_pass_through_filter : Bool
  pass_through_filter_range_min : ℚ
  pass_through_filter_range_max : ℚ
  enabled_down_sampling : Bool
  down_sampling_boxel_size : ℚ
  enabled_radius_outlier_removal : Bool
  radius_outlier_removal_param_radius_search : ℚ
  radius_outlier_removal_param_min_neighbors : Int
  enabled_plane_detection : Bool
  plane_detection_threshold : ℚ
  deriving DecidableEq

/-- `PclDataRingBuffer::PclData`: the image buffers of one slot, as contents. -/
structure PclData where
  width : Int
  height : Int
  base_image_channel_count : Int
  image : List Nat
  depth_width : Int
  depth_height : Int
  disparity_data : List ℚ
  disparity_image_bgra : List Nat
  deriving DecidableEq

/-- The members of `BufferData` that carry the frame (`pcl_filter_parameter`,
`pcl_data`). The hand-off methods of the pool never read or write them, so they
are kept beside the pool, one per slot. -/
structure SlotContent where
  pcl_filter_parameter : PclFilterParameter
  pcl_data : PclData
  deriving DecidableEq

/-- `VizParameters` of `pcl_def.h`, without the folder name. -/
structure VizParameters where
  viz_position_x : Int
  viz_position_y : Int
  viz_width : Int
  viz_height : Int
  width : Int
  height : Int
  d_inf : ℚ
  base_length : ℚ
  bf : ℚ
  min_distance : ℚ
  max_distance : ℚ
  coordinate_system : Bool
  full_screen_request : Bool
  restore_screen_request : Bool
  deriving DecidableEq

/-- `PickData`: one picked point. -/
structure PickData where
  valid : Bool
  x : ℚ
  y : ℚ
  z : ℚ
  deriving DecidableEq

/-- `PickInforamtion`: `pick_data` is the array of four entries. -/
structure PickInforamtion where
  max_count : Int
  count : Int
  pick_data : List PickData
  deriving DecidableEq

/-- `enum class OperationStatus`. -/
inductive OperationStatus where
  | idle
  | active
  deriving DecidableEq

/-- `PclVizControl::ThreadControl`; `thread_handle = none` is `NULL`. -/
structure ThreadControl where
  thread_handle : Option Nat
  terminate_request : Int
  terminate_done : Int
  end_code : Int
  stop_request : Bool
  deriving DecidableEq

/-- `PclVizControl`, the control block shared by the caller and the two
workers. `slot_content` holds the frame of each pool slot; `cloud = none` is the
null pointer; a semaphore handle is `true` when it is not `NULL`;
`semaphore_pcl_draw` is the count of `handle_semaphore_pcl_draw` (created with
initial count 0 and maximum 1). -/
structure PclVizControl where
  viz_parameters : VizParameters
  pcl_data_ring_buffer : PclDataRingBuffer
  slot_content : List SlotContent
  cloud : Option PointCloud
  operation_status : OperationStatus
  handle_semaphore_pcl_build : Bool
  handle_semaphore_pcl_draw : Bool
  semaphore_pcl_draw : Nat
  thread_control_build_pcl : ThreadControl
  thread_control_draw : ThreadControl
  pick_information : PickInforamtion

/-- `PclVizInputArgs` of `pcl_def.h`. -/
structure PclVizInputArgs where
  d_inf : ℚ
  base_length : ℚ
  bf : ℚ
  width : Int
  height : Int
  base_image_channel_count : Int
  image : List Nat
  depth_width : Int
  depth_height : Int
  disparity_data : List ℚ
  disparity_image_bgra : List Nat
  full_screen_request : Bool
  restore_screen_request : Bool
  pcl_filter_parameter : PclFilterParameter

/-- `PclVizOutputArgs` of `pcl_def.h`. -/
structure PclVizOutputArgs where
  pick_information : PickInforamtion
  deriving DecidableEq

/-- Library behaviour of `memcpy(dst, src, n)` on buffers as contents: the first
`n` elements of `dst` are replaced by those of `src`. -/
def memcpy {α : Type} (dst src : List α) (n : Nat) : List α :=
  src.take n ++ dst.drop n

/-- The block of `RunPclViz` guarded by `put_index >= 0 && buffer_data != nullptr`
as far as it writes the slot: sizes, the three buffer copies and the eleven
filter settings. -/
def fillSlot (slot : SlotContent) (input_args : PclVizInputArgs) : SlotContent :=
  { pcl_data :=
      { width := input_args.width,
        height := input_args.height,
        base_image_channel_count := input_args.base_image_channel_count,
        image := memcpy slot.pcl_data.image input_args.image
          (input_args.width * input_args.height * input_args.base_image_channel_count).toNat,
        depth_width := input_args.width,
        depth_height := input_args.height,
        disparity_data := memcpy slot.pcl_data.disparity_data input_args.disparity_data
          (input_args.width * input_args.height).toNat,
        disparity_image_bgra :=
          memcpy slot.pcl_data.disparity_image_bgra input_args.disparity_image_bgra
            (input_args.width * input_args.height * 4).toNat },
    pcl_filter_parameter :=
      { enabled_remove_nan := input_args.pcl_filter_parameter.enabled_remove_nan,
        enabled_pass_through_filter :=
          input_args.pcl_filter_parameter.enabled_pass_through_filter,
        pass_through_filter_range_min :=
          input_args.pcl_filter_parameter.pass_through_filter_range_min,
        pass_through_filter_range_max :=
          input_args.pcl_filter_parameter.pass_through_filter_range_max,
        enabled_down_sampling := input_args.pcl_filter_parameter.enabled_down_sampling,
        down_sampling_boxel_size := input_args.pcl_filter_parameter.down_sampling_boxel_size,
        enabled_radius_outlier_removal :=
          input_args.pcl_filter_parameter.enabled_radius_outlier_removal,
        radius_outlier_removal_param_radius_search :=
          input_args.pcl_filter_parameter.radius_outlier_removal_param_radius_search,
        radius_outlier_removal_param_min_neighbors :=
          input_args.pcl_filter_parameter.radius_outlier_removal_param_min_neighbors,
        enabled_plane_detection := input_args.pcl_filter_parameter.enabled_plane_detection,
        plane_detection_threshold :=
          input_args.pcl_filter_parameter.plane_detection_threshold } }

/-- The "screen control" block of `RunPclViz`. -/
def screenControl (v : VizParameters) (input_args : PclVizInputArgs) : VizParameters :=
  let v1 := if input_args.full_screen_request then { v with full_screen_request := true } else v
  if input_args.restore_screen_request then
    { v1 with full_screen_request := false, restore_screen_request := true }
  else v1

/-- The "mouse pick information" block of `RunPclViz`: the stored pick
information and `output_args` after it. -/
def pickControl (pick : PickInforamtion) (output_args : PclVizOutputArgs) :
    PickInforamtion × PclVizOutputArgs :=
  if pick.count > 0 then
    let index := (max 0 (pick.count - 1)).toNat
    let entry := pick.pick_data.getD index ⟨false, 0, 0, 0⟩
    let out :=
      if entry.valid then
        { output_args with
            pick_information :=
              { output_args.pick_information with
                  count := 1,
                  pick_data := output_args.pick_information.pick_data.set 0
                    { x := entry.x, y := entry.y, z := entry.z, valid := true } } }
      else output_args
    ({ pick with count := 0, pick_data := pick.pick_data.set index { entry with valid := false } },
      out)
  else (pick, output_args)

/-- `RunPclViz(input_args, output_args)`; `time` is the value of
`GetTickCount64()`. Yields the control block, `output_args` and the return
value. `buffer_data` is non-null exactly when `GetPutBuffer` returned an index. -/
def RunPclViz (c : PclVizControl) (time : Nat) (input_args : PclVizInputArgs)
    (output_args : PclVizOutputArgs) : Outcome (PclVizControl × PclVizOutputArgs × Int) :=
  if c.operation_status ≠ OperationStatus.active then .ok (c, output_args, 0)
  else
    (c.pcl_data_ring_buffer.GetPutBuffer time).bind fun r =>
      let put_index := r.2
      let filled : Outcome (VizParameters × List SlotContent × Int) :=
        if put_index ≥ 0 then
          match c.slot_content[put_index.toNat]? with
          | none => .outOfBounds
          | some slot =>
            .ok ({ c.viz_parameters with
                    base_length := input_args.base_length, d_inf := input_args.d_inf,
                    bf := input_args.bf },
                 c.slot_content.set put_index.toNat (fillSlot slot input_args), 1)
        else .ok (c.viz_parameters, c.slot_content, 0)
      filled.bind fun f =>
        (r.1.DonePutBuffer put_index f.2.2).bind fun r' =>
          let picked := pickControl c.pick_information output_args
          .ok ({ c with
                  pcl_data_ring_buffer := r'.1,
                  slot_content := f.2.1,
                  viz_parameters := screenControl f.1 input_args,
                  pick_information := picked.1 }, picked.2, 0)

/-- A `PclFilterParameter` of all-zero bytes. -/
def PclFilterParameter.zero : PclFilterParameter :=
  { enabled_remove_nan := false, enabled_pass_through_filter := false,
    pass_through_filter_range_min := 0, pass_through_filter_range_max := 0,
    enabled_down_sampling := false, down_sampling_boxel_size := 0,
    enabled_radius_outlier_removal := false,
    radius_outlier_removal_param_radius_search := 0,
    radius_outlier_removal_param_min_neighbors := 0,
    enabled_plane_detection := false, plane_detection_threshold := 0 }

/-- The frame members of a slot as `PclDataRingBuffer::Initialize` leaves them:
the sizes, channel count 1, zeroed filter parameters and zeroed buffers of
`width * height * 4`, `width * height`, `width * height * 4` elements. -/
def SlotContent.initial (width height : Int) : SlotContent :=
  { pcl_filter_parameter := PclFilterParameter.zero,
    pcl_data :=
      { width := width, height := height, base_image_channel_count := 1,
        image := List.replicate (width * height * 4).toNat 0,
        depth_width := width, depth_height := height,
        disparity_data := List.replicate (width * height).toNat 0,
        disparity_image_bgra := List.replicate (width * height * 4).toNat 0 } }

/-- What `PclDataRingBuffer::Clear` does to the frame members of a slot: the
filter parameters and the three buffers are zeroed, the sizes stay. -/
def SlotContent.cleared (s : SlotContent) : SlotContent :=
  { pcl_filter_parameter := PclFilterParameter.zero,
    pcl_data :=
      { s.pcl_data with
          image := List.replicate s.pcl_data.image.length 0,
          disparity_data := List.replicate s.pcl_data.disparity_data.length 0,
          disparity_image_bgra := List.replicate s.pcl_data.disparity_image_bgra.length 0 } }

/-- A `ThreadControl` as `InitializePclViz` and `StartPclViz` reset it. -/
def ThreadControl.reset : ThreadControl :=
  { thread_handle := none, terminate_request := 0, terminate_done := 0, end_code := 0,
    stop_request := false }

/-- The four cleared `pick_data` entries. -/
def clearedPickData : List PickData :=
  List.replicate 4 { valid := false, x := 0, y := 0, z := 0 }

/-- `InitializePclViz(init_viz_parameters)`. `build_semaphore` and
`draw_semaphore` tell whether the two `CreateSemaphoreA` calls returned a
handle. Yields the control block and the return value. -/
def InitializePclViz (c : PclVizControl) (init_viz_parameters : VizParameters)
    (build_semaphore draw_semaphore : Bool) : PclVizControl × Int :=
  let c1 : PclVizControl :=
    { c with
        viz_parameters := init_viz_parameters,
        operation_status := OperationStatus.idle,
        thread_control_build_pcl := ThreadControl.reset,
        thread_control_draw := ThreadControl.reset,
        pick_information := { max_count := 4, count := 0, pick_data := clearedPickData },
        pcl_data_ring_buffer :=
          (PclDataRingBuffer.new.Initialize true true 4 init_viz_parameters.width
            init_viz_parameters.height).1,
        slot_content :=
          List.replicate 4
            (SlotContent.initial init_viz_parameters.width init_viz_parameters.height),
        handle_semaphore_pcl_build := build_semaphore }
  if build_semaphore = false then (c1, 0)
  else
    let c2 := { c1 with handle_semaphore_pcl_draw := draw_semaphore,
                        semaphore_pcl_draw := if draw_semaphore then 0 else c1.semaphore_pcl_draw }
    if draw_semaphore = false then (c2, 0)
    else (c2, 0)

/-- `StartPclViz()`. `build_thread` and `draw_thread` are the results of the two
`_beginthreadex` calls (`none` for 0). Yields the control block and the return
value; the workers it starts run on their own. -/
def StartPclViz (c : PclVizControl) (build_thread draw_thread : Option Nat) :
    PclVizControl × Int :=
  if c.thread_control_build_pcl.thread_handle ≠ none then (c, -1)
  else
    let c1 := { c with thread_control_build_pcl :=
                  { ThreadControl.reset with thread_handle := build_thread } }
    if build_thread = none then (c1, 0)
    else if c1.thread_control_draw.thread_handle ≠ none then (c1, -1)
    else
      let c2 := { c1 with thread_control_draw :=
                    { ThreadControl.reset with thread_handle := draw_thread } }
      if draw_thread = none then (c2, 0)
      else
        ({ c2 with
            pick_information :=
              { c2.pick_information with count := 0, pick_data := clearedPickData },
            pcl_data_ring_buffer := c2.pcl_data_ring_buffer.Clear.1,
            slot_content := c2.slot_content.map SlotContent.cleared,
            operation_status := OperationStatus.active }, 0)

/-- The global `pcl_viz_control_ = {}` before `InitializePclViz`. -/
def PclVizControl.zero : PclVizControl :=
  { viz_parameters :=
      { viz_position_x := 0, viz_position_y := 0, viz_width := 0, viz_height := 0,
        width := 0, height := 0, d_inf := 0, base_length := 0, bf := 0, min_distance := 0,
        max_distance := 0, coordinate_system := false, full_screen_request := false,
        restore_screen_request := false },
    pcl_data_ring_buffer := PclDataRingBuffer.new,
    slot_content := [],
    cloud := none,
    operation_status := OperationStatus.idle,
    handle_semaphore_pcl_build := false,
    handle_semaphore_pcl_draw := false,
    semaphore_pcl_draw := 0,
    thread_control_build_pcl := ThreadControl.reset,
    thread_control_draw := ThreadControl.reset,
    pick_information := { max_count := 0, count := 0, pick_data := clearedPickData } }

/-- The display settings `main.cpp` style: a `width × height` camera, no screen
request pending. -/
def sampleVizParameters (width height : Int) : VizParameters :=
  { viz_position_x := 0, viz_position_y := 0, viz_width := 640, viz_height := 480,
    width := width, height := height, d_inf := 2, base_length := 1 / 10, bf := 60,
    min_distance := 1 / 2, max_distance := 100, coordinate_system := false,
    full_screen_request := false, restore_screen_request := false }

/-- The control block after `InitializePclViz` and `StartPclViz` both succeeded
for a `width × height` camera: the state in which frames are accepted. -/
def runningControl (width height : Int) : PclVizControl :=
  (StartPclViz
    (InitializePclViz PclVizControl.zero (sampleVizParameters width height) true true).1
    (some 1) (some 2)).1

/-- A 2×1 three-channel frame with disparity 3 at both pixels, all filters off,
no screen request: an example argument of `RunPclViz`. -/
def sampleInputArgs : PclVizInputArgs :=
  { d_inf := 2, base_length := 1 / 10, bf := 60, width := 2, height := 1,
    base_image_channel_count := 3, image := [1, 2, 3, 1, 2, 3],
    depth_width := 2, depth_height := 1, disparity_data := [3, 3],
    disparity_image_bgra := [0, 0, 0, 0, 0, 0, 0, 0],
    full_screen_request := false, restore_screen_request := false,
    pcl_filter_parameter := PclFilterParameter.zero }

/-- An `output_args` with nothing reported. -/
def emptyOutputArgs : PclVizOutputArgs :=
  { pick_information := { max_count := 4, count := 0, pick_data := clearedPickData } }

/-! ## Builder worker: data model -/

/-- A `cv::Mat` with its size: `rows`, `cols` and the matrix read by
`BuildPointCloud`. -/
structure CvMat (α : Type) where
  rows : Nat
  cols : Nat
  mat : Mat α

/-- `cv::Mat::empty()`: no element. -/
def CvMat.empty {α : Type} (m : CvMat α) : Bool :=
  decide (m.rows * m.cols = 0)

/-- OpenCV type code of an 8-bit 1-channel matrix. -/
def CV_8U : Int := 0

/-- OpenCV type code of a 32-bit float 1-channel matrix. -/
def CV_32F : Int := 5

/-- The OpenCV and PCL calls the builder makes; they belong to the libraries,
not to this repository, and are parameters of the model.
`matOfBytes h w type data` and `matOfFloats h w type data` are the
`cv::Mat(h, w, type, data)` constructors over a slot buffer; `resize`, `flip`
and `cvtColor` return their destination matrix; each PCL filter returns its
output cloud; `SACSegmentation threshold cloud` returns the inlier indices of
the RANSAC plane fit with the settings of `PlaneDetection`. -/
structure Library where
  matOfBytes : Int → Int → Int → List Nat → CvMat (Nat → Nat)
  matOfFloats : Int → Int → Int → List ℚ → CvMat ℚ
  resizeBytes : CvMat (Nat → Nat) → ℚ → ℚ → CvMat (Nat → Nat)
  resizeFloats : CvMat ℚ → ℚ → ℚ → CvMat ℚ
  flipBytes : CvMat (Nat → Nat) → Int → CvMat (Nat → Nat)
  flipFloats : CvMat ℚ → Int → CvMat ℚ
  cvtColorGray2Rgb : CvMat (Nat → Nat) → CvMat (Nat → Nat)
  removeNaNFromPointCloud : PointCloud → PointCloud
  PassThrough : String → ℚ → ℚ → PointCloud → PointCloud
  VoxelGrid : ℚ → ℚ → ℚ → PointCloud → PointCloud
  RadiusOutlierRemoval : ℚ → Int → PointCloud → PointCloud
  SACSegmentation : ℚ → PointCloud → List Nat

/-- The "Base Image" block of `BuildPCLThread`: `mat_data_proc_image_scale_flip`
for channel count 3, 4 or anything else (grey image turned to RGB), with
`display_scale = 1.0`. -/
def baseImageScaleFlip (lib : Library) (d : PclData) : CvMat (Nat → Nat) :=
  if d.base_image_channel_count = 3 then
    lib.flipBytes (lib.resizeBytes (lib.matOfBytes d.height d.width CV_8UC3 d.image) 1 1) (-1)
  else if d.base_image_channel_count = 4 then
    lib.flipBytes (lib.resizeBytes (lib.matOfBytes d.height d.width CV_8UC4 d.image) 1 1) (-1)
  else
    lib.cvtColorGray2Rgb
      (lib.flipBytes (lib.resizeBytes (lib.matOfBytes d.height d.width CV_8U d.image) 1 1) (-1))

/-- The "depth" block of `BuildPCLThread`: `mat_depth_scale_flip`. -/
def depthScaleFlip (lib : Library) (d : PclData) : CvMat ℚ :=
  lib.flipFloats
    (lib.resizeFloats (lib.matOfFloats d.depth_height d.depth_width CV_32F d.disparity_data) 1 1)
    (-1)

/-- `PathThroughFilter(field_name, min_length, max_length, cloud, filtered_cloud)`:
the filtered cloud and the return value. -/
def PathThroughFilter (lib : Library) (field_name : String) (min_length max_length : ℚ)
    (cloud : PointCloud) : PointCloud × Int :=
  (lib.PassThrough field_name min_length max_length cloud, 0)

/-- `RadiusOutlierRemoval(radius_search, min_neighbors_in_radius, cloud,
filtered_cloud)`: the filtered cloud and the return value. -/
def RadiusOutlierRemoval (lib : Library) (radius_search : ℚ) (min_neighbors_in_radius : Int)
    (cloud : PointCloud) : PointCloud × Int :=
  (lib.RadiusOutlierRemoval radius_search min_neighbors_in_radius cloud, 0)

/-- `DownSampling(boxel_size, cloud, filtered_cloud)`: the filtered cloud and
the return value. -/
def DownSampling (lib : Library) (boxel_size : ℚ) (cloud : PointCloud) : PointCloud × Int :=
  (lib.VoxelGrid boxel_size boxel_size boxel_size cloud, 0)

/-- The assignment `r = 255, g = 0, b = 0` to `cloud->points[index]`. -/
def paintRed (cloud : PointCloud) (index : Nat) : PointCloud :=
  { cloud with points := cloud.points.modify (fun pt => { pt with r := 255, g := 0, b := 0 }) index }

/-- `PlaneDetection(threshold, cloud)`, in place: the cloud afterwards and the
return value (-1 when the segmentation found no inlier). -/
def PlaneDetection (lib : Library) (threshold : ℚ) (cloud : PointCloud) : PointCloud × Int :=
  let inliers := lib.SACSegmentation threshold cloud
  if inliers.length = 0 then (cloud, -1)
  else (inliers.foldl paintRed cloud, 0)

/-- The "filter" block of `BuildPCLThread` (lines 670-730): five `if`s in a
row, each replacing `cloud` by the stage's output; the return values are not
looked at. -/
def filterChain (lib : Library) (pcl_filter_parameter : PclFilterParameter)
    (cloud : PointCloud) : PointCloud :=
  let cloud1 :=
    if pcl_filter_parameter.enabled_remove_nan then lib.removeNaNFromPointCloud cloud else cloud
  let cloud2 :=
    if pcl_filter_parameter.enabled_pass_through_filter then
      (PathThroughFilter lib "z" pcl_filter_parameter.pass_through_filter_range_min
        pcl_filter_parameter.pass_through_filter_range_max cloud1).1
    else cloud1
  let cloud3 :=
    if pcl_filter_parameter.enabled_down_sampling then
      (DownSampling lib pcl_filter_parameter.down_sampling_boxel_size cloud2).1
    else cloud2
  let cloud4 :=
    if pcl_filter_parameter.enabled_radius_outlier_removal then
      (RadiusOutlierRemoval lib pcl_filter_parameter.radius_outlier_removal_param_radius_search
        pcl_filter_parameter.radius_outlier_removal_param_min_neighbors cloud3).1
    else cloud3
  if pcl_filter_parameter.enabled_plane_detection then
    (PlaneDetection lib pcl_filter_parameter.plane_detection_threshold cloud4).1
  else cloud4

/-- The filter chain as the specification words it: the five stages in the
fixed order remove-NaN, pass-through on z with [min, max], voxel down-sampling,
radius outlier removal, plane detection, each with its enable flag. -/
def specStages (lib : Library) (f : PclFilterParameter) :
    List (Bool × (PointCloud → PointCloud)) :=
  [(f.enabled_remove_nan, lib.removeNaNFromPointCloud),
   (f.enabled_pass_through_filter,
     fun cloud => lib.PassThrough "z" f.pass_through_filter_range_min
       f.pass_through_filter_range_max cloud),
   (f.enabled_down_sampling,
     fun cloud => lib.VoxelGrid f.down_sampling_boxel_size f.down_sampling_boxel_size
       f.down_sampling_boxel_size cloud),
   (f.enabled_radius_outlier_removal,
     fun cloud => lib.RadiusOutlierRemoval f.radius_outlier_removal_param_radius_search
       f.radius_outlier_removal_param_min_neighbors cloud),
   (f.enabled_plane_detection,
     fun cloud => (lib.SACSegmentation f.plane_detection_threshold cloud).foldl paintRed cloud)]

/-- The specification's reading of the chain: each stage takes the previous
stage's output, a disabled stage is the identity. -/
def specFilterChain (lib : Library) (f : PclFilterParameter) (cloud : PointCloud) : PointCloud :=
  (specStages lib f).foldl (fun c stage => if stage.1 then stage.2 c else c) cloud

/-- `ReleaseSemaphore(handle, 1, NULL)` on a semaphore of maximum count 1: the
count afterwards (the call fails and changes nothing at the maximum or on a
`NULL` handle). -/
def releaseSemaphore (handle : Bool) (count : Nat) : Nat :=
  if handle ∧ count < 1 then count + 1 else count

/-- How one pass through the body of the `for (;;)` loop of `BuildPCLThread`
ends. -/
inductive BuildResult where
  /-- `break`: the stop request was taken, the inner loop is left -/
  | broke (c : PclVizControl)
  /-- `return code` out of the thread function, from inside the loop -/
  | returned (c : PclVizControl) (code : Int)
  /-- the end of the body was reached, the loop goes round -/
  | again (c : PclVizControl)

/-- One pass through the body of the `for (;;)` loop of `BuildPCLThread`
(lines 559-747). -/
def BuildPCLThread_body (lib : Library) (c : PclVizControl) : Outcome BuildResult :=
  if c.thread_control_build_pcl.stop_request then
    .ok (.broke { c with thread_control_build_pcl :=
                    { c.thread_control_build_pcl with stop_request := false } })
  else
    (c.pcl_data_ring_buffer.GetGetBuffer 0).bind fun r =>
      let get_index := r.2.1
      let c1 := { c with pcl_data_ring_buffer := r.1 }
      if get_index ≥ 0 then
        match c.slot_content[get_index.toNat]? with
        | none => .outOfBounds
        | some buffer_data =>
          let mat_data_proc_image_scale_flip := baseImageScaleFlip lib buffer_data.pcl_data
          let mat_depth_scale_flip := depthScaleFlip lib buffer_data.pcl_data
          if mat_data_proc_image_scale_flip.empty then .ok (.returned c1 0)
          else if mat_depth_scale_flip.empty then .ok (.returned c1 0)
          else
            let cloud :=
              BuildPointCloud mat_data_proc_image_scale_flip.cols
                mat_data_proc_image_scale_flip.rows
                c.viz_parameters.d_inf c.viz_parameters.base_length c.viz_parameters.bf
                c.viz_parameters.min_distance c.viz_parameters.max_distance
                mat_data_proc_image_scale_flip.mat mat_depth_scale_flip.mat PointCloud.fresh
            let published := filterChain lib buffer_data.pcl_filter_parameter cloud
            let c2 :=
              { c1 with
                  cloud := some published,
                  semaphore_pcl_draw :=
                    releaseSemaphore c1.handle_semaphore_pcl_draw c1.semaphore_pcl_draw }
            (c2.pcl_data_ring_buffer.DoneGetBuffer get_index).bind fun p =>
              .ok (.again { c2 with pcl_data_ring_buffer := p })
      else .ok (.again c1)

/-- How a run of the worker `BuildPCLThread` stands after some passes. -/
inductive WorkerRun where
  /-- the thread function returned `code` -/
  | exited (c : PclVizControl) (code : Int)
  /-- the worker is still inside its loops -/
  | looping (c : PclVizControl)

/-- `BuildPCLThread` run on its own (no other thread acting) for at most
`passes` passes of the inner loop body. `in_for` tells whether control is inside
the `for (;;)` loop, where only `stop_request` is looked at, or at the
`while (terminate_request < 1)` test; after the loops come
`terminate_done = 1; return 0`. A worker starts at the `while` test
(`in_for = false`). -/
def BuildPCLThread (lib : Library) : Nat → Bool → PclVizControl → Outcome WorkerRun
  | 0, _, c => .ok (.looping c)
  | passes + 1, in_for, c =>
    if in_for = false ∧ ¬ c.thread_control_build_pcl.terminate_request < 1 then
      .ok (.exited { c with thread_control_build_pcl :=
                       { c.thread_control_build_pcl with terminate_done := 1 } } 0)
    else
      (BuildPCLThread_body lib c).bind fun r =>
        match r with
        | .broke c' => BuildPCLThread lib passes false c'
        | .returned c' code => .ok (.exited c' code)
        | .again c' => BuildPCLThread lib passes true c'

/-- The coordinate of a point that a filter field name selects (`nan` for a
name that is no coordinate). -/
def fieldValue (field_name : String) (pt : PointXYZRGBA) : FloatVal :=
  if field_name = "x" then pt.x
  else if field_name = "y" then pt.y
  else if field_name = "z" then pt.z
  else FloatVal.nan

/-- Whether the range filter keeps a point: no NaN coordinate and the chosen
coordinate in `[min, max]`. -/
def passThroughKeeps (field_name : String) (min max : ℚ) (pt : PointXYZRGBA) : Bool :=
  decide (pt.x ≠ FloatVal.nan ∧ pt.y ≠ FloatVal.nan ∧ pt.z ≠ FloatVal.nan) &&
    match fieldValue field_name pt with
    | FloatVal.num v => decide (min ≤ v ∧ v ≤ max)
    | FloatVal.nan => false

/-- Modelled from the spec: `pcl::PassThrough<pcl::PointXYZRGBA>::filter` of the
PCL library, which is not part of this repository. The spec's "pass-through
range filter — keeps only points whose chosen axis value (depth) lies in
`[min,max]`", NaN points dropped; the output is an unorganised dense cloud of the
kept points in their order. -/
def PassThroughModel (field_name : String) (min max : ℚ) (cloud : PointCloud) : PointCloud :=
  { width := (cloud.points.filter (passThroughKeeps field_name min max)).length,
    height := 1,
    is_dense := true,
    points := cloud.points.filter (passThroughKeeps field_name min max) }

/-- Number of channels of an OpenCV matrix type code. -/
def matChannels (type : Int) : Nat :=
  (type / 8).toNat + 1

/-- A `Library` for worked examples. The OpenCV calls follow their documented
result at scale 1 (`resize` copies, `flip` with a negative code mirrors both
axes, `cvtColor` repeats the grey value); remove-NaN drops the points with a NaN
coordinate; the range filter is `PassThroughModel`; the voxel, radius and RANSAC
stages, which the examples keep switched off, return their input and no
inlier. -/
def sampleLibrary : Library :=
  { matOfBytes := fun h w type data =>
      { rows := h.toNat, cols := w.toNat,
        mat := { type := type,
                 px := fun i j ch => data.getD ((i * w.toNat + j) * matChannels type + ch) 0 } },
    matOfFloats := fun h w type data =>
      { rows := h.toNat, cols := w.toNat,
        mat := { type := type, px := fun i j => data.getD (i * w.toNat + j) 0 } },
    resizeBytes := fun m _ _ => m,
    resizeFloats := fun m _ _ => m,
    flipBytes := fun m _ =>
      { m with mat := { m.mat with px := fun i j => m.mat.px (m.rows - 1 - i) (m.cols - 1 - j) } },
    flipFloats := fun m _ =>
      { m with mat := { m.mat with px := fun i j => m.mat.px (m.rows - 1 - i) (m.cols - 1 - j) } },
    cvtColorGray2Rgb := fun m =>
      { m with mat := { type := CV_8UC3, px := fun i j _ => m.mat.px i j 0 } },
    removeNaNFromPointCloud := fun cloud =>
      { width := (cloud.points.filter fun pt =>
            decide (pt.x ≠ FloatVal.nan ∧ pt.y ≠ FloatVal.nan ∧ pt.z ≠ FloatVal.nan)).length,
        height := 1, is_dense := true,
        points := cloud.points.filter fun pt =>
            decide (pt.x ≠ FloatVal.nan ∧ pt.y ≠ FloatVal.nan ∧ pt.z ≠ FloatVal.nan) },
    PassThrough := PassThroughModel,
    VoxelGrid := fun _ _ _ cloud => cloud,
    RadiusOutlierRemoval := fun _ _ cloud => cloud,
    SACSegmentation := fun _ _ => [] }

/-- The control block after `RunPclViz(input_args, ...)` at tick 50 on the
running pipeline of a 2×1 camera (the control block is left as it was if the
call did not return). -/
def controlAfterFrame (input_args : PclVizInputArgs) : PclVizControl :=
  match RunPclViz (runningControl 2 1) 50 input_args emptyOutputArgs with
  | .ok r => r.1
  | _ => runningControl 2 1

/-- A frame of width 0 (no pixel), all filters off. -/
def emptyFrameArgs : PclVizInputArgs :=
  { sampleInputArgs with
      width := 0, image := [], depth_width := 0, disparity_data := [],
      disparity_image_bgra := [] }

/-- The frame of `sampleInputArgs` with plane detection switched on. -/
def planeInputArgs : PclVizInputArgs :=
  { sampleInputArgs with
      pcl_filter_parameter :=
        { PclFilterParameter.zero with
            enabled_plane_detection := true, plane_detection_threshold := 1 / 5 } }

/-! ## Renderer worker and shutdown: data model -/

/-- What `VisualizerThread` sets and reads of its `PCLVisualizer`: the window
position and size, the cloud registered under the id "cloud" (`none` before the
first `addPointCloud`), whether a coordinate system was added, and the
`wasStopped()` flag. -/
structure Viewer where
  position : Int × Int
  size : Int × Int
  cloud : Option PointCloud
  coordinate_system : Bool
  stopped : Bool
  deriving DecidableEq

/-- The viewer as `VisualizerThread` sets it up before its loop. -/
def Viewer.create (xp yp v_width v_height : Int) : Viewer :=
  { position := (xp, yp), size := (v_width, v_height), cloud := none,
    coordinate_system := false, stopped := false }

/-- Library behaviour of `viewer->updatePointCloud(cloud, "cloud")`: false when
no cloud is registered under the id, otherwise the registered cloud is replaced
and the call returns true. -/
def Viewer.updatePointCloud (v : Viewer) (cloud : PointCloud) : Viewer × Bool :=
  match v.cloud with
  | none => (v, false)
  | some _ => ({ v with cloud := some cloud }, true)

/-- Library behaviour of `viewer->addPointCloud(cloud, "cloud")` when the id is
free: the cloud is registered. -/
def Viewer.addPointCloud (v : Viewer) (cloud : PointCloud) : Viewer :=
  { v with cloud := some cloud }

/-- `WaitForSingleObject(handle, 16)` on a semaphore with nobody else releasing
it meanwhile: signalled (`WAIT_OBJECT_0`) exactly when the handle is valid and
the count is positive, the count then going down by one. -/
def waitSemaphore (handle : Bool) (count : Nat) : Bool × Nat :=
  if handle ∧ 0 < count then (true, count - 1) else (false, count)

/-- How one pass through the `while (!viewer->wasStopped())` loop of
`VisualizerThread` ends. -/
inductive DrawResult where
  /-- the loop is left: the viewer was stopped or termination was requested -/
  | left (c : PclVizControl) (v : Viewer)
  /-- the end of the body was reached, the loop goes round -/
  | again (c : PclVizControl) (v : Viewer)

/-- One pass through the loop of `VisualizerThread` (lines 971-1019), from the
`wasStopped()` test to the end of the body. `xp`, `yp`, `v_width`, `v_height`
are the locals set before the loop. `spinOnce()` renders and dispatches window
events; no user event is taken to arrive during it. -/
def VisualizerThread_body (xp yp v_width v_height : Int) (c : PclVizControl) (v : Viewer) :
    DrawResult :=
  if v.stopped then .left c v
  else if c.thread_control_draw.terminate_request = 1 then .left c v
  else
    let wait_result := waitSemaphore c.handle_semaphore_pcl_draw c.semaphore_pcl_draw
    let c1 := { c with semaphore_pcl_draw := wait_result.2 }
    if wait_result.1 then
      match c1.cloud with
      | none => .again c1 v
      | some cloud =>
        if cloud.points.length ≠ 0 then
          let sized : PclVizControl × Viewer :=
            if c1.viz_parameters.full_screen_request then
              (c1, { v with position := (0, 0), size := (1920, 1080) })
            else if c1.viz_parameters.restore_screen_request then
              ({ c1 with viz_parameters :=
                   { c1.viz_parameters with restore_screen_request := false } },
               { v with position := (xp, yp), size := (v_width, v_height) })
            else (c1, { v with size := (v_width, v_height) })
          let ret := sized.2.updatePointCloud cloud
          if ¬ ret.2 then
            let v1 := ret.1.addPointCloud cloud
            let v2 :=
              if sized.1.viz_parameters.coordinate_system then
                { v1 with coordinate_system := true }
              else v1
            .again sized.1 v2
          else .again sized.1 ret.1
        else .again c1 v
    else .again c1 v

/-- The loop of `VisualizerThread` run on its own for at most `passes` passes,
followed by `end_code = 0; terminate_done = 1; return 0`. -/
def VisualizerThread_loop (xp yp v_width v_height : Int) :
    Nat → PclVizControl → Viewer → WorkerRun × Viewer
  | 0, c, v => (.looping c, v)
  | passes + 1, c, v =>
    match VisualizerThread_body xp yp v_width v_height c v with
    | .left c' v' =>
      (.exited { c' with thread_control_draw :=
                   { c'.thread_control_draw with end_code := 0, terminate_done := 1 } } 0, v')
    | .again c' v' => VisualizerThread_loop xp yp v_width v_height passes c' v'

/-- `VisualizerThread(context)` run on its own for at most `passes` passes of
its loop: the viewer is created at `MAX(0, viz_position_x), MAX(0,
viz_position_y)` with the size `viz_width × viz_height`. -/
def VisualizerThread (passes : Nat) (c : PclVizControl) : WorkerRun × Viewer :=
  VisualizerThread_loop (max 0 c.viz_parameters.viz_position_x)
    (max 0 c.viz_parameters.viz_position_y) c.viz_parameters.viz_width
    c.viz_parameters.viz_height passes c
    (Viewer.create (max 0 c.viz_parameters.viz_position_x)
      (max 0 c.viz_parameters.viz_position_y) c.viz_parameters.viz_width
      c.viz_parameters.viz_height)

/-- The frame of `sampleInputArgs` with disparity 0 at both pixels and the
pass-through filter on with range [1, 5]: no point of it lies in the range. -/
def farFrameArgs : PclVizInputArgs :=
  { sampleInputArgs with
      disparity_data := [0, 0],
      pcl_filter_parameter :=
        { PclFilterParameter.zero with
            enabled_pass_through_filter := true,
            pass_through_filter_range_min := 1, pass_through_filter_range_max := 5 } }

/-- The frame of `sampleInputArgs` passed together with a full-screen
request. -/
def fullScreenArgs : PclVizInputArgs :=
  { sampleInputArgs with full_screen_request := true }

/-- A cloud of one point, standing for an earlier frame's cloud on display. -/
def shownCloud : PointCloud :=
  { width := 1, height := 1, is_dense := true,
    points := [{ x := .num 0, y := .num 0, z := .num 3, r := 1, g := 2, b := 3 }] }

/-- The control block at the end of a pass of the renderer. -/
def DrawResult.control : DrawResult → PclVizControl
  | .left c _ => c
  | .again c _ => c

/-- The viewer at the end of a pass of the renderer. -/
def DrawResult.viewer : DrawResult → Viewer
  | .left _ v => v
  | .again _ v => v

/-- The polling loop of `StopPclViz`,
`while (terminate_done == 0) { if (count > 200) break; count++; Sleep(10); }`,
from a given `count`. `done k` is the value of `terminate_done` the `k`-th test of
the loop condition reads (`k` from 0): it is the worker that writes it, so every
`done` is a behaviour of the worker. Yields the number of `Sleep(10)` calls made
in all and the value last read; `none` when `fuel` tests were not enough. -/
def pollTerminateDone (done : Nat → Int) : Nat → Nat → Option (Nat × Int)
  | 0, _ => none
  | fuel + 1, count =>
    if done count = 0 then
      if count > 200 then some (count, done count)
      else pollTerminateDone done fuel (count + 1)
    else some (count, done count)

/-- One of the two "stop" blocks of `StopPclViz` on a worker's `ThreadControl`:
the control block afterwards and the number of sleeps. Of the worker's writes
only `terminate_done` is followed. -/
def stopWorker (t : ThreadControl) (done : Nat → Int) (fuel : Nat) :
    Option (ThreadControl × Nat) :=
  if t.thread_handle ≠ none then
    let t1 := { t with stop_request := true, terminate_done := 0, end_code := 0,
                       terminate_request := 1 }
    match pollTerminateDone done fuel 0 with
    | none => none
    | some r => some ({ t1 with terminate_done := r.2, thread_handle := none }, r.1)
  else some (t, 0)

/-- `StopPclViz()`, with `draw_done` and `build_done` the values of
`terminate_done` the two polling loops read. Yields the control block, the
return value and the number of sleeps spent on the renderer and on the
builder. -/
def StopPclViz (c : PclVizControl) (draw_done build_done : Nat → Int) (fuel : Nat) :
    Option (PclVizControl × Int × Nat × Nat) :=
  let c0 := { c with operation_status := OperationStatus.idle }
  match stopWorker c0.thread_control_draw draw_done fuel with
  | none => none
  | some d =>
    match stopWorker c0.thread_control_build_pcl build_done fuel with
    | none => none
    | some b =>
      some ({ c0 with
                thread_control_draw := d.1,
                thread_control_build_pcl := b.1,
                pick_information :=
                  { c0.pick_information with
                      count := 0,
                      pick_data :=
                        (List.range 4).foldl
                          (fun pick_data i => pick_data.set i { valid := false, x := 0, y := 0, z := 0 })
                          c0.pick_information.pick_data } },
            0, d.2, b.2)

/-! ## Point pick: data model -/

/-- `PointPickCallback(event, args)`. Its first statement is `return;` (the
source switches the feature off: "正しくPickできないため、暫定的にこの機能を
未使用とします"), so none of the stores to `pick_information` below it is
reached and the control block is left as it is. `idx` and `x`, `y`, `z` are
`event.getPointIndex()` and the coordinates of `event.getPoint`. -/
def PointPickCallback (c : PclVizControl) (_idx : Int) (_x _y _z : ℚ) : PclVizControl :=
  c

/-- A pipeline that accepts frames: active, over an initialised pool (array of
`buffer_count_` slots, write cursor on a slot) with one frame content per
slot. `InitializePclViz` and `StartPclViz` establish it and `RunPclViz` keeps
it. -/
def PclVizControl.Running (c : PclVizControl) : Prop :=
  c.operation_status = OperationStatus.active ∧
  ∃ bd, c.pcl_data_ring_buffer.buffer_data_ = some bd ∧
    (bd.length : Int) = c.pcl_data_ring_buffer.buffer_count_ ∧
    0 ≤ c.pcl_data_ring_buffer.write_inex_ ∧
    c.pcl_data_ring_buffer.write_inex_ < c.pcl_data_ring_buffer.buffer_count_ ∧
    c.slot_content.length = bd.length

/-- The running pipeline of a 2×1 camera with a pick at (1, 2, 3) stored in
entry 0 of `pick_information` and `count = 1`. -/
def pickedControl : PclVizControl :=
  { runningControl 2 1 with
      pick_information :=
        { max_count := 4, count := 1,
          pick_data :=
            [{ valid := true, x := 1, y := 2, z := 3 }, { valid := false, x := 0, y := 0, z := 0 },
             { valid := false, x := 0, y := 0, z := 0 }, { valid := false, x := 0, y := 0, z := 0 }] } }

/-! ## Frame pool: arbitrary call sequences -/

/-- A call of one of the four hand-off methods with any arguments, in turn or
out of turn. -/
inductive MethodCall where
  /-- `GetPutBuffer(&buffer, time)` -/
  | getPut (time : Nat)
  /-- `DonePutBuffer(index, status)` -/
  | donePut (index status : Int)
  /-- `GetGetBuffer(&buffer, &time)`, `time_get` being the value of `time` before -/
  | getGet (time_get : Nat)
  /-- `DoneGetBuffer(index)` -/
  | doneGet (index : Int)
  deriving DecidableEq, Repr

/-- One call on the pool: the pool afterwards and what the caller gets back, the
return value (0 for the `void` method) and, for `GetGetBuffer`, the time written
through the pointer (0 for the other methods). -/
def MethodCall.apply (p : PclDataRingBuffer) : MethodCall → Outcome (PclDataRingBuffer × Int × Nat)
  | .getPut time => (p.GetPutBuffer time).bind fun r => .ok (r.1, r.2, 0)
  | .donePut index status => (p.DonePutBuffer index status).bind fun r => .ok (r.1, r.2, 0)
  | .getGet time_get => p.GetGetBuffer time_get
  | .doneGet index => (p.DoneGetBuffer index).bind fun r => .ok (r, 0, 0)

/-- What the caller sees of a sequence of calls, first call first: what each
call gave back, up to and including the first call that left the array. -/
def runCalls : PclDataRingBuffer → List MethodCall → List (Outcome (Int × Nat))
  | _, [] => []
  | p, c :: cs =>
    match c.apply p with
    | .ok r => .ok r.2 :: runCalls r.1 cs
    | .outOfBounds => [.outOfBounds]
    | .outOfFuel => [.outOfFuel]

/-- What the hand-off can still tell of a slot: its state, and its time unless
the slot is in state 0 (the time of an Idle slot is overwritten before it is
ever returned; `inedx` is never read). -/
def BufferData.live (b : BufferData) : BufferData :=
  { inedx := 0, state := b.state, time := if b.state = 0 then 0 else b.time }

/-- The pool with every slot reduced to what the hand-off can tell of it. -/
def PclDataRingBuffer.live (p : PclDataRingBuffer) : PclDataRingBuffer :=
  { p with buffer_data_ := p.buffer_data_.map fun bd => bd.map BufferData.live }

/-- One call, keeping of the pool afterwards only what the hand-off can tell. -/
def observeCall (p : PclDataRingBuffer) (c : MethodCall) :
    Outcome (PclDataRingBuffer × Int × Nat) :=
  (c.apply p).bind fun r => .ok (r.1.live, r.2)

/-! ## Point cloud construction with the rounding of the C++ arithmetic -/

/-- The rounding the C++ arithmetic performs: `toFloat q` and `toDouble q` are
the `float` and the `double` that a conversion or one arithmetic operation with
exact result `q` yields. They are parameters, so that what is proved holds for
every rounding (`Rounding.ieee`, round-to-nearest in binary32 and binary64, is
the one of the build target); a `float` or `double` is read as the rational it
stands for, and results beyond the finite range are not modelled. -/
structure Rounding where
  toFloat : ℚ → ℚ
  toDouble : ℚ → ℚ

/-- No rounding: the arithmetic read over exact rationals. It is also what the
C++ computes whenever every intermediate result is itself a `float`. -/
def Rounding.exact : Rounding :=
  { toFloat := fun q => q, toDouble := fun q => q }

/-- IEEE 754 rounding to nearest, ties to even, onto the binary format with `p`
significand bits and least normal exponent `emin` (subnormals included): the
rational `q` goes to the nearest multiple of `2 ^ (e - p + 1)`, where `e` is
the greater of `⌊log₂ |q|⌋` and `emin`. The exponent is not bounded above:
overflow to infinity is not modelled. -/
def roundNearestEven (p : Nat) (emin : Int) (q : ℚ) : ℚ :=
  if q = 0 then 0
  else
    let e : Int := max (Int.log 2 |q|) emin
    let ulp : ℚ := (2 : ℚ) ^ (e - (p : Int) + 1)
    let n : ℚ := |q| / ulp
    let f : Int := ⌊n⌋
    let m : Int :=
      if n - (f : ℚ) < 1 / 2 then f
      else if n - (f : ℚ) > 1 / 2 then f + 1
      else if f % 2 = 0 then f else f + 1
    (if q < 0 then -1 else 1) * (m : ℚ) * ulp

/-- The rounding of the build target: `float` is IEEE binary32 and `double` is
IEEE binary64, both rounded to nearest, ties to even. -/
def Rounding.ieee : Rounding :=
  { toFloat := roundNearestEven 24 (-126), toDouble := roundNearestEven 53 (-1022) }

/-- Body of the inner loop of `BuildPointCloud` for pixel (row `i`, column `j`)
with every rounding of the source made explicit:
`float value = src_depth[j] - (float)d_inf` is a `float` subtraction;
`x = (base_length * (j - xc)) / value` is a `double` product and a `double`
quotient stored to a `float` (likewise `y`); `z = (float)bf / value` is a
`float` quotient; the range test compares the `float` `z` with the `double`
bounds exactly, and `-1 * x` is exact. The parameters are the values of the
`double` arguments, `src_depth_j` is the `float` read from the depth image. -/
def pixelPointRounded (fl : Rounding) (d_inf base_length bf min_distance max_distance : ℚ)
    (xc yc : Int) (i j : Nat) (src_depth_j : ℚ) (src_image_j : Nat → Nat) : PointXYZRGBA :=
  let value := fl.toFloat (src_depth_j - fl.toFloat d_inf)
  if value > 0 then
    let x := fl.toFloat
      (fl.toDouble (fl.toDouble (base_length * (((j : Int) - xc : Int) : ℚ)) / value))
    let y := fl.toFloat
      (fl.toDouble (fl.toDouble (base_length * ((yc - (i : Int) : Int) : ℚ)) / value))
    let z := fl.toFloat (fl.toFloat bf / value)
    if z ≥ min_distance ∧ z < max_distance then
      { x := .num (-1 * x), y := .num y, z := .num z,
        r := src_image_j 2, g := src_image_j 1, b := src_image_j 0 }
    else point_nan
  else point_nan

/-- The two nested loops of `BuildPointCloud` with the rounding explicit. -/
def pushPixelsRounded (fl : Rounding) (width height : Nat)
    (d_inf base_length bf min_distance max_distance : ℚ)
    (xc yc : Int) (base_image : Mat (Nat → Nat)) (depth_data : Mat ℚ) (cloud : PointCloud) :
    PointCloud :=
  (List.range height).foldl
    (fun c i =>
      (List.range width).foldl
        (fun c j =>
          c.push_back
            (pixelPointRounded fl d_inf base_length bf min_distance max_distance xc yc i j
              (depth_data.px i j) (base_image.px i j)))
        c)
    cloud

/-- `BuildPointCloud` with the rounding of its `float` and `double` arithmetic
explicit; everything else as in `BuildPointCloud`. -/
def BuildPointCloudRounded (fl : Rounding) (width height : Nat)
    (d_inf base_length bf min_distance max_distance : ℚ)
    (base_image : Mat (Nat → Nat)) (depth_data : Mat ℚ) (cloud : PointCloud) : PointCloud :=
  let cloud0 : PointCloud :=
    { width := width % 2 ^ 32, height := height % 2 ^ 32, is_dense := false,
      points := vectorResize cloud.points (presize width height) }
  let yc : Int := ((height / 2 : Nat) : Int)
  let xc : Int := ((width / 2 : Nat) : Int)
  if base_image.type = CV_8UC3 then
    pushPixelsRounded fl width height d_inf base_length bf min_distance max_distance xc yc
      base_image depth_data cloud0
  else if base_image.type = CV_8UC4 then
    pushPixelsRounded fl width height d_inf base_length bf min_distance max_distance xc yc
      base_image depth_data cloud0
  else cloud0

/-! ## Frame pool: whose turn a call is -/

/-- Whether a call is in turn for the user who makes it: the producer acquires
only while it holds no slot and commits only while it holds one; the consumer
likewise acquires only while it holds none and releases only while it holds
one. -/
def Sys.inTurn (s : Sys) : Call → Bool
  | .getPut _ => s.writing.isNone
  | .donePut _ => s.writing.isSome
  | .getGet _ => s.reading.isNone
  | .doneGet => s.reading.isSome

/-- A sequence of calls in which every call is in turn, judged call by call for
as long as the calls return; once a method has left the array nothing more is
asked of the calls after it. -/
def Sys.disciplined : Sys → List Call → Bool
  | _, [] => true
  | s, c :: cs =>
    s.inTurn c &&
      match s.call c with
      | some s' => s'.disciplined cs
      | none => true

open PclDataRingBuffer

/-! ## Frame pool: slot access lemmas -/

theorem readSlot_eq_some_iff {bd : List BufferData} {i : Int} {b : BufferData} :
    readSlot bd i = some b ↔ 0 ≤ i ∧ bd[i.toNat]? = some b := by
  unfold readSlot
  by_cases h : i < 0
  · have h0 : ¬ 0 ≤ i := by omega
    simp [h, h0]
  · have h0 : 0 ≤ i := by omega
    simp [h, h0]

theorem readSlot_lt_length {bd : List BufferData} {i : Int} {b : BufferData}
    (h : readSlot bd i = some b) : 0 ≤ i ∧ i < bd.length := by
  rw [readSlot_eq_some_iff] at h
  obtain ⟨h0, h1⟩ := h
  have := (List.getElem?_eq_some_iff.mp h1).1
  omega

theorem readSlot_isSome_of_lt {bd : List BufferData} {i : Int} (h0 : 0 ≤ i)
    (h1 : i < bd.length) : ∃ b, readSlot bd i = some b := by
  have hlt : i.toNat < bd.length := by omega
  refine ⟨bd[i.toNat], ?_⟩
  rw [readSlot_eq_some_iff]
  exact ⟨h0, List.getElem?_eq_getElem hlt⟩

theorem length_writeSlot (bd : List BufferData) (i : Int) (b : BufferData) :
    (writeSlot bd i b).length = bd.length := by
  unfold writeSlot
  split <;> simp

theorem readSlot_writeSlot_self {bd : List BufferData} {i : Int} {x : BufferData}
    (b : BufferData) (h : readSlot bd i = some x) : readSlot (writeSlot bd i b) i = some b := by
  have hb := readSlot_lt_length h
  have hlt : i.toNat < bd.length := by omega
  have h0 : ¬ i < 0 := by omega
  simp [readSlot, writeSlot, h0, hlt]

theorem readSlot_writeSlot_of_ne {bd : List BufferData} {i j : Int} (b : BufferData)
    (hij : i ≠ j) : readSlot (writeSlot bd i b) j = readSlot bd j := by
  unfold readSlot writeSlot
  by_cases hj : j < 0
  · simp [hj]
  · by_cases hi : i < 0
    · simp [hi]
    · have : i.toNat ≠ j.toNat := by omega
      simp [hi, hj, List.getElem?_set_ne this]

/-! ## Frame pool: single calls -/

theorem GetPutBuffer_refused {p : PclDataRingBuffer} {bd : List BufferData} {slot : BufferData}
    (time : Nat) (hbd : p.buffer_data_ = some bd) (hslot : readSlot bd p.write_inex_ = some slot)
    (h : slot.state = 3 ∨ (p.allow_overwrite_ = false ∧ slot.state ≠ 0)) :
    p.GetPutBuffer time = .ok (p, -1) := by
  unfold GetPutBuffer
  simp only [hbd, hslot]
  by_cases h3 : slot.state = 3
  · simp [h3]
  · have h' := h.resolve_left h3
    simp [h3, h'.1, h'.2]

theorem GetPutBuffer_granted {p : PclDataRingBuffer} {bd : List BufferData} {slot : BufferData}
    (time : Nat) (hbd : p.buffer_data_ = some bd) (hslot : readSlot bd p.write_inex_ = some slot)
    (h : ¬ (slot.state = 3 ∨ (p.allow_overwrite_ = false ∧ slot.state ≠ 0))) :
    p.GetPutBuffer time =
      .ok ({ p with
              buffer_data_ := some (writeSlot bd p.write_inex_ { slot with time := time, state := 1 }),
              put_index_ := p.write_inex_ }, p.write_inex_) := by
  push_neg at h
  unfold GetPutBuffer
  simp only [hbd, hslot]
  have h3 := h.1
  by_cases ho : p.allow_overwrite_ = false
  · have h0 := h.2 ho
    simp [h3, ho, h0]
  · simp [h3, ho]

/-- C9: on an initialised pool whose write cursor addresses a slot,
`GetPutBuffer` returns -1 exactly when that slot is in state 3 (Reading) or,
with `allow_overwrite_ = false`, is not in state 0 (Idle); a call that returns
-1 leaves the pool as it was; otherwise the call returns the write cursor, that
slot gets state 1 (Writing) and the given time, every other slot keeps its state
and time, and the write, read and last-get cursors, capacity and modes are
unchanged (the last-put cursor becomes the returned index). -/
theorem C9_GetPutBuffer_contract (p : PclDataRingBuffer) (bd : List BufferData)
    (slot : BufferData) (time : Nat)
    (hbd : p.buffer_data_ = some bd) (hslot : readSlot bd p.write_inex_ = some slot) :
    ((∃ p', p.GetPutBuffer time = .ok (p', -1)) ↔
        (slot.state = 3 ∨ (p.allow_overwrite_ = false ∧ slot.state ≠ 0))) ∧
    (∀ p', p.GetPutBuffer time = .ok (p', -1) → p' = p) ∧
    (¬ (slot.state = 3 ∨ (p.allow_overwrite_ = false ∧ slot.state ≠ 0)) →
      ∃ p', p.GetPutBuffer time = .ok (p', p.write_inex_) ∧ 0 ≤ p.write_inex_ ∧
        p'.stateAt p.write_inex_ = some 1 ∧ p'.timeAt p.write_inex_ = some time ∧
        (∀ j, j ≠ p.write_inex_ → p'.stateAt j = p.stateAt j ∧ p'.timeAt j = p.timeAt j) ∧
        p'.write_inex_ = p.write_inex_ ∧ p'.read_index_ = p.read_index_ ∧
        p'.geted_inedx_ = p.geted_inedx_ ∧ p'.put_index_ = p.write_inex_ ∧
        p'.buffer_count_ = p.buffer_count_ ∧ p'.last_mode_ = p.last_mode_ ∧
        p'.allow_overwrite_ = p.allow_overwrite_) := by
  have hw := readSlot_lt_length hslot
  refine ⟨⟨?_, ?_⟩, ?_, ?_⟩
  · rintro ⟨p', hp'⟩
    by_contra hn
    rw [GetPutBuffer_granted time hbd hslot hn] at hp'
    simp only [Outcome.ok.injEq, Prod.mk.injEq] at hp'
    omega
  · intro h
    exact ⟨p, GetPutBuffer_refused time hbd hslot h⟩
  · intro p' hp'
    by_cases h : slot.state = 3 ∨ (p.allow_overwrite_ = false ∧ slot.state ≠ 0)
    · rw [GetPutBuffer_refused time hbd hslot h] at hp'
      simp only [Outcome.ok.injEq, Prod.mk.injEq] at hp'
      exact hp'.1.symm
    · rw [GetPutBuffer_granted time hbd hslot h] at hp'
      simp only [Outcome.ok.injEq, Prod.mk.injEq] at hp'
      omega
  · intro h
    refine ⟨_, GetPutBuffer_granted time hbd hslot h, hw.1, ?_, ?_, ?_, rfl, rfl, rfl, rfl, rfl,
      rfl, rfl⟩
    · simp [stateAt, readSlot_writeSlot_self _ hslot]
    · simp [timeAt, readSlot_writeSlot_self _ hslot]
    · intro j hj
      simp [stateAt, timeAt, hbd, readSlot_writeSlot_of_ne _ (Ne.symm hj)]

/-- C9 at the pipeline's pool `Initialize(true, true, 4, ...)` after `Clear()`:
the hypotheses hold and the first `GetPutBuffer(7)` hands out slot 0. -/
theorem C9_GetPutBuffer_contract_witness :
    (clearedPool true true 4).buffer_data_ = some [⟨0, 0, 0⟩, ⟨1, 0, 0⟩, ⟨2, 0, 0⟩, ⟨3, 0, 0⟩] ∧
    readSlot [⟨0, 0, 0⟩, ⟨1, 0, 0⟩, ⟨2, 0, 0⟩, ⟨3, 0, 0⟩] (clearedPool true true 4).write_inex_
      = some ⟨0, 0, 0⟩ ∧
    ∃ p', (clearedPool true true 4).GetPutBuffer 7 = .ok (p', 0) ∧
      p'.stateAt 0 = some 1 ∧ p'.timeAt 0 = some 7 :=
  ⟨by decide, by decide,
    let ⟨p', h1, _, h2, h3, _⟩ :=
      (C9_GetPutBuffer_contract (clearedPool true true 4)
        [⟨0, 0, 0⟩, ⟨1, 0, 0⟩, ⟨2, 0, 0⟩, ⟨3, 0, 0⟩] ⟨0, 0, 0⟩ 7 (by decide) (by decide)).2.2
        (by decide)
    ⟨p', h1, h2, h3⟩⟩

theorem GetGetBuffer_not_ready {p : PclDataRingBuffer} {bd : List BufferData} {slot : BufferData}
    (time_get : Nat) (hbd : p.buffer_data_ = some bd)
    (hslot : readSlot bd p.read_index_ = some slot) (h : slot.state ≠ 2) :
    p.GetGetBuffer time_get = .ok (p, -1, time_get) := by
  unfold GetGetBuffer
  simp [hbd, hslot, h]

/-! ## Frame pool: the stale-frame loop of `GetGetBuffer` -/

theorem clearPrevious_ne_outOfFuel (N e : Int) :
    ∀ (fuel : Nat) (bd : List BufferData) (i : Int),
      bd.countP (fun b => decide (b.state = 2)) < fuel →
        clearPrevious N e fuel bd i ≠ .outOfFuel := by
  intro fuel
  induction fuel with
  | zero => intro bd i h; omega
  | succ fuel ih =>
    intro bd i h
    unfold clearPrevious
    by_cases hie : i = e
    · simp [hie]
    · simp only [hie, if_false]
      cases hr : readSlot bd i with
      | none => simp
      | some slot =>
        by_cases hs : slot.state = 2
        · simp only [hs, ne_eq, not_true_eq_false, if_false]
          apply ih
          have hb := readSlot_lt_length hr
          have hlt : i.toNat < bd.length := by omega
          have h0 : ¬ i < 0 := by omega
          have hget : bd[i.toNat] = slot := by
            have := (readSlot_eq_some_iff.mp hr).2
            rw [List.getElem?_eq_getElem hlt] at this
            exact Option.some.inj this
          have hpos : 0 < bd.countP (fun b => decide (b.state = 2)) := by
            rw [List.countP_pos_iff]
            exact ⟨bd[i.toNat], List.getElem_mem hlt, by simp [hget, hs]⟩
          simp only [writeSlot, h0, if_false]
          rw [List.countP_set _ _ _ _ hlt]
          simp [hget, hs]
          omega
        · simp [hs]

theorem clearPrevious_slots (N e : Int) :
    ∀ (fuel : Nat) (bd : List BufferData) (i : Int) (bd2 : List BufferData),
      clearPrevious N e fuel bd i = .ok bd2 →
        bd2.length = bd.length ∧
        ∀ j, readSlot bd2 j = readSlot bd j ∨
          ∃ slot, readSlot bd j = some slot ∧ slot.state = 2 ∧
            readSlot bd2 j = some { slot with state := 0 } := by
  intro fuel
  induction fuel with
  | zero => intro bd i bd2 h; simp [clearPrevious] at h
  | succ fuel ih =>
    intro bd i bd2 h
    unfold clearPrevious at h
    by_cases hie : i = e
    · simp only [hie, if_true, Outcome.ok.injEq] at h
      subst h
      exact ⟨rfl, fun j => Or.inl rfl⟩
    · simp only [hie, if_false] at h
      cases hr : readSlot bd i with
      | none => simp [hr] at h
      | some slot =>
        simp only [hr] at h
        by_cases hs : slot.state = 2
        · simp only [hs, ne_eq, not_true_eq_false, if_false] at h
          obtain ⟨hlen, hall⟩ := ih _ _ _ h
          refine ⟨by rw [hlen, length_writeSlot], fun j => ?_⟩
          by_cases hj : i = j
          · subst hj
            right
            refine ⟨slot, hr, hs, ?_⟩
            rcases hall i with h1 | ⟨s', h1, h2, _⟩
            · rw [h1, readSlot_writeSlot_self _ hr]
            · rw [readSlot_writeSlot_self _ hr] at h1
              have := Option.some.inj h1
              subst this
              simp at h2
          · rcases hall j with h1 | ⟨s', h1, h2, h3⟩
            · left
              rw [h1, readSlot_writeSlot_of_ne _ hj]
            · right
              rw [readSlot_writeSlot_of_ne _ hj] at h1
              exact ⟨s', h1, h2, h3⟩
        · simp only [hs, ne_eq, not_false_eq_true, if_true, Outcome.ok.injEq] at h
          subst h
          exact ⟨rfl, fun j => Or.inl rfl⟩

theorem GetGetBuffer_ne_outOfFuel (p : PclDataRingBuffer) (time_get : Nat) :
    p.GetGetBuffer time_get ≠ .outOfFuel := by
  unfold GetGetBuffer
  cases hbd : p.buffer_data_ with
  | none => simp
  | some bd =>
    simp only
    cases hr : readSlot bd p.read_index_ with
    | none => simp
    | some slot =>
      simp only
      split
      · simp
      · split
        · split
          · split
            · simp
            · simp
            · rename_i hfuel
              exfalso
              refine clearPrevious_ne_outOfFuel _ _ _ _ _ ?_ hfuel
              have := List.countP_le_length (fun b : BufferData => decide (b.state = 2))
                (l := writeSlot bd p.read_index_ { slot with state := 3 })
              omega
          · simp
        · simp

/-! ## Frame pool: what each successful call does -/

theorem DonePutBuffer_commit {p : PclDataRingBuffer} {bd : List BufferData} {slot : BufferData}
    (index status : Int) (hbd : p.buffer_data_ = some bd)
    (hlen : (bd.length : Int) = p.buffer_count_) (hput : index = p.put_index_)
    (hslot : readSlot bd index = some slot) (h1 : slot.state = 1) :
    p.DonePutBuffer index status =
      .ok (if status = 0 then
            { p with buffer_data_ := some (writeSlot bd index { slot with state := 0 }) }
          else
            { p with
                buffer_data_ := some (writeSlot bd index { slot with state := 2 }),
                read_index_ := if p.last_mode_ then index else p.read_index_,
                write_inex_ := if p.write_inex_ + 1 ≥ p.buffer_count_ then 0
                               else p.write_inex_ + 1 }, 0) := by
  subst hput
  have hb := readSlot_lt_length hslot
  have hr : ¬ (p.put_index_ < 0 ∨ p.put_index_ ≥ p.buffer_count_) := by omega
  unfold DonePutBuffer
  simp only [hbd, hr, if_false, ne_eq, not_true_eq_false, hslot, h1]
  by_cases hs : status = 0
  · simp [hs]
  · simp [hs]

theorem DoneGetBuffer_release {p : PclDataRingBuffer} {bd : List BufferData} {slot : BufferData}
    (index : Int) (hbd : p.buffer_data_ = some bd)
    (hlen : (bd.length : Int) = p.buffer_count_) (hget : index = p.geted_inedx_)
    (hslot : readSlot bd index = some slot) :
    p.DoneGetBuffer index =
      .ok { p with buffer_data_ := some (writeSlot bd index { slot with state := 0 }) } := by
  subst hget
  have hb := readSlot_lt_length hslot
  have hr : ¬ (p.geted_inedx_ < 0 ∨ p.geted_inedx_ ≥ p.buffer_count_) := by omega
  unfold DoneGetBuffer
  simp only [hbd, hr, if_false, ne_eq, not_true_eq_false, hslot]

theorem GetGetBuffer_ready {p : PclDataRingBuffer} {bd : List BufferData} {slot : BufferData}
    {time_get : Nat} (hbd : p.buffer_data_ = some bd)
    (hslot : readSlot bd p.read_index_ = some slot) (h2 : slot.state = 2)
    {p' : PclDataRingBuffer} {idx : Int} {t : Nat}
    (h : p.GetGetBuffer time_get = .ok (p', idx, t)) :
    idx = p.read_index_ ∧ t = slot.time ∧ p'.geted_inedx_ = p.read_index_ ∧
    p'.write_inex_ = p.write_inex_ ∧ p'.put_index_ = p.put_index_ ∧
    p'.buffer_count_ = p.buffer_count_ ∧ p'.last_mode_ = p.last_mode_ ∧
    p'.allow_overwrite_ = p.allow_overwrite_ ∧
    p'.read_index_ =
      (if p.last_mode_ then p.read_index_
       else if p.read_index_ + 1 ≥ p.buffer_count_ then 0 else p.read_index_ + 1) ∧
    ∃ bd', p'.buffer_data_ = some bd' ∧ bd'.length = bd.length ∧
      readSlot bd' p.read_index_ = some { slot with state := 3 } ∧
      ∀ j, j ≠ p.read_index_ →
        (readSlot bd' j = readSlot bd j ∨
          (p.last_mode_ = true ∧ p.allow_overwrite_ = false ∧
            ∃ s, readSlot bd j = some s ∧ s.state = 2 ∧
              readSlot bd' j = some { s with state := 0 })) := by
  unfold GetGetBuffer at h
  simp only [hbd, hslot, h2, ne_eq, not_true_eq_false, if_false] at h
  have hself := readSlot_writeSlot_self { slot with state := 3 } hslot
  cases hl : p.last_mode_ with
  | true =>
    cases ho : p.allow_overwrite_ with
    | false =>
      simp only [hl, ho, if_true] at h
      split at h
      · rename_i bd2 hcp
        simp only [Outcome.ok.injEq, Prod.mk.injEq] at h
        obtain ⟨hp, hi, ht⟩ := h
        subst hp
        obtain ⟨hlen2, hall⟩ := clearPrevious_slots _ _ _ _ _ _ hcp
        refine ⟨hi.symm, ht.symm, rfl, rfl, rfl, rfl, rfl, rfl, by simp, bd2, rfl,
          by rw [hlen2, length_writeSlot], ?_, ?_⟩
        · rcases hall p.read_index_ with h1 | ⟨s', h1, h2', _⟩
          · rw [h1, hself]
          · rw [hself] at h1
            have := Option.some.inj h1
            subst this
            simp at h2'
        · intro j hj
          rcases hall j with h1 | ⟨s', h1, h2', h3⟩
          · left
            rw [h1, readSlot_writeSlot_of_ne _ (Ne.symm hj)]
          · right
            rw [readSlot_writeSlot_of_ne _ (Ne.symm hj)] at h1
            exact ⟨rfl, rfl, s', h1, h2', h3⟩
      · simp at h
      · simp at h
    | true =>
      simp only [hl, ho, if_true, Bool.true_eq_false, if_false, Outcome.ok.injEq,
        Prod.mk.injEq] at h
      obtain ⟨hp, hi, ht⟩ := h
      subst hp
      refine ⟨hi.symm, ht.symm, rfl, rfl, rfl, rfl, rfl, rfl, by simp, _, rfl,
        length_writeSlot _ _ _, hself, ?_⟩
      intro j hj
      left
      exact readSlot_writeSlot_of_ne _ (Ne.symm hj)
  | false =>
    simp only [hl, Bool.false_eq_true, if_false, Outcome.ok.injEq, Prod.mk.injEq] at h
    obtain ⟨hp, hi, ht⟩ := h
    subst hp
    refine ⟨hi.symm, ht.symm, rfl, rfl, rfl, rfl, rfl, rfl, by simp, _, rfl,
      length_writeSlot _ _ _, hself, ?_⟩
    intro j hj
    left
    exact readSlot_writeSlot_of_ne _ (Ne.symm hj)

theorem GetGetBuffer_ready_ok {p : PclDataRingBuffer} {bd : List BufferData} {slot : BufferData}
    (time_get : Nat) (hbd : p.buffer_data_ = some bd)
    (hslot : readSlot bd p.read_index_ = some slot) (h2 : slot.state = 2)
    (hmode : p.last_mode_ = false ∨ p.allow_overwrite_ = true) :
    ∃ p', p.GetGetBuffer time_get = .ok (p', p.read_index_, slot.time) := by
  unfold GetGetBuffer
  simp only [hbd, hslot, h2, ne_eq, not_true_eq_false, if_false]
  rcases hmode with hl | ho
  · simp [hl]
  · by_cases hl : p.last_mode_ = true
    · simp [hl, ho]
    · simp [hl]

/-- C10: on an initialised pool whose read cursor addresses a slot,
`GetGetBuffer` returns -1 exactly when that slot is not in state 2 (Ready), and
a call that returns -1 leaves the pool and `*time_get` as they were. When the
slot is Ready, every normal return hands out the read cursor's slot, marks it
state 3 (Reading) and returns its stored time, and in FIFO mode the read cursor
becomes `(read_index_ + 1) mod buffer_count_`; outside the latest-wins
no-overwrite submode the call does return normally, and in no mode does the
stale-frame loop run for ever. -/
theorem C10_GetGetBuffer_contract (p : PclDataRingBuffer) (bd : List BufferData)
    (slot : BufferData) (time_get : Nat)
    (hbd : p.buffer_data_ = some bd) (hlen : (bd.length : Int) = p.buffer_count_)
    (hslot : readSlot bd p.read_index_ = some slot) :
    ((∃ p' t, p.GetGetBuffer time_get = .ok (p', -1, t)) ↔ slot.state ≠ 2) ∧
    (∀ p' t, p.GetGetBuffer time_get = .ok (p', -1, t) → p' = p ∧ t = time_get) ∧
    (slot.state = 2 → ∀ p' idx t, p.GetGetBuffer time_get = .ok (p', idx, t) →
      idx = p.read_index_ ∧ 0 ≤ idx ∧ t = slot.time ∧ p'.stateAt idx = some 3 ∧
      p'.timeAt idx = some slot.time ∧
      (p.last_mode_ = false → p'.read_index_ = (p.read_index_ + 1) % p.buffer_count_)) ∧
    (slot.state = 2 → (p.last_mode_ = false ∨ p.allow_overwrite_ = true) →
      ∃ p', p.GetGetBuffer time_get = .ok (p', p.read_index_, slot.time)) ∧
    p.GetGetBuffer time_get ≠ .outOfFuel := by
  have hr := readSlot_lt_length hslot
  refine ⟨⟨?_, ?_⟩, ?_, ?_, ?_, GetGetBuffer_ne_outOfFuel p time_get⟩
  · rintro ⟨p', t, h⟩ h2
    have := (GetGetBuffer_ready hbd hslot h2 h).1
    omega
  · intro h
    exact ⟨p, time_get, GetGetBuffer_not_ready time_get hbd hslot h⟩
  · intro p' t h
    by_cases h2 : slot.state = 2
    · have := (GetGetBuffer_ready hbd hslot h2 h).1
      omega
    · rw [GetGetBuffer_not_ready time_get hbd hslot h2] at h
      simp only [Outcome.ok.injEq, Prod.mk.injEq] at h
      exact ⟨h.1.symm, h.2.2.symm⟩
  · intro h2 p' idx t h
    obtain ⟨hi, ht, _, _, _, _, _, _, hread, bd', hbd', _, hs3, _⟩ :=
      GetGetBuffer_ready hbd hslot h2 h
    subst hi
    refine ⟨rfl, hr.1, ht, by simp [stateAt, hbd', hs3], by simp [timeAt, hbd', hs3], ?_⟩
    intro hl
    rw [hread]
    simp only [hl, Bool.false_eq_true, if_false]
    split
    · have : p.read_index_ + 1 = p.buffer_count_ := by omega
      rw [this, Int.emod_self]
    · rw [Int.emod_eq_of_lt (by omega) (by omega)]
  · intro h2 hmode
    exact GetGetBuffer_ready_ok time_get hbd hslot h2 hmode

/-- C10 on a FIFO pool of three slots holding one committed frame (time 5) in
slot 2, the read cursor on it: `GetGetBuffer` returns slot 2 with time 5 and
the read cursor wraps to 0. -/
theorem C10_GetGetBuffer_contract_witness :
    ∃ p', (PclDataRingBuffer.mk false false 3 (some [⟨0, 0, 0⟩, ⟨1, 0, 0⟩, ⟨2, 2, 5⟩]) 0 2 2 1).GetGetBuffer 0
        = .ok (p', 2, 5) ∧ p'.stateAt 2 = some 3 ∧ p'.read_index_ = 0 :=
  let p : PclDataRingBuffer :=
    PclDataRingBuffer.mk false false 3 (some [⟨0, 0, 0⟩, ⟨1, 0, 0⟩, ⟨2, 2, 5⟩]) 0 2 2 1
  let h := C10_GetGetBuffer_contract p [⟨0, 0, 0⟩, ⟨1, 0, 0⟩, ⟨2, 2, 5⟩] ⟨2, 2, 5⟩ 0
    (by decide) (by decide) (by decide)
  let ⟨p', hp'⟩ := h.2.2.2.1 (by decide) (Or.inl (by decide))
  ⟨p', hp', (h.2.2.1 (by decide) p' 2 5 hp').2.2.2.1,
    ((h.2.2.1 (by decide) p' 2 5 hp').2.2.2.2.2 (by decide)).trans (by decide)⟩

/-! ## Frame pool: the invariant of disciplined runs -/

theorem readSlot_mem {bd : List BufferData} {i : Int} {b : BufferData}
    (h : readSlot bd i = some b) : b ∈ bd := by
  rw [readSlot_eq_some_iff] at h
  exact List.getElem?_mem h.2

theorem Sys.Inv_start {p : PclDataRingBuffer} (h : IsCleared p) : (Sys.start p).Inv := by
  unfold IsCleared at h
  cases hbd : p.buffer_data_ with
  | none => simp [hbd] at h
  | some bd =>
    simp only [hbd] at h
    obtain ⟨hlen, hall, _⟩ := h
    refine ⟨bd, hbd, hlen, ?_, ?_, ?_, ?_, ?_⟩
    · intro idx t h; simp [Sys.start] at h
    · intro idx h; simp [Sys.start] at h
    · intro j slot hj h1
      have := hall slot (readSlot_mem hj)
      omega
    · intro j slot hj h3
      have := hall slot (readSlot_mem hj)
      omega
    · intro _ slot hj h2
      have := hall slot (readSlot_mem hj)
      omega

theorem Sys.Inv_getPut {s s' : Sys} {time : Nat} (h : s.Inv)
    (hc : s.call (.getPut time) = some s') : s'.Inv := by
  obtain ⟨pool, wr, rd, cm⟩ := s
  obtain ⟨bd, hbd, hlen, hW, hR, hW', hR', hC⟩ := h
  simp only at hbd hlen hW hR hW' hR' hC
  simp only [Sys.call] at hc
  cases wr with
  | some x => simp at hc
  | none =>
    simp only at hc
    cases hs : readSlot bd pool.write_inex_ with
    | none => simp [GetPutBuffer, hbd, hs] at hc
    | some slot =>
      have hb := readSlot_lt_length hs
      by_cases href : slot.state = 3 ∨ (pool.allow_overwrite_ = false ∧ slot.state ≠ 0)
      · rw [GetPutBuffer_refused time hbd hs href] at hc
        simp only [show ((-1 : Int) < 0) from by decide, if_true, Option.some.injEq] at hc
        subst hc
        exact ⟨bd, hbd, hlen, hW, hR, hW', hR', hC⟩
      · rw [GetPutBuffer_granted time hbd hs href] at hc
        have hnot : ¬ pool.write_inex_ < 0 := by omega
        simp only [hnot, if_false, Option.some.injEq] at hc
        subst hc
        have hself := readSlot_writeSlot_self { slot with time := time, state := 1 } hs
        push_neg at href
        refine ⟨_, rfl, by simpa [length_writeSlot] using hlen, ?_, ?_, ?_, ?_, ?_⟩
        · intro idx t hh
          simp only [Option.some.injEq, Prod.mk.injEq] at hh
          obtain ⟨h1, h2⟩ := hh
          subst h1 h2
          exact ⟨rfl, _, hself, rfl, rfl⟩
        · intro idx hh
          obtain ⟨hg, sl, hsl, h3⟩ := hR idx hh
          refine ⟨hg, sl, ?_, h3⟩
          have hne : pool.write_inex_ ≠ idx := by
            intro he
            rw [he, hsl] at hs
            have := Option.some.inj hs
            subst this
            exact href.1 h3
          rw [readSlot_writeSlot_of_ne _ hne, hsl]
        · intro j sl hj h1
          by_cases hjw : pool.write_inex_ = j
          · exact ⟨time, by rw [hjw]⟩
          · rw [readSlot_writeSlot_of_ne _ hjw] at hj
            obtain ⟨t, ht⟩ := hW' j sl hj h1
            cases ht
        · intro j sl hj h3
          by_cases hjw : pool.write_inex_ = j
          · subst hjw
            rw [hself] at hj
            have := Option.some.inj hj
            subst this
            simp at h3
          · rw [readSlot_writeSlot_of_ne _ hjw] at hj
            exact hR' j sl hj h3
        · intro hl sl hj h2
          simp only at hj
          by_cases hjw : pool.write_inex_ = pool.read_index_
          · rw [← hjw, hself] at hj
            have := Option.some.inj hj
            subst this
            simp at h2
          · rw [readSlot_writeSlot_of_ne _ hjw] at hj
            exact hC hl sl hj h2

theorem Sys.Inv_donePut {s s' : Sys} {status : Int} (h : s.Inv)
    (hc : s.call (.donePut status) = some s') : s'.Inv := by
  obtain ⟨pool, wr, rd, cm⟩ := s
  obtain ⟨bd, hbd, hlen, hW, hR, hW', hR', hC⟩ := h
  simp only at hbd hlen hW hR hW' hR' hC
  simp only [Sys.call] at hc
  cases wr with
  | none => simp at hc
  | some x =>
    obtain ⟨idx, time⟩ := x
    obtain ⟨hput, slot, hs, h1, ht⟩ := hW idx time rfl
    simp only at hc
    rw [DonePutBuffer_commit idx status hbd hlen hput.symm hs h1] at hc
    simp only [Option.some.injEq] at hc
    subst hc
    have hidx_rd : ∀ b, rd = some b → idx ≠ b := by
      intro b hb he
      obtain ⟨_, sl, hsl, h3⟩ := hR b hb
      rw [← he, hs] at hsl
      have := Option.some.inj hsl
      subst this
      omega
    by_cases hst : status = 0
    · simp only [hst, if_true]
      have hself := readSlot_writeSlot_self { slot with state := 0 } hs
      refine ⟨_, rfl, by simpa [length_writeSlot] using hlen, ?_, ?_, ?_, ?_, ?_⟩
      · intro i t hh; simp at hh
      · intro b hb
        obtain ⟨hg, sl, hsl, h3⟩ := hR b hb
        exact ⟨hg, sl, by rw [readSlot_writeSlot_of_ne _ (hidx_rd b hb), hsl], h3⟩
      · intro j sl hj hj1
        exfalso
        by_cases hji : idx = j
        · subst hji
          rw [hself] at hj
          have := Option.some.inj hj
          subst this
          simp at hj1
        · rw [readSlot_writeSlot_of_ne _ hji] at hj
          obtain ⟨t, ht'⟩ := hW' j sl hj hj1
          simp only [Option.some.injEq, Prod.mk.injEq] at ht'
          exact hji ht'.1
      · intro j sl hj hj3
        by_cases hji : idx = j
        · subst hji
          rw [hself] at hj
          have := Option.some.inj hj
          subst this
          simp at hj3
        · rw [readSlot_writeSlot_of_ne _ hji] at hj
          exact hR' j sl hj hj3
      · intro hl sl hj hj2
        simp only at hj
        by_cases hji : idx = pool.read_index_
        · rw [← hji, hself] at hj
          have := Option.some.inj hj
          subst this
          simp at hj2
        · rw [readSlot_writeSlot_of_ne _ hji] at hj
          exact hC hl sl hj hj2
    · simp only [hst, if_false]
      have hself := readSlot_writeSlot_self { slot with state := 2 } hs
      refine ⟨_, rfl, by simpa [length_writeSlot] using hlen, ?_, ?_, ?_, ?_, ?_⟩
      · intro i t hh; simp at hh
      · intro b hb
        obtain ⟨hg, sl, hsl, h3⟩ := hR b hb
        exact ⟨hg, sl, by rw [readSlot_writeSlot_of_ne _ (hidx_rd b hb), hsl], h3⟩
      · intro j sl hj hj1
        exfalso
        by_cases hji : idx = j
        · subst hji
          rw [hself] at hj
          have := Option.some.inj hj
          subst this
          simp at hj1
        · rw [readSlot_writeSlot_of_ne _ hji] at hj
          obtain ⟨t, ht'⟩ := hW' j sl hj hj1
          simp only [Option.some.injEq, Prod.mk.injEq] at ht'
          exact hji ht'.1
      · intro j sl hj hj3
        by_cases hji : idx = j
        · subst hji
          rw [hself] at hj
          have := Option.some.inj hj
          subst this
          simp at hj3
        · rw [readSlot_writeSlot_of_ne _ hji] at hj
          exact hR' j sl hj hj3
      · intro hl sl hj hj2
        simp only at hl
        simp only [hl, if_true] at hj ⊢
        rw [hself] at hj
        have := Option.some.inj hj
        subst this
        simp [ht]

theorem Sys.Inv_doneGet {s s' : Sys} (h : s.Inv)
    (hc : s.call .doneGet = some s') : s'.Inv := by
  obtain ⟨pool, wr, rd, cm⟩ := s
  obtain ⟨bd, hbd, hlen, hW, hR, hW', hR', hC⟩ := h
  simp only at hbd hlen hW hR hW' hR' hC
  simp only [Sys.call] at hc
  cases rd with
  | none => simp at hc
  | some idx =>
    obtain ⟨hget, slot, hs, h3⟩ := hR idx rfl
    simp only at hc
    rw [DoneGetBuffer_release idx hbd hlen hget.symm hs] at hc
    simp only [Option.some.injEq] at hc
    subst hc
    have hself := readSlot_writeSlot_self { slot with state := 0 } hs
    refine ⟨_, rfl, by simpa [length_writeSlot] using hlen, ?_, ?_, ?_, ?_, ?_⟩
    · intro a t ha
      obtain ⟨hp, sl, hsl, h1, ht⟩ := hW a t ha
      have hne : idx ≠ a := by
        intro he
        rw [← he, hs] at hsl
        have := Option.some.inj hsl
        subst this
        omega
      exact ⟨hp, sl, by rw [readSlot_writeSlot_of_ne _ hne, hsl], h1, ht⟩
    · intro b hb; simp at hb
    · intro j sl hj hj1
      by_cases hji : idx = j
      · subst hji
        rw [hself] at hj
        have := Option.some.inj hj
        subst this
        simp at hj1
      · rw [readSlot_writeSlot_of_ne _ hji] at hj
        exact hW' j sl hj hj1
    · intro j sl hj hj3
      exfalso
      by_cases hji : idx = j
      · subst hji
        rw [hself] at hj
        have := Option.some.inj hj
        subst this
        simp at hj3
      · rw [readSlot_writeSlot_of_ne _ hji] at hj
        have := hR' j sl hj hj3
        simp only [Option.some.injEq] at this
        exact hji this
    · intro hl sl hj hj2
      simp only at hj
      by_cases hji : idx = pool.read_index_
      · rw [← hji, hself] at hj
        have := Option.some.inj hj
        subst this
        simp at hj2
      · rw [readSlot_writeSlot_of_ne _ hji] at hj
        exact hC hl sl hj hj2

theorem Sys.Inv_getGet {s s' : Sys} {time_get : Nat} (h : s.Inv)
    (hc : s.call (.getGet time_get) = some s') : s'.Inv := by
  obtain ⟨pool, wr, rd, cm⟩ := s
  obtain ⟨bd, hbd, hlen, hW, hR, hW', hR', hC⟩ := h
  simp only at hbd hlen hW hR hW' hR' hC
  simp only [Sys.call] at hc
  cases rd with
  | some x => simp at hc
  | none =>
    simp only at hc
    cases hs : readSlot bd pool.read_index_ with
    | none => simp [GetGetBuffer, hbd, hs] at hc
    | some slot =>
      have hb := readSlot_lt_length hs
      by_cases h2 : slot.state = 2
      · cases hg : pool.GetGetBuffer time_get with
        | outOfBounds => simp [hg] at hc
        | outOfFuel => simp [hg] at hc
        | ok r =>
          obtain ⟨p', idx, t⟩ := r
          obtain ⟨hi, _, hget, _, hput, hcnt, hlm, _, hread, bd', hbd', hlen', hs3, hall⟩ :=
            GetGetBuffer_ready hbd hs h2 hg
          subst hi
          have hnot : ¬ pool.read_index_ < 0 := by omega
          simp only [hg, hnot, if_false, Option.some.injEq] at hc
          subst hc
          refine ⟨bd', hbd', by rw [hlen', hcnt]; exact hlen, ?_, ?_, ?_, ?_, ?_⟩
          · intro a ta ha
            obtain ⟨hp, sl, hsl, h1, ht⟩ := hW a ta ha
            have hne : a ≠ pool.read_index_ := by
              intro he
              rw [he, hs] at hsl
              have := Option.some.inj hsl
              subst this
              omega
            refine ⟨by simp only; rw [hput]; exact hp, sl, ?_, h1, ht⟩
            rcases hall a hne with h' | ⟨_, _, s2, hs2, hs22, _⟩
            · rw [h', hsl]
            · rw [hsl] at hs2
              have := Option.some.inj hs2
              subst this
              omega
          · intro b hbq
            simp only [Option.some.injEq] at hbq
            subst hbq
            exact ⟨hget, _, hs3, rfl⟩
          · intro j sl hj hj1
            have hne : j ≠ pool.read_index_ := by
              intro he
              rw [he, hs3] at hj
              have := Option.some.inj hj
              subst this
              simp at hj1
            rcases hall j hne with h' | ⟨_, _, s2, _, _, hs2'⟩
            · rw [h'] at hj
              exact hW' j sl hj hj1
            · rw [hs2'] at hj
              have := Option.some.inj hj
              subst this
              simp at hj1
          · intro j sl hj hj3
            by_cases hne : j = pool.read_index_
            · simp only [hne]
            · exfalso
              rcases hall j hne with h' | ⟨_, _, s2, _, _, hs2'⟩
              · rw [h'] at hj
                have := hR' j sl hj hj3
                cases this
              · rw [hs2'] at hj
                have := Option.some.inj hj
                subst this
                simp at hj3
          · intro hl sl hj hj2
            exfalso
            simp only at hl hj
            rw [hlm] at hl
            rw [hread] at hj
            simp only [hl, if_true] at hj
            rw [hs3] at hj
            have := Option.some.inj hj
            subst this
            simp at hj2
      · rw [GetGetBuffer_not_ready time_get hbd hs h2] at hc
        simp only [show ((-1 : Int) < 0) from by decide, if_true, Option.some.injEq] at hc
        subst hc
        exact ⟨bd, hbd, hlen, hW, hR, hW', hR', hC⟩

theorem Sys.Inv_call {s s' : Sys} {c : Call} (h : s.Inv) (hc : s.call c = some s') :
    s'.Inv := by
  cases c with
  | getPut time => exact Sys.Inv_getPut h hc
  | donePut status => exact Sys.Inv_donePut h hc
  | getGet time_get => exact Sys.Inv_getGet h hc
  | doneGet => exact Sys.Inv_doneGet h hc

theorem Sys.Inv_run : ∀ (calls : List Call) (s s' : Sys), s.Inv → s.run calls = some s' →
    s'.Inv := by
  intro calls
  induction calls with
  | nil =>
    intro s s' h hr
    simp only [Sys.run, Option.some.injEq] at hr
    subst hr
    exact h
  | cons c cs ih =>
    intro s s' h hr
    simp only [Sys.run] at hr
    cases hc : s.call c with
    | none => simp [hc] at hr
    | some s1 =>
      simp only [hc, Option.some_bind] at hr
      exact ih s1 s' (Sys.Inv_call h hc) hr

/-! ## Frame pool: the modes and the capacity never change -/

theorem GetPutBuffer_config {p p' : PclDataRingBuffer} {time : Nat} {idx : Int}
    (h : p.GetPutBuffer time = .ok (p', idx)) :
    p'.last_mode_ = p.last_mode_ ∧ p'.allow_overwrite_ = p.allow_overwrite_ ∧
      p'.buffer_count_ = p.buffer_count_ := by
  unfold GetPutBuffer at h
  cases hbd : p.buffer_data_ with
  | none =>
    simp only [hbd, Outcome.ok.injEq, Prod.mk.injEq] at h
    rw [← h.1]
    exact ⟨rfl, rfl, rfl⟩
  | some bd =>
    simp only [hbd] at h
    cases hs : readSlot bd p.write_inex_ with
    | none => simp [hs] at h
    | some slot =>
      simp only [hs] at h
      split_ifs at h <;> simp only [Outcome.ok.injEq, Prod.mk.injEq] at h <;> rw [← h.1] <;>
        exact ⟨rfl, rfl, rfl⟩

theorem DonePutBuffer_config {p p' : PclDataRingBuffer} {index status r : Int}
    (h : p.DonePutBuffer index status = .ok (p', r)) :
    p'.last_mode_ = p.last_mode_ ∧ p'.allow_overwrite_ = p.allow_overwrite_ ∧
      p'.buffer_count_ = p.buffer_count_ := by
  unfold DonePutBuffer at h
  cases hbd : p.buffer_data_ with
  | none =>
    simp only [hbd, Outcome.ok.injEq, Prod.mk.injEq] at h
    rw [← h.1]
    exact ⟨rfl, rfl, rfl⟩
  | some bd =>
    simp only [hbd] at h
    cases hs : readSlot bd index with
    | none =>
      simp only [hs] at h
      split_ifs at h <;> simp only [Outcome.ok.injEq, Prod.mk.injEq] at h <;> rw [← h.1] <;>
        exact ⟨rfl, rfl, rfl⟩
    | some slot =>
      simp only [hs] at h
      split_ifs at h <;> simp only [Outcome.ok.injEq, Prod.mk.injEq] at h <;> rw [← h.1] <;>
        exact ⟨rfl, rfl, rfl⟩

theorem GetGetBuffer_config {p p' : PclDataRingBuffer} {time_get t : Nat} {idx : Int}
    (h : p.GetGetBuffer time_get = .ok (p', idx, t)) :
    p'.last_mode_ = p.last_mode_ ∧ p'.allow_overwrite_ = p.allow_overwrite_ ∧
      p'.buffer_count_ = p.buffer_count_ := by
  cases hbd : p.buffer_data_ with
  | none =>
    unfold GetGetBuffer at h
    simp only [hbd, Outcome.ok.injEq, Prod.mk.injEq] at h
    rw [← h.1]
    exact ⟨rfl, rfl, rfl⟩
  | some bd =>
    cases hs : readSlot bd p.read_index_ with
    | none => simp [GetGetBuffer, hbd, hs] at h
    | some slot =>
      by_cases h2 : slot.state = 2
      · obtain ⟨_, _, _, _, _, hc, hl, ho, _⟩ := GetGetBuffer_ready hbd hs h2 h
        exact ⟨hl, ho, hc⟩
      · rw [GetGetBuffer_not_ready time_get hbd hs h2] at h
        simp only [Outcome.ok.injEq, Prod.mk.injEq] at h
        rw [← h.1]
        exact ⟨rfl, rfl, rfl⟩

theorem DoneGetBuffer_config {p p' : PclDataRingBuffer} {index : Int}
    (h : p.DoneGetBuffer index = .ok p') :
    p'.last_mode_ = p.last_mode_ ∧ p'.allow_overwrite_ = p.allow_overwrite_ ∧
      p'.buffer_count_ = p.buffer_count_ := by
  unfold DoneGetBuffer at h
  cases hbd : p.buffer_data_ with
  | none =>
    simp only [hbd, Outcome.ok.injEq] at h
    rw [← h]
    exact ⟨rfl, rfl, rfl⟩
  | some bd =>
    simp only [hbd] at h
    cases hs : readSlot bd index with
    | none =>
      simp only [hs] at h
      split_ifs at h <;> simp only [Outcome.ok.injEq] at h <;> rw [← h] <;>
        exact ⟨rfl, rfl, rfl⟩
    | some slot =>
      simp only [hs] at h
      split_ifs at h <;> simp only [Outcome.ok.injEq] at h <;> rw [← h] <;>
        exact ⟨rfl, rfl, rfl⟩

theorem Sys.call_config {s s' : Sys} {c : Call} (hc : s.call c = some s') :
    s'.pool.last_mode_ = s.pool.last_mode_ ∧
      s'.pool.allow_overwrite_ = s.pool.allow_overwrite_ ∧
      s'.pool.buffer_count_ = s.pool.buffer_count_ := by
  obtain ⟨pool, wr, rd, cm⟩ := s
  cases c with
  | getPut time =>
    simp only [Sys.call] at hc
    cases wr with
    | some x => simp at hc
    | none =>
      simp only at hc
      cases hg : pool.GetPutBuffer time with
      | ok r =>
        obtain ⟨p, idx⟩ := r
        simp only [hg, Option.some.injEq] at hc
        subst hc
        have := GetPutBuffer_config hg
        split <;> exact this
      | outOfBounds => simp [hg] at hc
      | outOfFuel => simp [hg] at hc
  | donePut status =>
    simp only [Sys.call] at hc
    cases wr with
    | none => simp at hc
    | some x =>
      obtain ⟨idx, time⟩ := x
      simp only at hc
      cases hg : pool.DonePutBuffer idx status with
      | ok r =>
        obtain ⟨p, q⟩ := r
        simp only [hg, Option.some.injEq] at hc
        subst hc
        exact DonePutBuffer_config hg
      | outOfBounds => simp [hg] at hc
      | outOfFuel => simp [hg] at hc
  | getGet time_get =>
    simp only [Sys.call] at hc
    cases rd with
    | some x => simp at hc
    | none =>
      simp only at hc
      cases hg : pool.GetGetBuffer time_get with
      | ok r =>
        obtain ⟨p, idx, t⟩ := r
        simp only [hg, Option.some.injEq] at hc
        subst hc
        have := GetGetBuffer_config hg
        split <;> exact this
      | outOfBounds => simp [hg] at hc
      | outOfFuel => simp [hg] at hc
  | doneGet =>
    simp only [Sys.call] at hc
    cases rd with
    | none => simp at hc
    | some idx =>
      simp only at hc
      cases hg : pool.DoneGetBuffer idx with
      | ok p =>
        simp only [hg, Option.some.injEq] at hc
        subst hc
        exact DoneGetBuffer_config hg
      | outOfBounds => simp [hg] at hc
      | outOfFuel => simp [hg] at hc

theorem Sys.run_config : ∀ (calls : List Call) (s s' : Sys), s.run calls = some s' →
    s'.pool.last_mode_ = s.pool.last_mode_ ∧
      s'.pool.allow_overwrite_ = s.pool.allow_overwrite_ ∧
      s'.pool.buffer_count_ = s.pool.buffer_count_ := by
  intro calls
  induction calls with
  | nil =>
    intro s s' hr
    simp only [Sys.run, Option.some.injEq] at hr
    subst hr
    exact ⟨rfl, rfl, rfl⟩
  | cons c cs ih =>
    intro s s' hr
    simp only [Sys.run] at hr
    cases hc : s.call c with
    | none => simp [hc] at hr
    | some s1 =>
      simp only [hc, Option.some_bind] at hr
      obtain ⟨a1, a2, a3⟩ := ih s1 s' hr
      obtain ⟨b1, b2, b3⟩ := Sys.call_config hc
      exact ⟨a1.trans b1, a2.trans b2, a3.trans b3⟩

/-- `Initialize` followed by `Clear` gives a cleared pool, whatever the modes and
the capacity. -/
theorem isCleared_clearedPool (last_mpde allow_overwrite : Bool) (count : Nat) :
    IsCleared (clearedPool last_mpde allow_overwrite count) := by
  simp [IsCleared, clearedPool, Initialize, Clear]

/-! ## Frame pool: exclusivity and latest-wins delivery -/

/-- Exclusivity along a run: in every state a cleared pool (any capacity, any of
the four mode combinations) reaches by disciplined `GetPutBuffer` /
`DonePutBuffer` / `GetGetBuffer` / `DoneGetBuffer` calls that all return (none
leaves the array), the slot the producer holds (state 1)
and the slot the consumer holds (state 3) are different slots; a slot is in
state 1 only while the producer holds it and in state 3 only while the consumer
holds it; `GetPutBuffer` never returns a slot that is in state 3 or held by the
consumer, and `GetGetBuffer` only returns a slot in state 2, never the slot the
producer holds. -/
theorem pool_exclusivity_of_run (p : PclDataRingBuffer) (calls : List Call) (s : Sys)
    (hclear : IsCleared p) (hrun : (Sys.start p).run calls = some s) :
    (∀ a ta b, s.writing = some (a, ta) → s.reading = some b →
      a ≠ b ∧ s.pool.stateAt a = some 1 ∧ s.pool.stateAt b = some 3) ∧
    (∀ j, s.pool.stateAt j = some 1 → ∃ t, s.writing = some (j, t)) ∧
    (∀ j, s.pool.stateAt j = some 3 → s.reading = some j) ∧
    (∀ time p' idx, s.pool.GetPutBuffer time = .ok (p', idx) → idx ≠ -1 →
      s.pool.stateAt idx ≠ some 3 ∧ s.reading ≠ some idx) ∧
    (∀ time_get p' idx t, s.pool.GetGetBuffer time_get = .ok (p', idx, t) → idx ≠ -1 →
      s.pool.stateAt idx = some 2 ∧ ∀ ta, s.writing ≠ some (idx, ta)) := by
  obtain ⟨bd, hbd, hlen, hW, hR, hW', hR', hC⟩ := Sys.Inv_run calls _ s (Sys.Inv_start hclear) hrun
  refine ⟨?_, ?_, ?_, ?_, ?_⟩
  · intro a ta b ha hb
    obtain ⟨_, sa, hsa, h1, _⟩ := hW a ta ha
    obtain ⟨_, sb, hsb, h3⟩ := hR b hb
    refine ⟨?_, by simp [stateAt, hbd, hsa, h1], by simp [stateAt, hbd, hsb, h3]⟩
    intro he
    rw [he, hsb] at hsa
    have := Option.some.inj hsa
    subst this
    omega
  · intro j hj
    simp only [stateAt, hbd, Option.some_bind, Option.map_eq_some'] at hj
    obtain ⟨sl, hsl, h1⟩ := hj
    exact hW' j sl hsl h1
  · intro j hj
    simp only [stateAt, hbd, Option.some_bind, Option.map_eq_some'] at hj
    obtain ⟨sl, hsl, h3⟩ := hj
    exact hR' j sl hsl h3
  · intro time p' idx hg hidx
    cases hs : readSlot bd s.pool.write_inex_ with
    | none => simp [GetPutBuffer, hbd, hs] at hg
    | some slot =>
      by_cases href : slot.state = 3 ∨ (s.pool.allow_overwrite_ = false ∧ slot.state ≠ 0)
      · rw [GetPutBuffer_refused time hbd hs href] at hg
        simp only [Outcome.ok.injEq, Prod.mk.injEq] at hg
        exact absurd hg.2.symm hidx
      · rw [GetPutBuffer_granted time hbd hs href] at hg
        simp only [Outcome.ok.injEq, Prod.mk.injEq] at hg
        rw [← hg.2]
        push_neg at href
        refine ⟨by simp [stateAt, hbd, hs, href.1], ?_⟩
        intro hrd
        obtain ⟨_, sb, hsb, h3⟩ := hR _ hrd
        rw [hs] at hsb
        have := Option.some.inj hsb
        subst this
        exact href.1 h3
  · intro time_get p' idx t hg hidx
    cases hs : readSlot bd s.pool.read_index_ with
    | none => simp [GetGetBuffer, hbd, hs] at hg
    | some slot =>
      by_cases h2 : slot.state = 2
      · have hi := (GetGetBuffer_ready hbd hs h2 hg).1
        subst hi
        refine ⟨by simp [stateAt, hbd, hs, h2], ?_⟩
        intro ta hwr
        obtain ⟨_, sa, hsa, h1, _⟩ := hW _ ta hwr
        rw [hs] at hsa
        have := Option.some.inj hsa
        subst this
        omega
      · rw [GetGetBuffer_not_ready time_get hbd hs h2] at hg
        simp only [Outcome.ok.injEq, Prod.mk.injEq] at hg
        exact absurd hg.2.1.symm hidx

/-- Exclusivity on the pipeline's pool (`Initialize(true, true, 4, ...)`, cleared): after
one committed frame, a read acquire and a second write acquire the producer
holds slot 1 and the consumer slot 0. -/
theorem pool_exclusivity_of_run_example :
    IsCleared (clearedPool true true 4) ∧
    (Sys.start (clearedPool true true 4)).run [.getPut 10, .donePut 1, .getGet 0, .getPut 20] =
      some ⟨⟨true, true, 4, some [⟨0, 3, 10⟩, ⟨1, 1, 20⟩, ⟨2, 0, 0⟩, ⟨3, 0, 0⟩], 1, 0, 1, 0⟩,
        some (1, 20), some 0, some (0, 10)⟩ ∧
    (1 : Int) ≠ 0 ∧
    (PclDataRingBuffer.mk true true 4 (some [⟨0, 3, 10⟩, ⟨1, 1, 20⟩, ⟨2, 0, 0⟩, ⟨3, 0, 0⟩])
      1 0 1 0).stateAt 1 = some 1 ∧
    (PclDataRingBuffer.mk true true 4 (some [⟨0, 3, 10⟩, ⟨1, 1, 20⟩, ⟨2, 0, 0⟩, ⟨3, 0, 0⟩])
      1 0 1 0).stateAt 0 = some 3 :=
  ⟨by decide, by decide,
    (pool_exclusivity_of_run (clearedPool true true 4)
      [.getPut 10, .donePut 1, .getGet 0, .getPut 20]
      ⟨⟨true, true, 4, some [⟨0, 3, 10⟩, ⟨1, 1, 20⟩, ⟨2, 0, 0⟩, ⟨3, 0, 0⟩], 1, 0, 1, 0⟩,
        some (1, 20), some 0, some (0, 10)⟩
      (by decide) (by decide)).1 1 20 0 rfl rfl⟩

/-- Latest-wins delivery along a run: in latest-wins mode (with or without
overwrite), in every state a cleared pool reaches by disciplined calls that all
return (none leaves the array), a `GetGetBuffer` that returns a slot
returns the index and the time stamp of the most recent
`DonePutBuffer(index, status ≠ 0)`; so no frame committed before that one is
returned. -/
theorem latest_wins_delivery_of_run (p : PclDataRingBuffer) (calls : List Call) (s : Sys)
    (time_get : Nat) (p' : PclDataRingBuffer) (idx : Int) (t : Nat)
    (hclear : IsCleared p) (hlast : p.last_mode_ = true)
    (hrun : (Sys.start p).run calls = some s)
    (hget : s.pool.GetGetBuffer time_get = .ok (p', idx, t)) (hidx : idx ≠ -1) :
    s.committed = some (idx, t) := by
  obtain ⟨bd, hbd, hlen, hW, hR, hW', hR', hC⟩ := Sys.Inv_run calls _ s (Sys.Inv_start hclear) hrun
  have hl : s.pool.last_mode_ = true := by
    rw [(Sys.run_config calls _ s hrun).1]
    exact hlast
  cases hs : readSlot bd s.pool.read_index_ with
  | none => simp [GetGetBuffer, hbd, hs] at hget
  | some slot =>
    by_cases h2 : slot.state = 2
    · obtain ⟨hi, ht, _⟩ := GetGetBuffer_ready hbd hs h2 hget
      rw [hi, ht]
      exact hC hl slot hs h2
    · rw [GetGetBuffer_not_ready time_get hbd hs h2] at hget
      simp only [Outcome.ok.injEq, Prod.mk.injEq] at hget
      exact absurd hget.2.1.symm hidx

/-- Latest-wins delivery on the pipeline's pool (`Initialize(true, true, 4, ...)`, cleared): after
frames with times 10 and 20 are committed and a third is being written, the
consumer is handed slot 1 with time 20, the most recent commit. -/
theorem latest_wins_delivery_of_run_example :
    IsCleared (clearedPool true true 4) ∧ (clearedPool true true 4).last_mode_ = true ∧
    (Sys.start (clearedPool true true 4)).run
        [.getPut 10, .donePut 1, .getPut 20, .donePut 1, .getPut 30] =
      some ⟨⟨true, true, 4, some [⟨0, 2, 10⟩, ⟨1, 2, 20⟩, ⟨2, 1, 30⟩, ⟨3, 0, 0⟩], 2, 1, 2, 0⟩,
        some (2, 30), none, some (1, 20)⟩ ∧
    (PclDataRingBuffer.mk true true 4 (some [⟨0, 2, 10⟩, ⟨1, 2, 20⟩, ⟨2, 1, 30⟩, ⟨3, 0, 0⟩])
        2 1 2 0).GetGetBuffer 0 =
      .ok (⟨true, true, 4, some [⟨0, 2, 10⟩, ⟨1, 3, 20⟩, ⟨2, 1, 30⟩, ⟨3, 0, 0⟩], 2, 1, 2, 1⟩, 1, 20) ∧
    (Sys.mk ⟨true, true, 4, some [⟨0, 2, 10⟩, ⟨1, 2, 20⟩, ⟨2, 1, 30⟩, ⟨3, 0, 0⟩], 2, 1, 2, 0⟩
        (some (2, 30)) none (some (1, 20))).committed = some (1, 20) :=
  ⟨by decide, by decide, by decide, by decide,
    latest_wins_delivery_of_run (clearedPool true true 4)
      [.getPut 10, .donePut 1, .getPut 20, .donePut 1, .getPut 30]
      ⟨⟨true, true, 4, some [⟨0, 2, 10⟩, ⟨1, 2, 20⟩, ⟨2, 1, 30⟩, ⟨3, 0, 0⟩], 2, 1, 2, 0⟩,
        some (2, 30), none, some (1, 20)⟩
      0 ⟨true, true, 4, some [⟨0, 2, 10⟩, ⟨1, 3, 20⟩, ⟨2, 1, 30⟩, ⟨3, 0, 0⟩], 2, 1, 2, 1⟩ 1 20
      (by decide) (by decide) (by decide) (by decide) (by decide)⟩

/-! ## Frame pool: FIFO order -/

theorem FifoState_of_cleared {p : PclDataRingBuffer} {N : Nat} (ts : List Nat)
    (hclear : IsCleared p) (hfifo : p.last_mode_ = false) (hcap : p.buffer_count_ = (N : Int)) :
    FifoState N ts 0 0 p := by
  unfold IsCleared at hclear
  cases hbd : p.buffer_data_ with
  | none => simp [hbd] at hclear
  | some bd =>
    simp only [hbd] at hclear
    obtain ⟨hlen, hall, hw, hr, _⟩ := hclear
    have hlenN : bd.length = N := by omega
    refine ⟨hfifo, hcap, by simp [hw], by simp [hr], bd, hbd, hlenN, ?_⟩
    intro i hi
    obtain ⟨slot, hslot⟩ := @readSlot_isSome_of_lt bd (i : Int) (by omega) (by omega)
    refine ⟨slot, hslot, ?_⟩
    have : ¬ (0 ≤ i ∧ i < 0) := by omega
    simp only [this, if_false]
    exact hall slot (readSlot_mem hslot)

theorem submitFrame_fifo {p : PclDataRingBuffer} {N k : Nat} {ts : List Nat} {t : Nat}
    (h : FifoState N ts 0 k p) (hk : k < N) (ht : ts[k]? = some t) :
    ∃ p', submitFrame p t = .ok (p', (k : Int), 0) ∧ FifoState N ts 0 (k + 1) p' := by
  obtain ⟨hfifo, hcap, hw, hr, bd, hbd, hlen, hall⟩ := h
  have hkN : k % N = k := Nat.mod_eq_of_lt hk
  rw [hkN] at hw
  obtain ⟨slot, hslot, hst⟩ := hall k hk
  have hnk : ¬ (0 ≤ k ∧ k < k) := by omega
  simp only [hnk, if_false] at hst
  rw [← hw] at hslot
  have hgr : ¬ (slot.state = 3 ∨ (p.allow_overwrite_ = false ∧ slot.state ≠ 0)) := by
    rw [hst]; simp
  have hput := GetPutBuffer_granted t hbd hslot hgr
  have hself := readSlot_writeSlot_self { slot with time := t, state := 1 } hslot
  have hcommit := DonePutBuffer_commit
    (p := { p with
              buffer_data_ := some (writeSlot bd p.write_inex_ { slot with time := t, state := 1 }),
              put_index_ := p.write_inex_ })
    p.write_inex_ 1 rfl (by simp only [length_writeSlot]; omega) rfl hself rfl
  have hge : p.write_inex_ ≥ 0 := by omega
  simp only [show ¬ ((1 : Int) = 0) from by decide, if_false] at hcommit
  have hsub : submitFrame p t = .ok
      ({ p with
          buffer_data_ :=
            some (writeSlot (writeSlot bd p.write_inex_ { slot with time := t, state := 1 })
              p.write_inex_ { inedx := slot.inedx, state := 2, time := t }),
          write_inex_ := if p.write_inex_ + 1 ≥ p.buffer_count_ then 0 else p.write_inex_ + 1,
          read_index_ := if p.last_mode_ = true then p.write_inex_ else p.read_index_,
          put_index_ := p.write_inex_ }, (k : Int), 0) := by
    unfold submitFrame
    rw [hput]
    simp only [Outcome.bind, hge, if_true]
    rw [hcommit]
    simp only [hw]
  refine ⟨_, hsub, ?_⟩
  · have hself2 := readSlot_writeSlot_self
      ({ inedx := slot.inedx, state := 2, time := t } : BufferData) hself
    refine ⟨hfifo, hcap, ?_, by simp only [hfifo, Bool.false_eq_true, if_false]; exact hr, _, rfl,
      by simp only [length_writeSlot]; exact hlen, ?_⟩
    · simp only [hcap, hw]
      by_cases hlast : k + 1 = N
      · have : ((k : Int) + 1 ≥ (N : Int)) := by omega
        simp [this, hlast]
      · have : ¬ ((k : Int) + 1 ≥ (N : Int)) := by omega
        have hm : (k + 1) % N = k + 1 := Nat.mod_eq_of_lt (by omega)
        simp only [this, if_false, hm]
        push_cast
        rfl
    · intro i hi
      by_cases hik : i = k
      · subst hik
        rw [← hw]
        refine ⟨_, hself2, ?_⟩
        have : 0 ≤ i ∧ i < i + 1 := by omega
        simp only [this, and_self, if_true]
        exact ⟨trivial, ht.symm⟩
      · obtain ⟨sl, hsl, hcond⟩ := hall i hi
        have hne : p.write_inex_ ≠ (i : Int) := by omega
        refine ⟨sl, by rw [readSlot_writeSlot_of_ne _ hne, readSlot_writeSlot_of_ne _ hne, hsl], ?_⟩
        have hiff : (0 ≤ i ∧ i < k + 1) ↔ (0 ≤ i ∧ i < k) := by omega
        simp only [hiff]
        exact hcond

theorem readFrame_fifo {p : PclDataRingBuffer} {N j k : Nat} {ts : List Nat}
    (h : FifoState N ts j k p) (hjk : j < k) (hkN : k ≤ N) :
    ∃ p' t, ts[j]? = some t ∧ readFrame p = .ok (p', (j : Int), t) ∧
      FifoState N ts (j + 1) k p' := by
  obtain ⟨hfifo, hcap, hw, hr, bd, hbd, hlen, hall⟩ := h
  have hjN : j % N = j := Nat.mod_eq_of_lt (by omega)
  rw [hjN] at hr
  obtain ⟨slot, hslot, hst⟩ := hall j (by omega)
  have hin : j ≤ j ∧ j < k := by omega
  simp only [hin, and_self, if_true] at hst
  obtain ⟨h2, htime⟩ := hst
  rw [← hr] at hslot
  obtain ⟨p1, hp1⟩ := GetGetBuffer_ready_ok 0 hbd hslot h2 (Or.inl hfifo)
  obtain ⟨_, _, hget, hw1, _, hcnt1, hlm1, _, hread1, bd1, hbd1, hlen1, hs3, hall1⟩ :=
    GetGetBuffer_ready hbd hslot h2 hp1
  have hrel := DoneGetBuffer_release (p := p1) p.read_index_ hbd1
    (by rw [hlen1, hcnt1, hcap]; omega) hget.symm hs3
  have hge : p.read_index_ ≥ 0 := by omega
  simp only at hrel
  refine ⟨{ p1 with
            buffer_data_ := some (writeSlot bd1 p.read_index_
              { inedx := slot.inedx, state := 0, time := slot.time }) },
    slot.time, htime.symm, ?_, ?_⟩
  · unfold readFrame
    rw [hp1]
    simp only [Outcome.bind, hge, if_true]
    rw [hrel]
    simp only [hr]
  · have hself := readSlot_writeSlot_self
      ({ inedx := slot.inedx, state := 0, time := slot.time } : BufferData) hs3
    refine ⟨hlm1.trans hfifo, hcnt1.trans hcap, hw1.trans hw, ?_, _, rfl,
      by simp only [length_writeSlot]; omega, ?_⟩
    · simp only
      rw [hread1]
      simp only [hfifo, Bool.false_eq_true, if_false, hcap, hr]
      by_cases hlast : j + 1 = N
      · have : ((j : Int) + 1 ≥ (N : Int)) := by omega
        simp [this, hlast]
      · have : ¬ ((j : Int) + 1 ≥ (N : Int)) := by omega
        have hm : (j + 1) % N = j + 1 := Nat.mod_eq_of_lt (by omega)
        simp only [this, if_false, hm]
        push_cast
        rfl
    · intro i hi
      by_cases hij : i = j
      · subst hij
        rw [← hr]
        refine ⟨_, hself, ?_⟩
        have : ¬ (i + 1 ≤ i ∧ i < k) := by omega
        simp only [this, if_false]
      · obtain ⟨sl, hsl, hcond⟩ := hall i hi
        have hne : (i : Int) ≠ p.read_index_ := by omega
        have hsame : readSlot bd1 (i : Int) = readSlot bd (i : Int) := by
          rcases hall1 _ hne with h' | ⟨hl, _⟩
          · exact h'
          · rw [hfifo] at hl
            cases hl
        refine ⟨sl, by rw [readSlot_writeSlot_of_ne _ (Ne.symm hne), hsame, hsl], ?_⟩
        have hiff : (j + 1 ≤ i ∧ i < k) ↔ (j ≤ i ∧ i < k) := by omega
        simp only [hiff]
        exact hcond

theorem submitFrames_fifo (N : Nat) :
    ∀ (rest done : List Nat) (p : PclDataRingBuffer),
      done.length + rest.length ≤ N → FifoState N (done ++ rest) 0 done.length p →
      ∃ p1, submitFrames p rest =
          .ok (p1, (List.range' done.length rest.length).map fun (i : Nat) => ((i : Int), (0 : Int))) ∧
        FifoState N (done ++ rest) 0 (done.length + rest.length) p1 := by
  intro rest
  induction rest with
  | nil =>
    intro done p _ h
    exact ⟨p, by simp [submitFrames], by simpa using h⟩
  | cons t rest ih =>
    intro done p hle h
    simp only [List.length_cons] at hle
    have ht : (done ++ t :: rest)[done.length]? = some t := by
      rw [List.getElem?_append_right (le_refl _)]
      simp
    obtain ⟨p', hsub, h'⟩ := submitFrame_fifo h (by omega) ht
    have happ : done ++ t :: rest = (done ++ [t]) ++ rest := by simp
    rw [happ] at h'
    have hlen' : (done ++ [t]).length = done.length + 1 := by simp
    rw [← hlen'] at h'
    obtain ⟨p1, hrest, h1⟩ := ih (done ++ [t]) p' (by rw [hlen']; omega) h'
    refine ⟨p1, ?_, ?_⟩
    · simp only [submitFrames, hsub, Outcome.bind, hrest, hlen', List.length_cons,
        List.range'_succ, List.map_cons]
    · rw [happ]
      have : done.length + (t :: rest).length = (done ++ [t]).length + rest.length := by
        simp only [List.length_cons, hlen']; omega
      rw [this]
      exact h1

theorem readFrames_fifo (N k : Nat) (ts : List Nat) (hkN : k ≤ N) :
    ∀ (m j : Nat) (p : PclDataRingBuffer), j + m ≤ k → FifoState N ts j k p →
      ∃ p2, readFrames p m =
          .ok (p2, (List.range' j m).map fun (i : Nat) => ((i : Int), ts.getD i 0)) ∧
        FifoState N ts (j + m) k p2 := by
  intro m
  induction m with
  | zero =>
    intro j p _ h
    exact ⟨p, by simp [readFrames], by simpa using h⟩
  | succ m ih =>
    intro j p hle h
    obtain ⟨p', t, ht, hread, h'⟩ := readFrame_fifo h (by omega) hkN
    obtain ⟨p2, hrest, h2⟩ := ih (j + 1) p' (by omega) h'
    refine ⟨p2, ?_, ?_⟩
    · have hd : ts.getD j 0 = t := by simp [List.getD, ht]
      simp only [readFrames, hread, Outcome.bind, hrest, List.range'_succ, List.map_cons, hd]
    · have : j + (m + 1) = j + 1 + m := by omega
      rw [this]
      exact h2

/-- C3 (as amended: capacity at least 1): in FIFO mode (`last_mode_ = false`,
either overwrite setting), on a cleared pool of `N ≥ 1` slots and for time
stamps `ts` with `ts.length ≤ N`, the producer's `GetPutBuffer` /
`DonePutBuffer(valid)` pairs all succeed on slots `0, 1, ...` in order, the same
number of `GetGetBuffer` / `DoneGetBuffer` pairs then return slot `i` with time
`ts[i]` for `i = 0, 1, ...` in that order, and a further `GetGetBuffer` returns
-1 and changes nothing. -/
theorem C3_fifo_ordering (p0 : PclDataRingBuffer) (N : Nat) (ts : List Nat)
    (hclear : IsCleared p0) (hfifo : p0.last_mode_ = false)
    (hcap : p0.buffer_count_ = (N : Int)) (hN : 1 ≤ N) (hn : ts.length ≤ N) :
    ∃ p1 p2,
      submitFrames p0 ts =
        .ok (p1, (List.range ts.length).map fun (i : Nat) => ((i : Int), (0 : Int))) ∧
      readFrames p1 ts.length =
        .ok (p2, (List.range ts.length).map fun (i : Nat) => ((i : Int), ts.getD i 0)) ∧
      ∀ time_get, p2.GetGetBuffer time_get = .ok (p2, -1, time_get) := by
  have h0 : FifoState N ([] ++ ts) 0 ([] : List Nat).length p0 := by
    simpa using FifoState_of_cleared ts hclear hfifo hcap
  obtain ⟨p1, hsub, h1⟩ := submitFrames_fifo N ts [] p0 (by simpa using hn) h0
  simp only [List.nil_append, List.length_nil, Nat.zero_add] at hsub h1
  obtain ⟨p2, hread, h2⟩ := readFrames_fifo N ts.length ts hn ts.length 0 p1 (by omega) h1
  simp only [Nat.zero_add] at h2
  refine ⟨p1, p2, ?_, ?_, ?_⟩
  · rw [List.range_eq_range']
    exact hsub
  · rw [List.range_eq_range']
    exact hread
  · intro time_get
    obtain ⟨_, _, _, hr, bd, hbd, hlen, hall⟩ := h2
    have hlt : ts.length % N < N := Nat.mod_lt _ (by omega)
    obtain ⟨slot, hslot, hst⟩ := hall (ts.length % N) hlt
    have hno : ¬ (ts.length ≤ ts.length % N ∧ ts.length % N < ts.length) := by omega
    simp only [hno, if_false] at hst
    rw [← hr] at hslot
    exact GetGetBuffer_not_ready time_get hbd hslot (by omega)

/-- C3 on a cleared FIFO pool of three slots and the three frames with times
5, 6, 7: they are written to slots 0, 1, 2 and read back in that order. -/
theorem C3_fifo_ordering_witness :
    IsCleared (clearedPool false false 3) ∧
    ∃ p1 p2,
      submitFrames (clearedPool false false 3) [5, 6, 7] = .ok (p1, [(0, 0), (1, 0), (2, 0)]) ∧
      readFrames p1 3 = .ok (p2, [(0, 5), (1, 6), (2, 7)]) ∧
      ∀ time_get, p2.GetGetBuffer time_get = .ok (p2, -1, time_get) :=
  ⟨by decide,
    C3_fifo_ordering (clearedPool false false 3) 3 [5, 6, 7] (by decide) (by decide) (by decide)
      (by decide) (by decide)⟩

/-- C3 as stated fails for capacity 0 (with `n = 0`): nothing is written or
read, and the further `GetGetBuffer` does not return -1 but reads
`buffer_data_[0]` of an array of no slots. -/
theorem C3_capacity_zero_counterexample :
    submitFrames (clearedPool false false 0) [] = .ok (clearedPool false false 0, []) ∧
    readFrames (clearedPool false false 0) 0 = .ok (clearedPool false false 0, []) ∧
    (clearedPool false false 0).GetGetBuffer 0 = .outOfBounds ∧
    ¬ ∃ p', (clearedPool false false 0).GetGetBuffer 0 = .ok (p', -1, 0) :=
  ⟨by decide, by decide, by decide, fun ⟨_, h⟩ =>
    Outcome.noConfusion
      ((show (clearedPool false false 0).GetGetBuffer 0 = .outOfBounds from by decide).symm.trans h)⟩

/-! ## Frame pool: the stale-frame walk leaves a stale frame -/

/-- C2 at capacity 4 with three frames (times 10, 20, 30) in latest-wins,
no-overwrite mode: `GetGetBuffer` returns slot 2 with time 30, the newest frame,
clears slot 1, and leaves slot 0 in state 2 (Ready) with the oldest frame. -/
theorem C2_stale_frame_left_ready :
    ∃ p1 p2,
      submitFrames (clearedPool true false 4) [10, 20, 30] = .ok (p1, [(0, 0), (1, 0), (2, 0)]) ∧
      p1.GetGetBuffer 0 = .ok (p2, 2, 30) ∧
      p2.stateAt 2 = some 3 ∧ p2.stateAt 1 = some 0 ∧ p2.stateAt 0 = some 2 ∧
      p2.timeAt 0 = some 10 :=
  ⟨⟨true, false, 4, some [⟨0, 2, 10⟩, ⟨1, 2, 20⟩, ⟨2, 2, 30⟩, ⟨3, 0, 0⟩], 3, 2, 2, 0⟩,
    ⟨true, false, 4, some [⟨0, 2, 10⟩, ⟨1, 0, 20⟩, ⟨2, 3, 30⟩, ⟨3, 0, 0⟩], 3, 2, 2, 2⟩,
    by decide, by decide, by decide, by decide, by decide, by decide⟩

/-! ## Point cloud construction: where each pixel's point lands -/

theorem length_vectorResize (v : List PointXYZRGBA) (n : Nat) : (vectorResize v n).length = n := by
  simp only [vectorResize, List.length_append, List.length_take, List.length_replicate]
  omega

theorem points_foldl_push_back (f : Nat → PointXYZRGBA) :
    ∀ (l : List Nat) (c : PointCloud),
      (l.foldl (fun c j => c.push_back (f j)) c).points = c.points ++ l.map f := by
  intro l
  induction l with
  | nil => intro c; simp
  | cons a l ih =>
    intro c
    simp only [List.foldl_cons, List.map_cons]
    rw [ih]
    simp [PointCloud.push_back]

theorem points_foldl_rows (W : Nat) (f : Nat → Nat → PointXYZRGBA) :
    ∀ (l : List Nat) (c : PointCloud),
      (l.foldl (fun c i => (List.range W).foldl (fun c j => c.push_back (f i j)) c) c).points =
        c.points ++ l.flatMap fun i => (List.range W).map (f i) := by
  intro l
  induction l with
  | nil => intro c; simp
  | cons a l ih =>
    intro c
    simp only [List.foldl_cons, List.flatMap_cons]
    rw [ih, points_foldl_push_back]
    simp

theorem length_rows (W : Nat) (f : Nat → Nat → PointXYZRGBA) (H : Nat) :
    ((List.range H).flatMap fun i => (List.range W).map (f i)).length = H * W := by
  induction H with
  | zero => simp
  | succ H ih =>
    rw [List.range_succ, List.flatMap_append, List.length_append, ih]
    simp [Nat.succ_mul]

theorem getElem?_rows (W : Nat) (f : Nat → Nat → PointXYZRGBA) :
    ∀ (H r c : Nat), r < H → c < W →
      ((List.range H).flatMap fun i => (List.range W).map (f i))[r * W + c]? = some (f r c) := by
  intro H
  induction H with
  | zero => intro r c hr; omega
  | succ H ih =>
    intro r c hr hc
    rw [List.range_succ, List.flatMap_append]
    by_cases hrH : r < H
    · have hlt : r * W + c < H * W := by
        calc r * W + c < r * W + W := by omega
          _ = (r + 1) * W := by rw [Nat.succ_mul]
          _ ≤ H * W := Nat.mul_le_mul_right W hrH
      rw [List.getElem?_append_left (by rw [length_rows]; exact hlt)]
      exact ih r c hrH hc
    · have hrE : r = H := by omega
      subst hrE
      rw [List.getElem?_append_right (by rw [length_rows]; omega), length_rows]
      simp [List.getElem?_range hc]

theorem points_pushPixels (W H : Nat) (d_inf base_length bf min_distance max_distance : ℚ)
    (xc yc : Int) (base_image : Mat (Nat → Nat)) (depth_data : Mat ℚ) (cloud : PointCloud) :
    (pushPixels W H d_inf base_length bf min_distance max_distance xc yc base_image depth_data
        cloud).points =
      cloud.points ++ (List.range H).flatMap fun i => (List.range W).map fun j =>
        pixelPoint d_inf base_length bf min_distance max_distance xc yc i j
          (depth_data.px i j) (base_image.px i j) := by
  unfold pushPixels
  exact points_foldl_rows W
    (fun i j => pixelPoint d_inf base_length bf min_distance max_distance xc yc i j
      (depth_data.px i j) (base_image.px i j)) (List.range H) cloud

theorem points_BuildPointCloud (W H : Nat) (d_inf base_length bf min_distance max_distance : ℚ)
    (base_image : Mat (Nat → Nat)) (depth_data : Mat ℚ) (cloud : PointCloud)
    (htype : base_image.type = CV_8UC3 ∨ base_image.type = CV_8UC4) :
    (BuildPointCloud W H d_inf base_length bf min_distance max_distance base_image depth_data
        cloud).points =
      vectorResize cloud.points (presize W H) ++
        (List.range H).flatMap fun i => (List.range W).map fun j =>
          pixelPoint d_inf base_length bf min_distance max_distance
            ((W / 2 : Nat) : Int) ((H / 2 : Nat) : Int) i j
            (depth_data.px i j) (base_image.px i j) := by
  unfold BuildPointCloud
  rcases htype with h3 | h4
  · simp only [h3, if_true]
    rw [points_pushPixels]
  · have hne : ¬ CV_8UC4 = CV_8UC3 := by decide
    simp only [h4, hne, if_true, if_false]
    rw [points_pushPixels]

theorem emittedPoint_BuildPointCloud (W H : Nat)
    (d_inf base_length bf min_distance max_distance : ℚ)
    (base_image : Mat (Nat → Nat)) (depth_data : Mat ℚ) (cloud : PointCloud)
    (htype : base_image.type = CV_8UC3 ∨ base_image.type = CV_8UC4)
    (r c : Nat) (hr : r < H) (hc : c < W) :
    emittedPoint W H
        (BuildPointCloud W H d_inf base_length bf min_distance max_distance base_image
          depth_data cloud) r c =
      some (pixelPoint d_inf base_length bf min_distance max_distance
        ((W / 2 : Nat) : Int) ((H / 2 : Nat) : Int) r c
        (depth_data.px r c) (base_image.px r c)) := by
  unfold emittedPoint
  rw [points_BuildPointCloud W H d_inf base_length bf min_distance max_distance base_image
    depth_data cloud htype, Nat.add_assoc,
    List.getElem?_append_right (by rw [length_vectorResize]; omega), length_vectorResize,
    Nat.add_sub_cancel_left]
  exact getElem?_rows W _ H r c hr hc

/-! ## Point cloud construction: size, depth, coordinates and range test -/

/-- C5 at a 2×1 frame of type `CV_8UC3` (disparity 3 everywhere, `d_inf = 2`,
`base_length = 1/10`, `bf = 60`, range `[1/2, 100)`): `BuildPointCloud` on a
fresh cloud yields 4 points, not `W*H = 2`; positions 0 and 1 hold
default-constructed points and the points of pixels (0,0) and (0,1) are at
positions 2 and 3. -/
theorem C5_presize_then_append :
    (BuildPointCloud 2 1 2 (1 / 10) 60 (1 / 2) 100 ⟨CV_8UC3, fun _ _ ch => ch + 1⟩
        ⟨5, fun _ _ => 3⟩ PointCloud.fresh).points =
      [PointXYZRGBA.zero, PointXYZRGBA.zero,
        ⟨.num (1 / 10), .num 0, .num 60, 3, 2, 1⟩, ⟨.num 0, .num 0, .num 60, 3, 2, 1⟩] ∧
    (BuildPointCloud 2 1 2 (1 / 10) 60 (1 / 2) 100 ⟨CV_8UC3, fun _ _ ch => ch + 1⟩
        ⟨5, fun _ _ => 3⟩ PointCloud.fresh).points.length ≠ 2 * 1 := by
  have h : (BuildPointCloud 2 1 2 (1 / 10) 60 (1 / 2) 100 ⟨CV_8UC3, fun _ _ ch => ch + 1⟩
        ⟨5, fun _ _ => 3⟩ PointCloud.fresh).points =
      [PointXYZRGBA.zero, PointXYZRGBA.zero,
        ⟨.num (1 / 10), .num 0, .num 60, 3, 2, 1⟩, ⟨.num 0, .num 0, .num 60, 3, 2, 1⟩] := by
    rw [points_BuildPointCloud _ _ _ _ _ _ _ _ _ _ (Or.inl rfl)]
    norm_num [vectorResize, presize, PointCloud.fresh, List.range, List.range.loop, pixelPoint,
      List.replicate]
  refine ⟨h, ?_⟩
  rw [h]
  decide

theorem pixelPoint_in_range {d_inf base_length bf min_distance max_distance : ℚ} {xc yc : Int}
    {i j : Nat} {d : ℚ} {pix : Nat → Nat} (hv : d - d_inf > 0)
    (hz : min_distance ≤ bf / (d - d_inf) ∧ bf / (d - d_inf) < max_distance) :
    pixelPoint d_inf base_length bf min_distance max_distance xc yc i j d pix =
      { x := .num (-1 * ((base_length * (((j : Int) - xc : Int) : ℚ)) / (d - d_inf))),
        y := .num ((base_length * ((yc - (i : Int) : Int) : ℚ)) / (d - d_inf)),
        z := .num (bf / (d - d_inf)),
        r := pix 2, g := pix 1, b := pix 0 } := by
  unfold pixelPoint
  simp only [hv, if_true, ge_iff_le, hz, and_self]

theorem pixelPoint_out_of_range {d_inf base_length bf min_distance max_distance : ℚ}
    {xc yc : Int} {i j : Nat} {d : ℚ} {pix : Nat → Nat}
    (hz : ¬ (min_distance ≤ bf / (d - d_inf) ∧ bf / (d - d_inf) < max_distance)) :
    pixelPoint d_inf base_length bf min_distance max_distance xc yc i j d pix = point_nan := by
  unfold pixelPoint
  by_cases hv : d - d_inf > 0
  · simp only [hv, if_true, ge_iff_le, hz, if_false]
  · simp only [hv, if_false]

theorem pixelPoint_nonpositive {d_inf base_length bf min_distance max_distance : ℚ}
    {xc yc : Int} {i j : Nat} {d : ℚ} {pix : Nat → Nat} (hv : ¬ d - d_inf > 0) :
    pixelPoint d_inf base_length bf min_distance max_distance xc yc i j d pix = point_nan := by
  unfold pixelPoint
  simp only [hv, if_false]

/-- C6 (as amended): for every pixel (row `r`, column `c`) of a `CV_8UC3` or
`CV_8UC4` frame with disparity `d`: if `d > d_inf` and
`min_distance ≤ bf / (d - d_inf) < max_distance`, the point emitted for the
pixel has `z = bf / (d - d_inf)`; if `d > d_inf` but `bf / (d - d_inf)` is
outside `[min_distance, max_distance)`, or if `d ≤ d_inf`, the point emitted is
the invalid point whose `x`, `y` and `z` are all NaN. -/
theorem C6_reprojection_depth (W H : Nat) (d_inf base_length bf min_distance max_distance : ℚ)
    (base_image : Mat (Nat → Nat)) (depth_data : Mat ℚ) (cloud : PointCloud)
    (htype : base_image.type = CV_8UC3 ∨ base_image.type = CV_8UC4)
    (r c : Nat) (hr : r < H) (hc : c < W) :
    (depth_data.px r c > d_inf →
      (min_distance ≤ bf / (depth_data.px r c - d_inf) ∧
        bf / (depth_data.px r c - d_inf) < max_distance) →
      ∃ pt, emittedPoint W H (BuildPointCloud W H d_inf base_length bf min_distance max_distance
          base_image depth_data cloud) r c = some pt ∧
        pt.z = .num (bf / (depth_data.px r c - d_inf))) ∧
    (depth_data.px r c > d_inf →
      ¬ (min_distance ≤ bf / (depth_data.px r c - d_inf) ∧
        bf / (depth_data.px r c - d_inf) < max_distance) →
      ∃ pt, emittedPoint W H (BuildPointCloud W H d_inf base_length bf min_distance max_distance
          base_image depth_data cloud) r c = some pt ∧
        pt.x = .nan ∧ pt.y = .nan ∧ pt.z = .nan) ∧
    (depth_data.px r c ≤ d_inf →
      ∃ pt, emittedPoint W H (BuildPointCloud W H d_inf base_length bf min_distance max_distance
          base_image depth_data cloud) r c = some pt ∧
        pt.x = .nan ∧ pt.y = .nan ∧ pt.z = .nan) := by
  rw [emittedPoint_BuildPointCloud W H d_inf base_length bf min_distance max_distance base_image
    depth_data cloud htype r c hr hc]
  refine ⟨?_, ?_, ?_⟩
  · intro hd hz
    have hv : depth_data.px r c - d_inf > 0 := by linarith
    exact ⟨_, rfl, by rw [pixelPoint_in_range hv hz]⟩
  · intro _ hz
    exact ⟨_, rfl, by rw [pixelPoint_out_of_range hz]; exact ⟨rfl, rfl, rfl⟩⟩
  · intro hd
    have hv : ¬ depth_data.px r c - d_inf > 0 := by linarith
    exact ⟨_, rfl, by rw [pixelPoint_nonpositive hv]; exact ⟨rfl, rfl, rfl⟩⟩

/-- C6 at a 1×1 `CV_8UC3` frame with disparity 3, `d_inf = 2`, `bf = 60` and
range `[1/2, 100)`: the emitted point has `z = 60 / (3 - 2)`. -/
theorem C6_reprojection_depth_witness :
    ∃ pt, emittedPoint 1 1 (BuildPointCloud 1 1 2 (1 / 10) 60 (1 / 2) 100
        ⟨CV_8UC3, fun _ _ ch => ch + 1⟩ ⟨5, fun _ _ => 3⟩ PointCloud.fresh) 0 0 = some pt ∧
      pt.z = .num (60 / (3 - 2)) :=
  (C6_reprojection_depth 1 1 2 (1 / 10) 60 (1 / 2) 100 ⟨CV_8UC3, fun _ _ ch => ch + 1⟩
    ⟨5, fun _ _ => 3⟩ PointCloud.fresh (Or.inl rfl) 0 0 (by decide) (by decide)).1
    (by norm_num) (by norm_num)

/-- C6 as stated fails: at a 1×1 `CV_8UC3` frame with disparity `3 > d_inf = 2`,
`bf = 60` and range `[1/2, 50)`, the depth `60 / (3 - 2) = 60` is not below
`max_distance`, and the emitted point is the NaN point, not one with `z = 60`. -/
theorem C6_depth_counterexample :
    (3 : ℚ) > 2 ∧
    emittedPoint 1 1 (BuildPointCloud 1 1 2 (1 / 10) 60 (1 / 2) 50
        ⟨CV_8UC3, fun _ _ ch => ch + 1⟩ ⟨5, fun _ _ => 3⟩ PointCloud.fresh) 0 0 =
      some point_nan ∧
    point_nan.z ≠ .num (60 / (3 - 2)) := by
  refine ⟨by norm_num, ?_, by simp [point_nan]⟩
  rw [emittedPoint_BuildPointCloud _ _ _ _ _ _ _ _ _ _ (Or.inl rfl) 0 0 (by decide) (by decide)]
  norm_num [pixelPoint]

/-! ## Frame pool: discarding a write, releasing a read -/

/-- C11: on an initialised pool (allocated array of `buffer_count_` slots), when
`GetPutBuffer(time)` has just returned slot `i`, `DonePutBuffer(i, 0)` returns 0,
puts slot `i` back to state 0 (Idle) and leaves the write and read cursors where
they were, the write cursor still on `i`: the next `GetPutBuffer` hands out the
same slot `i`, and a `GetGetBuffer` made now does not return slot `i`; whereas
`DonePutBuffer(i, status)` with `status ≠ 0` returns 0 and leaves slot `i` in
state 2 (Ready) with the time given to `GetPutBuffer`. -/
theorem C11_DonePutBuffer_discard_or_commit (p p1 : PclDataRingBuffer) (bd : List BufferData)
    (time : Nat) (i : Int)
    (hbd : p.buffer_data_ = some bd) (hlen : (bd.length : Int) = p.buffer_count_)
    (hget : p.GetPutBuffer time = .ok (p1, i)) (hi : i ≠ -1) :
    (∃ p2, p1.DonePutBuffer i 0 = .ok (p2, 0) ∧ p2.stateAt i = some 0 ∧
      p2.write_inex_ = p1.write_inex_ ∧ p2.read_index_ = p1.read_index_ ∧
      p2.write_inex_ = p.write_inex_ ∧ p2.read_index_ = p.read_index_ ∧
      p2.write_inex_ = i ∧
      (∀ j, j ≠ i → p2.stateAt j = p.stateAt j ∧ p2.timeAt j = p.timeAt j) ∧
      (∀ time', ∃ p3, p2.GetPutBuffer time' = .ok (p3, i)) ∧
      (∀ time_get p3 idx t, p2.GetGetBuffer time_get = .ok (p3, idx, t) → idx ≠ i)) ∧
    (∀ status, status ≠ 0 →
      ∃ p2, p1.DonePutBuffer i status = .ok (p2, 0) ∧ p2.stateAt i = some 2 ∧
        p2.timeAt i = some time) := by
  cases hs : readSlot bd p.write_inex_ with
  | none => simp [GetPutBuffer, hbd, hs] at hget
  | some slot =>
    by_cases href : slot.state = 3 ∨ (p.allow_overwrite_ = false ∧ slot.state ≠ 0)
    · rw [GetPutBuffer_refused time hbd hs href] at hget
      simp only [Outcome.ok.injEq, Prod.mk.injEq] at hget
      exact absurd hget.2.symm hi
    · rw [GetPutBuffer_granted time hbd hs href] at hget
      simp only [Outcome.ok.injEq, Prod.mk.injEq] at hget
      obtain ⟨hp1, hidx⟩ := hget
      subst hp1
      subst hidx
      have hself := readSlot_writeSlot_self { slot with time := time, state := 1 } hs
      have hlen1 : ((writeSlot bd p.write_inex_
          { slot with time := time, state := 1 }).length : Int) = p.buffer_count_ := by
        rw [length_writeSlot]; exact hlen
      constructor
      · have hc := DonePutBuffer_commit
          (p := { p with
                    buffer_data_ := some (writeSlot bd p.write_inex_
                      { slot with time := time, state := 1 }),
                    put_index_ := p.write_inex_ })
          p.write_inex_ 0 rfl hlen1 rfl hself rfl
        simp only [if_true] at hc
        have hself0 := readSlot_writeSlot_self
          ({ inedx := slot.inedx, state := 0, time := time } : BufferData) hself
        refine ⟨_, hc, ?_, rfl, rfl, rfl, rfl, rfl, ?_, ?_, ?_⟩
        · simp [stateAt, hself0]
        · intro j hj
          simp [stateAt, timeAt, hbd, readSlot_writeSlot_of_ne _ (Ne.symm hj)]
        · intro time'
          exact ⟨_, GetPutBuffer_granted (p := { p with
                    buffer_data_ := some (writeSlot (writeSlot bd p.write_inex_
                      { slot with time := time, state := 1 }) p.write_inex_
                      { inedx := slot.inedx, state := 0, time := time }),
                    put_index_ := p.write_inex_ }) time' rfl hself0 (by simp)⟩
        · intro time_get p3 idx t hgg hidx
          subst hidx
          cases hrs : readSlot (writeSlot (writeSlot bd p.write_inex_
              { slot with time := time, state := 1 }) p.write_inex_
              { inedx := slot.inedx, state := 0, time := time }) p.read_index_ with
          | none => simp [GetGetBuffer, hrs] at hgg
          | some sl =>
            by_cases h2 : sl.state = 2
            · have hr := (GetGetBuffer_ready (p := { p with
                    buffer_data_ := some (writeSlot (writeSlot bd p.write_inex_
                      { slot with time := time, state := 1 }) p.write_inex_
                      { inedx := slot.inedx, state := 0, time := time }),
                    put_index_ := p.write_inex_ }) rfl hrs h2 hgg).1
              simp only at hr
              rw [← hr, hself0] at hrs
              have := Option.some.inj hrs
              subst this
              simp at h2
            · rw [GetGetBuffer_not_ready (p := { p with
                    buffer_data_ := some (writeSlot (writeSlot bd p.write_inex_
                      { slot with time := time, state := 1 }) p.write_inex_
                      { inedx := slot.inedx, state := 0, time := time }),
                    put_index_ := p.write_inex_ }) time_get rfl hrs h2] at hgg
              simp only [Outcome.ok.injEq, Prod.mk.injEq] at hgg
              have hw := readSlot_lt_length hs
              omega
      · intro status hst
        have hc := DonePutBuffer_commit
          (p := { p with
                    buffer_data_ := some (writeSlot bd p.write_inex_
                      { slot with time := time, state := 1 }),
                    put_index_ := p.write_inex_ })
          p.write_inex_ status rfl hlen1 rfl hself rfl
        simp only [hst, if_false] at hc
        have hself2 := readSlot_writeSlot_self
          ({ inedx := slot.inedx, state := 2, time := time } : BufferData) hself
        exact ⟨_, hc, by simp [stateAt, hself2], by simp [timeAt, hself2]⟩

/-- C11 on the pipeline's cleared pool: `GetPutBuffer(7)` returns slot 0, and
`DonePutBuffer(0, 0)` puts it back to state 0 with the write cursor still 0. -/
theorem C11_DonePutBuffer_discard_or_commit_witness :
    (clearedPool true true 4).GetPutBuffer 7 =
      .ok (⟨true, true, 4, some [⟨0, 1, 7⟩, ⟨1, 0, 0⟩, ⟨2, 0, 0⟩, ⟨3, 0, 0⟩], 0, 0, 0, 0⟩, 0) ∧
    ∃ p2, (PclDataRingBuffer.mk true true 4
        (some [⟨0, 1, 7⟩, ⟨1, 0, 0⟩, ⟨2, 0, 0⟩, ⟨3, 0, 0⟩]) 0 0 0 0).DonePutBuffer 0 0 =
        .ok (p2, 0) ∧ p2.stateAt 0 = some 0 ∧ p2.write_inex_ = 0 :=
  ⟨by decide,
    let ⟨p2, h1, h2, _, _, _, _, h7, _⟩ :=
      (C11_DonePutBuffer_discard_or_commit (clearedPool true true 4)
        ⟨true, true, 4, some [⟨0, 1, 7⟩, ⟨1, 0, 0⟩, ⟨2, 0, 0⟩, ⟨3, 0, 0⟩], 0, 0, 0, 0⟩
        [⟨0, 0, 0⟩, ⟨1, 0, 0⟩, ⟨2, 0, 0⟩, ⟨3, 0, 0⟩] 7 0 (by decide) (by decide) (by decide)
        (by decide)).1
    ⟨p2, h1, h2, h7⟩⟩

/-- Release by the last-get cursor: for every pool, `DoneGetBuffer(index)` with an index out of range
(`index < 0` or `index ≥ buffer_count_`) or different from the last-get cursor
leaves the pool exactly as it was; after a `GetGetBuffer` that returned a slot
the last-get cursor is the index it returned; and on an initialised pool
`DoneGetBuffer` with the matching in-range index puts that slot to state 0
(Idle), keeps its time, changes no other slot and moves no cursor. -/
theorem DoneGetBuffer_mismatch_ignored (p : PclDataRingBuffer) (index : Int) :
    ((index < 0 ∨ index ≥ p.buffer_count_ ∨ index ≠ p.geted_inedx_) →
      p.DoneGetBuffer index = .ok p) ∧
    (∀ time_get p1 idx t, p.GetGetBuffer time_get = .ok (p1, idx, t) → idx ≠ -1 →
      p1.geted_inedx_ = idx) ∧
    (∀ bd, p.buffer_data_ = some bd → (bd.length : Int) = p.buffer_count_ →
      0 ≤ index → index < p.buffer_count_ → index = p.geted_inedx_ →
      ∃ p', p.DoneGetBuffer index = .ok p' ∧ p'.stateAt index = some 0 ∧
        p'.timeAt index = p.timeAt index ∧
        (∀ j, j ≠ index → p'.stateAt j = p.stateAt j ∧ p'.timeAt j = p.timeAt j) ∧
        p'.write_inex_ = p.write_inex_ ∧ p'.read_index_ = p.read_index_ ∧
        p'.put_index_ = p.put_index_ ∧ p'.geted_inedx_ = p.geted_inedx_) := by
  refine ⟨?_, ?_, ?_⟩
  · intro h
    unfold DoneGetBuffer
    cases hbd : p.buffer_data_ with
    | none => rfl
    | some bd =>
      simp only
      by_cases hr : index < 0 ∨ index ≥ p.buffer_count_
      · simp only [hr, if_true]
      · have hne : index ≠ p.geted_inedx_ := by
          rcases h with h | h | h
          · exact absurd (Or.inl h) hr
          · exact absurd (Or.inr h) hr
          · exact h
        simp only [hr, if_false, hne, ne_eq, not_false_eq_true, if_true]
  · intro time_get p1 idx t hg hidx
    cases hbd : p.buffer_data_ with
    | none =>
      simp only [GetGetBuffer, hbd, Outcome.ok.injEq, Prod.mk.injEq] at hg
      exact absurd hg.2.1.symm hidx
    | some bd =>
      cases hs : readSlot bd p.read_index_ with
      | none => simp [GetGetBuffer, hbd, hs] at hg
      | some slot =>
        by_cases h2 : slot.state = 2
        · obtain ⟨hi, _, hget, _⟩ := GetGetBuffer_ready hbd hs h2 hg
          rw [hget, hi]
        · rw [GetGetBuffer_not_ready time_get hbd hs h2] at hg
          simp only [Outcome.ok.injEq, Prod.mk.injEq] at hg
          exact absurd hg.2.1.symm hidx
  · intro bd hbd hlen h0 h1 hidx
    obtain ⟨slot, hslot⟩ := @readSlot_isSome_of_lt bd index h0 (by omega)
    refine ⟨_, DoneGetBuffer_release index hbd hlen hidx hslot, ?_, ?_, ?_, rfl, rfl, rfl, rfl⟩
    · simp [stateAt, readSlot_writeSlot_self _ hslot]
    · simp [timeAt, hbd, hslot, readSlot_writeSlot_self _ hslot]
    · intro j hj
      simp [stateAt, timeAt, hbd, readSlot_writeSlot_of_ne _ (Ne.symm hj)]

/-! ## Pipeline: a frame that finds no slot -/

theorem DonePutBuffer_negative (p : PclDataRingBuffer) (index status : Int) (h : index < 0) :
    p.DonePutBuffer index status = .ok (p, -1) := by
  unfold DonePutBuffer
  cases p.buffer_data_ with
  | none => rfl
  | some bd => simp only [h, true_or, if_true]

/-- C13: when `RunPclViz` is called while the pipeline is active and the slot at
the write cursor is in state 3 (Reading) or, with `allow_overwrite_ = false`,
not in state 0 (Idle), `GetPutBuffer` returns -1, the following
`DonePutBuffer(-1, 0)` is rejected with -1, and `RunPclViz` returns 0 with the
pool (slot states, times, cursors) and every slot's content (images, disparity,
filter parameters) exactly as before. -/
theorem C13_dropped_frame_no_side_effect (c : PclVizControl) (time : Nat)
    (input_args : PclVizInputArgs) (output_args : PclVizOutputArgs)
    (bd : List BufferData) (slot : BufferData)
    (hactive : c.operation_status = OperationStatus.active)
    (hbd : c.pcl_data_ring_buffer.buffer_data_ = some bd)
    (hslot : readSlot bd c.pcl_data_ring_buffer.write_inex_ = some slot)
    (href : slot.state = 3 ∨
      (c.pcl_data_ring_buffer.allow_overwrite_ = false ∧ slot.state ≠ 0)) :
    c.pcl_data_ring_buffer.GetPutBuffer time = .ok (c.pcl_data_ring_buffer, -1) ∧
    c.pcl_data_ring_buffer.DonePutBuffer (-1) 0 = .ok (c.pcl_data_ring_buffer, -1) ∧
    ∃ c' out, RunPclViz c time input_args output_args = .ok (c', out, 0) ∧
      c'.pcl_data_ring_buffer = c.pcl_data_ring_buffer ∧
      c'.slot_content = c.slot_content := by
  have hput := GetPutBuffer_refused time hbd hslot href
  have hdone := DonePutBuffer_negative c.pcl_data_ring_buffer (-1) 0 (by decide)
  refine ⟨hput, hdone, ?_⟩
  unfold RunPclViz
  simp only [hactive, ne_eq, not_true_eq_false, if_false, hput, Outcome.bind,
    show ¬ ((-1 : Int) ≥ 0) from by decide, hdone]
  exact ⟨_, _, rfl, rfl, rfl⟩

/-- C13 on the running pipeline (pool of 4, latest-wins with overwrite) when the
consumer still holds slot 0 and the write cursor has come round to it: the frame
submitted at time 50 is dropped and the pool is as before. -/
theorem C13_dropped_frame_no_side_effect_witness :
    ∃ c' out,
      RunPclViz
        { runningControl 2 1 with
            pcl_data_ring_buffer :=
              ⟨true, true, 4, some [⟨0, 3, 10⟩, ⟨1, 2, 20⟩, ⟨2, 2, 30⟩, ⟨3, 2, 40⟩], 0, 3, 3, 0⟩ }
        50 sampleInputArgs emptyOutputArgs = .ok (c', out, 0) ∧
      c'.pcl_data_ring_buffer =
        ⟨true, true, 4, some [⟨0, 3, 10⟩, ⟨1, 2, 20⟩, ⟨2, 2, 30⟩, ⟨3, 2, 40⟩], 0, 3, 3, 0⟩ :=
  let ⟨c', out, h1, h2, _⟩ :=
    (C13_dropped_frame_no_side_effect
      { runningControl 2 1 with
          pcl_data_ring_buffer :=
            ⟨true, true, 4, some [⟨0, 3, 10⟩, ⟨1, 2, 20⟩, ⟨2, 2, 30⟩, ⟨3, 2, 40⟩], 0, 3, 3, 0⟩ }
      50 sampleInputArgs emptyOutputArgs
      [⟨0, 3, 10⟩, ⟨1, 2, 20⟩, ⟨2, 2, 30⟩, ⟨3, 2, 40⟩] ⟨0, 3, 10⟩
      (by decide) (by decide) (by decide) (Or.inl (by decide))).2.2
  ⟨c', out, h1, h2⟩

/-! ## Builder worker: one pass over an acquired frame -/

theorem PlaneDetection_fst (lib : Library) (threshold : ℚ) (cloud : PointCloud) :
    (PlaneDetection lib threshold cloud).1 =
      (lib.SACSegmentation threshold cloud).foldl paintRed cloud := by
  unfold PlaneDetection
  by_cases h : (lib.SACSegmentation threshold cloud).length = 0
  · simp only [h, if_true]
    rw [List.length_eq_zero.mp h]
    rfl
  · simp only [h, if_false]

theorem filterChain_eq_spec (lib : Library) (f : PclFilterParameter) (cloud : PointCloud) :
    filterChain lib f cloud = specFilterChain lib f cloud := by
  simp only [filterChain, specFilterChain, specStages, List.foldl, PlaneDetection_fst,
    PathThroughFilter, DownSampling, RadiusOutlierRemoval]

theorem specFilterChain_all_off (lib : Library) (f : PclFilterParameter) (cloud : PointCloud)
    (h1 : f.enabled_remove_nan = false) (h2 : f.enabled_pass_through_filter = false)
    (h3 : f.enabled_down_sampling = false) (h4 : f.enabled_radius_outlier_removal = false)
    (h5 : f.enabled_plane_detection = false) :
    specFilterChain lib f cloud = cloud := by
  simp [specFilterChain, specStages, h1, h2, h3, h4, h5]

/-- A pass of the builder's loop body over a Ready frame with non-empty
matrices: the slot goes Reading and back to Idle, the filtered cloud is put in
the mailbox and the draw semaphore is released. -/
theorem BuildPCLThread_body_publish (lib : Library) (c : PclVizControl)
    (pool1 pool2 : PclDataRingBuffer) (idx : Int) (t : Nat) (buffer_data : SlotContent)
    (hstop : c.thread_control_build_pcl.stop_request = false)
    (hget : c.pcl_data_ring_buffer.GetGetBuffer 0 = .ok (pool1, idx, t))
    (hidx : 0 ≤ idx)
    (hcontent : c.slot_content[idx.toNat]? = some buffer_data)
    (himg : (baseImageScaleFlip lib buffer_data.pcl_data).empty = false)
    (hdepth : (depthScaleFlip lib buffer_data.pcl_data).empty = false)
    (hdone : pool1.DoneGetBuffer idx = .ok pool2) :
    BuildPCLThread_body lib c =
      .ok (.again
        { c with
            pcl_data_ring_buffer := pool2,
            cloud := some (filterChain lib buffer_data.pcl_filter_parameter
              (BuildPointCloud (baseImageScaleFlip lib buffer_data.pcl_data).cols
                (baseImageScaleFlip lib buffer_data.pcl_data).rows
                c.viz_parameters.d_inf c.viz_parameters.base_length c.viz_parameters.bf
                c.viz_parameters.min_distance c.viz_parameters.max_distance
                (baseImageScaleFlip lib buffer_data.pcl_data).mat
                (depthScaleFlip lib buffer_data.pcl_data).mat PointCloud.fresh)),
            semaphore_pcl_draw :=
              releaseSemaphore c.handle_semaphore_pcl_draw c.semaphore_pcl_draw }) := by
  unfold BuildPCLThread_body
  simp only [hstop, hget, Outcome.bind, hidx, ge_iff_le, if_true, hcontent, himg, hdepth,
    hdone, Bool.false_eq_true, if_false]

/-- A Ready frame under the read cursor is acquired and released again by
`GetGetBuffer` followed by `DoneGetBuffer` on the returned index. -/
theorem get_then_done (p : PclDataRingBuffer) (bd : List BufferData) (slot : BufferData)
    (time_get : Nat) (hbd : p.buffer_data_ = some bd)
    (hlen : (bd.length : Int) = p.buffer_count_)
    (hslot : readSlot bd p.read_index_ = some slot) (h2 : slot.state = 2)
    (hmode : p.last_mode_ = false ∨ p.allow_overwrite_ = true) :
    ∃ pool1 pool2, p.GetGetBuffer time_get = .ok (pool1, p.read_index_, slot.time) ∧
      pool1.DoneGetBuffer p.read_index_ = .ok pool2 ∧
      stateAt pool1 p.read_index_ = some 3 ∧ stateAt pool2 p.read_index_ = some 0 := by
  obtain ⟨pool1, hget⟩ := GetGetBuffer_ready_ok time_get hbd hslot h2 hmode
  obtain ⟨-, -, hg, -, -, hcnt, -, -, -, bd1, hbd1, hlen1, hs1, -⟩ :=
    GetGetBuffer_ready hbd hslot h2 hget
  have hdone := DoneGetBuffer_release p.read_index_ hbd1 (by rw [hlen1, hlen, hcnt]) hg.symm hs1
  refine ⟨pool1, _, hget, hdone, ?_, ?_⟩
  · simp [stateAt, hbd1, hs1]
  · simp [stateAt, readSlot_writeSlot_self _ hs1]

/-! ## Builder worker: the filter chain -/

/-- C14: when the builder takes a Ready frame with non-empty matrices (pool in
FIFO mode or with overwrite allowed), the pass returns and the cloud it puts in
the mailbox is the output of `BuildPointCloud` passed through the enabled stages
in the order remove-NaN, pass-through on z with [min, max], voxel
down-sampling, radius outlier removal, plane detection, each stage taking the
previous stage's output and a disabled stage being the identity
(`specFilterChain`), for every combination of the five flags; with all five
flags off it is the `BuildPointCloud` output itself. -/
theorem C14_filter_chain_order (lib : Library) (c : PclVizControl) (bd : List BufferData)
    (slot : BufferData) (buffer_data : SlotContent)
    (hstop : c.thread_control_build_pcl.stop_request = false)
    (hbd : c.pcl_data_ring_buffer.buffer_data_ = some bd)
    (hlen : (bd.length : Int) = c.pcl_data_ring_buffer.buffer_count_)
    (hslot : readSlot bd c.pcl_data_ring_buffer.read_index_ = some slot)
    (h2 : slot.state = 2)
    (hmode : c.pcl_data_ring_buffer.last_mode_ = false ∨
      c.pcl_data_ring_buffer.allow_overwrite_ = true)
    (hcontent : c.slot_content[c.pcl_data_ring_buffer.read_index_.toNat]? = some buffer_data)
    (himg : (baseImageScaleFlip lib buffer_data.pcl_data).empty = false)
    (hdepth : (depthScaleFlip lib buffer_data.pcl_data).empty = false) :
    ∃ c', BuildPCLThread_body lib c = .ok (.again c') ∧
      c'.cloud = some (specFilterChain lib buffer_data.pcl_filter_parameter
        (BuildPointCloud (baseImageScaleFlip lib buffer_data.pcl_data).cols
          (baseImageScaleFlip lib buffer_data.pcl_data).rows
          c.viz_parameters.d_inf c.viz_parameters.base_length c.viz_parameters.bf
          c.viz_parameters.min_distance c.viz_parameters.max_distance
          (baseImageScaleFlip lib buffer_data.pcl_data).mat
          (depthScaleFlip lib buffer_data.pcl_data).mat PointCloud.fresh)) ∧
      (buffer_data.pcl_filter_parameter.enabled_remove_nan = false →
        buffer_data.pcl_filter_parameter.enabled_pass_through_filter = false →
        buffer_data.pcl_filter_parameter.enabled_down_sampling = false →
        buffer_data.pcl_filter_parameter.enabled_radius_outlier_removal = false →
        buffer_data.pcl_filter_parameter.enabled_plane_detection = false →
        c'.cloud = some
          (BuildPointCloud (baseImageScaleFlip lib buffer_data.pcl_data).cols
            (baseImageScaleFlip lib buffer_data.pcl_data).rows
            c.viz_parameters.d_inf c.viz_parameters.base_length c.viz_parameters.bf
            c.viz_parameters.min_distance c.viz_parameters.max_distance
            (baseImageScaleFlip lib buffer_data.pcl_data).mat
            (depthScaleFlip lib buffer_data.pcl_data).mat PointCloud.fresh)) := by
  obtain ⟨pool1, pool2, hget, hdone, -, -⟩ := get_then_done _ bd slot 0 hbd hlen hslot h2 hmode
  have h0 := (readSlot_lt_length hslot).1
  have hbody := BuildPCLThread_body_publish lib c pool1 pool2 _ _ buffer_data hstop hget h0
    hcontent himg hdepth hdone
  refine ⟨_, hbody, ?_, ?_⟩
  · simp only [filterChain_eq_spec]
  · intro h1 h2 h3 h4 h5
    simp only [filterChain_eq_spec, specFilterChain_all_off lib _ _ h1 h2 h3 h4 h5]

theorem C14_filter_chain_order_witness :
    ∃ c' cloud, BuildPCLThread_body sampleLibrary (controlAfterFrame sampleInputArgs) =
        .ok (.again c') ∧ c'.cloud = some cloud :=
  (C14_filter_chain_order sampleLibrary (controlAfterFrame sampleInputArgs)
    [⟨0, 2, 50⟩, ⟨1, 0, 0⟩, ⟨2, 0, 0⟩, ⟨3, 0, 0⟩] ⟨0, 2, 50⟩
    (fillSlot (SlotContent.cleared (SlotContent.initial 2 1)) sampleInputArgs)
    rfl rfl rfl rfl rfl (Or.inr rfl) rfl rfl rfl).imp fun _ h => ⟨_, h.1, h.2.1⟩

/-! ## Range filter -/

theorem fieldValue_z (pt : PointXYZRGBA) : fieldValue "z" pt = pt.z := by
  simp [fieldValue]

theorem passThroughKeeps_z (min max : ℚ) (pt : PointXYZRGBA) :
    passThroughKeeps "z" min max pt = true ↔
      pt.x ≠ FloatVal.nan ∧ pt.y ≠ FloatVal.nan ∧ ∃ v, pt.z = FloatVal.num v ∧ min ≤ v ∧ v ≤ max := by
  unfold passThroughKeeps
  rw [fieldValue_z]
  cases hz : pt.z with
  | nan => simp
  | num v => simp [and_assoc]

theorem PassThroughModel_idem (field_name : String) (min max : ℚ) (cloud : PointCloud) :
    PassThroughModel field_name min max (PassThroughModel field_name min max cloud) =
      PassThroughModel field_name min max cloud := by
  simp [PassThroughModel, List.filter_filter]

/-- C15: with `pcl::PassThrough` as the specification describes it,
`PathThroughFilter("z", min, max, ·)` returns 0 and keeps, in their order,
exactly the points of the cloud that have no NaN coordinate and whose z lies in
`[min, max]`; applied again with the same bounds to its own output it yields
the identical cloud. -/
theorem C15_range_filter_fixed_point (lib : Library)
    (hlib : lib.PassThrough = PassThroughModel) (cloud : PointCloud) (min max : ℚ) :
    (PathThroughFilter lib "z" min max cloud).2 = 0 ∧
    (PathThroughFilter lib "z" min max cloud).1.points.Sublist cloud.points ∧
    (∀ pt, pt ∈ (PathThroughFilter lib "z" min max cloud).1.points ↔
      pt ∈ cloud.points ∧ pt.x ≠ FloatVal.nan ∧ pt.y ≠ FloatVal.nan ∧
        ∃ v, pt.z = FloatVal.num v ∧ min ≤ v ∧ v ≤ max) ∧
    (PathThroughFilter lib "z" min max cloud).1.points =
      cloud.points.filter (passThroughKeeps "z" min max) ∧
    (∀ pt, passThroughKeeps "z" min max pt = true ↔
      pt.x ≠ FloatVal.nan ∧ pt.y ≠ FloatVal.nan ∧
        ∃ v, pt.z = FloatVal.num v ∧ min ≤ v ∧ v ≤ max) ∧
    PathThroughFilter lib "z" min max (PathThroughFilter lib "z" min max cloud).1 =
      PathThroughFilter lib "z" min max cloud := by
  refine ⟨rfl, ?_, ?_, ?_, passThroughKeeps_z min max, ?_⟩
  · simp only [PathThroughFilter, hlib, PassThroughModel]
    exact List.filter_sublist _
  · intro pt
    simp only [PathThroughFilter, hlib, PassThroughModel, List.mem_filter, passThroughKeeps_z]
  · simp only [PathThroughFilter, hlib, PassThroughModel]
  · simp only [PathThroughFilter, hlib, PassThroughModel_idem]

theorem C15_range_filter_fixed_point_witness :
    PathThroughFilter sampleLibrary "z" 1 5
        (PathThroughFilter sampleLibrary "z" 1 5
          { width := 3, height := 1, is_dense := false,
            points := [⟨FloatVal.num 0, FloatVal.num 0, FloatVal.num 3, 1, 2, 3⟩,
                       point_nan,
                       ⟨FloatVal.num 0, FloatVal.num 0, FloatVal.num 7, 1, 2, 3⟩] }).1 =
      PathThroughFilter sampleLibrary "z" 1 5
        { width := 3, height := 1, is_dense := false,
          points := [⟨FloatVal.num 0, FloatVal.num 0, FloatVal.num 3, 1, 2, 3⟩,
                     point_nan,
                     ⟨FloatVal.num 0, FloatVal.num 0, FloatVal.num 7, 1, 2, 3⟩] } :=
  (C15_range_filter_fixed_point sampleLibrary rfl _ 1 5).2.2.2.2.2

/-! ## Plane detection -/

theorem foldl_paintRed_frame (inliers : List Nat) :
    ∀ cloud : PointCloud,
      (inliers.foldl paintRed cloud).width = cloud.width ∧
      (inliers.foldl paintRed cloud).height = cloud.height ∧
      (inliers.foldl paintRed cloud).is_dense = cloud.is_dense ∧
      (inliers.foldl paintRed cloud).points.length = cloud.points.length := by
  induction inliers with
  | nil => intro cloud; simp
  | cons i rest ih =>
    intro cloud
    obtain ⟨h1, h2, h3, h4⟩ := ih (paintRed cloud i)
    simp only [List.foldl_cons, h1, h2, h3, h4]
    simp [paintRed]

theorem foldl_paintRed_getElem? (inliers : List Nat) :
    ∀ (cloud : PointCloud) (k : Nat),
      (inliers.foldl paintRed cloud).points[k]? =
        (cloud.points[k]?).map fun pt =>
          if k ∈ inliers then { pt with r := 255, g := 0, b := 0 } else pt := by
  induction inliers with
  | nil => intro cloud k; simp
  | cons i rest ih =>
    intro cloud k
    rw [List.foldl_cons, ih (paintRed cloud i) k]
    simp only [paintRed, List.getElem?_modify, List.mem_cons]
    cases cloud.points[k]? with
    | none => rfl
    | some pt =>
      simp only [Option.map_some', Functor.map]
      by_cases hk : k ∈ rest
      · by_cases hi : i = k
        · simp [hk, hi]
        · simp [hk, hi]
      · by_cases hi : i = k
        · simp [hk, hi]
        · simp [hk, hi, Ne.symm hi]

theorem filterChain_plane (lib : Library) (f : PclFilterParameter) (cloud : PointCloud) :
    filterChain lib f cloud =
      if f.enabled_plane_detection then
        (PlaneDetection lib f.plane_detection_threshold
          (filterChain lib { f with enabled_plane_detection := false } cloud)).1
      else filterChain lib { f with enabled_plane_detection := false } cloud := by
  simp only [filterChain, Bool.false_eq_true, if_false]

/-- C16: for every cloud and every inlier index list the segmentation
returns, `PlaneDetection` leaves the number of points (and width, height,
is_dense) and every point's x, y, z unchanged, sets the colour of every inlier
point to (255, 0, 0) and leaves every non-inlier point as it was; with no
inlier it returns -1 with the cloud unchanged, and a pass of the builder over a
Ready frame with plane detection enabled and no inlier found still returns
and puts that unchanged cloud in the mailbox. -/
theorem C16_plane_detection_recolours (lib : Library) (threshold : ℚ) (cloud : PointCloud) :
    ((PlaneDetection lib threshold cloud).1.points.length = cloud.points.length ∧
      (PlaneDetection lib threshold cloud).1.width = cloud.width ∧
      (PlaneDetection lib threshold cloud).1.height = cloud.height ∧
      (PlaneDetection lib threshold cloud).1.is_dense = cloud.is_dense) ∧
    (∀ k pt, cloud.points[k]? = some pt →
      ∃ pt', (PlaneDetection lib threshold cloud).1.points[k]? = some pt' ∧
        pt'.x = pt.x ∧ pt'.y = pt.y ∧ pt'.z = pt.z ∧
        (k ∈ lib.SACSegmentation threshold cloud → pt'.r = 255 ∧ pt'.g = 0 ∧ pt'.b = 0) ∧
        (k ∉ lib.SACSegmentation threshold cloud → pt' = pt)) ∧
    (lib.SACSegmentation threshold cloud = [] →
      PlaneDetection lib threshold cloud = (cloud, -1)) ∧
    (lib.SACSegmentation threshold cloud ≠ [] → (PlaneDetection lib threshold cloud).2 = 0) ∧
    (∀ (c : PclVizControl) (bd : List BufferData) (slot : BufferData)
        (buffer_data : SlotContent),
      c.thread_control_build_pcl.stop_request = false →
      c.pcl_data_ring_buffer.buffer_data_ = some bd →
      (bd.length : Int) = c.pcl_data_ring_buffer.buffer_count_ →
      readSlot bd c.pcl_data_ring_buffer.read_index_ = some slot →
      slot.state = 2 →
      (c.pcl_data_ring_buffer.last_mode_ = false ∨
        c.pcl_data_ring_buffer.allow_overwrite_ = true) →
      c.slot_content[c.pcl_data_ring_buffer.read_index_.toNat]? = some buffer_data →
      (baseImageScaleFlip lib buffer_data.pcl_data).empty = false →
      (depthScaleFlip lib buffer_data.pcl_data).empty = false →
      buffer_data.pcl_filter_parameter.enabled_plane_detection = true →
      buffer_data.pcl_filter_parameter.plane_detection_threshold = threshold →
      filterChain lib { buffer_data.pcl_filter_parameter with enabled_plane_detection := false }
        (BuildPointCloud (baseImageScaleFlip lib buffer_data.pcl_data).cols
          (baseImageScaleFlip lib buffer_data.pcl_data).rows
          c.viz_parameters.d_inf c.viz_parameters.base_length c.viz_parameters.bf
          c.viz_parameters.min_distance c.viz_parameters.max_distance
          (baseImageScaleFlip lib buffer_data.pcl_data).mat
          (depthScaleFlip lib buffer_data.pcl_data).mat PointCloud.fresh) = cloud →
      lib.SACSegmentation threshold cloud = [] →
      ∃ c', BuildPCLThread_body lib c = .ok (.again c') ∧ c'.cloud = some cloud ∧
        c'.semaphore_pcl_draw =
          releaseSemaphore c.handle_semaphore_pcl_draw c.semaphore_pcl_draw) := by
  refine ⟨?_, ?_, ?_, ?_, ?_⟩
  · rw [PlaneDetection_fst]
    obtain ⟨h1, h2, h3, h4⟩ := foldl_paintRed_frame (lib.SACSegmentation threshold cloud) cloud
    exact ⟨h4, h1, h2, h3⟩
  · intro k pt hk
    rw [PlaneDetection_fst, foldl_paintRed_getElem?, hk]
    refine ⟨_, rfl, ?_⟩
    by_cases hin : k ∈ lib.SACSegmentation threshold cloud
    · simp [hin]
    · simp [hin]
  · intro h
    simp [PlaneDetection, h]
  · intro h
    have : (lib.SACSegmentation threshold cloud).length ≠ 0 := by
      simpa [List.length_eq_zero] using h
    simp [PlaneDetection, this]
  · intro c bd slot buffer_data hstop hbd hlen hslot h2 hmode hcontent himg hdepth hen hthr
      hcloud hnone
    obtain ⟨pool1, pool2, hget, hdone, -, -⟩ :=
      get_then_done _ bd slot 0 hbd hlen hslot h2 hmode
    have h0 := (readSlot_lt_length hslot).1
    have hbody := BuildPCLThread_body_publish lib c pool1 pool2 _ _ buffer_data hstop hget h0
      hcontent himg hdepth hdone
    refine ⟨_, hbody, ?_, rfl⟩
    simp only [Option.some.injEq]
    rw [filterChain_plane, hen, if_pos rfl, hcloud, hthr, PlaneDetection_fst, hnone]
    rfl

theorem C16_plane_detection_recolours_witness :
    ∃ c' cloud, BuildPCLThread_body sampleLibrary (controlAfterFrame planeInputArgs) =
        .ok (.again c') ∧ c'.cloud = some cloud ∧ c'.semaphore_pcl_draw = 1 :=
  ((C16_plane_detection_recolours sampleLibrary (1 / 5) _).2.2.2.2
    (controlAfterFrame planeInputArgs)
    [⟨0, 2, 50⟩, ⟨1, 0, 0⟩, ⟨2, 0, 0⟩, ⟨3, 0, 0⟩] ⟨0, 2, 50⟩
    (fillSlot (SlotContent.cleared (SlotContent.initial 2 1)) planeInputArgs)
    rfl rfl rfl rfl rfl (Or.inr rfl) rfl rfl rfl rfl rfl rfl rfl).imp
    fun _ h => ⟨_, h.1, h.2.1, h.2.2⟩

/-! ## Builder worker: a frame with an empty matrix -/

/-- A pass of the builder's loop body over an acquired frame whose prepared
image or disparity matrix is empty ends in `return 0`: the pool is left as
`GetGetBuffer` left it and nothing else is written. -/
theorem BuildPCLThread_body_empty (lib : Library) (c : PclVizControl)
    (pool1 : PclDataRingBuffer) (idx : Int) (t : Nat) (buffer_data : SlotContent)
    (hstop : c.thread_control_build_pcl.stop_request = false)
    (hget : c.pcl_data_ring_buffer.GetGetBuffer 0 = .ok (pool1, idx, t))
    (hidx : 0 ≤ idx)
    (hcontent : c.slot_content[idx.toNat]? = some buffer_data)
    (hempty : (baseImageScaleFlip lib buffer_data.pcl_data).empty = true ∨
      (depthScaleFlip lib buffer_data.pcl_data).empty = true) :
    BuildPCLThread_body lib c = .ok (.returned { c with pcl_data_ring_buffer := pool1 } 0) := by
  unfold BuildPCLThread_body
  simp only [hstop, hget, Outcome.bind, hidx, ge_iff_le, if_true, hcontent,
    Bool.false_eq_true, if_false]
  rcases hempty with h | h
  · simp only [h, if_true]
  · by_cases h1 : (baseImageScaleFlip lib buffer_data.pcl_data).empty = true
    · simp only [h1, if_true]
    · simp only [h1, h, if_true, if_false, Bool.false_eq_true]

/-- C17: a running pipeline that accepted a frame of width 0 (the flipped image
matrix is empty). The builder's pass ends in `return 0` out of the thread
function: the worker has exited with code 0 after one pass, however many
passes it is given, the frame's slot is still Reading (state 3), no cloud was
published, the draw semaphore was not released and `terminate_done` is still
0. -/
theorem C17_empty_frame_exits_worker :
    ∃ c', BuildPCLThread_body sampleLibrary (controlAfterFrame emptyFrameArgs) =
        .ok (.returned c' 0) ∧
      (∀ passes, BuildPCLThread sampleLibrary (passes + 1) false
          (controlAfterFrame emptyFrameArgs) = .ok (.exited c' 0)) ∧
      (controlAfterFrame emptyFrameArgs).pcl_data_ring_buffer.stateAt 0 = some 2 ∧
      c'.pcl_data_ring_buffer.stateAt 0 = some 3 ∧
      c'.cloud = none ∧ c'.semaphore_pcl_draw = 0 ∧
      c'.thread_control_build_pcl.terminate_done = 0 := by
  have hbody := BuildPCLThread_body_empty sampleLibrary (controlAfterFrame emptyFrameArgs)
    _ 0 50 (fillSlot (SlotContent.cleared (SlotContent.initial 2 1)) emptyFrameArgs)
    rfl rfl (le_refl 0) rfl (Or.inl rfl)
  refine ⟨_, hbody, ?_, rfl, rfl, rfl, rfl, rfl⟩
  intro passes
  have hreq : ¬ ((false = false) ∧
      ¬ (controlAfterFrame emptyFrameArgs).thread_control_build_pcl.terminate_request < 1) := by
    decide
  rw [BuildPCLThread, if_neg hreq, hbody]
  rfl

/-! ## Renderer worker: one pass -/

/-- A signalled pass of the renderer with a non-empty cloud in the mailbox:
what becomes of the control block and the viewer. -/
theorem VisualizerThread_body_signalled (xp yp v_width v_height : Int) (c : PclVizControl)
    (v : Viewer) (cloud : PointCloud)
    (hrun : v.stopped = false) (hterm : c.thread_control_draw.terminate_request ≠ 1)
    (hhandle : c.handle_semaphore_pcl_draw = true) (hcount : 0 < c.semaphore_pcl_draw)
    (hcloud : c.cloud = some cloud) (hsize : cloud.points ≠ []) :
    ∃ c' v', VisualizerThread_body xp yp v_width v_height c v = .again c' v' ∧
      v'.cloud = some cloud ∧ v'.stopped = false ∧
      c'.cloud = some cloud ∧ c'.semaphore_pcl_draw = c.semaphore_pcl_draw - 1 ∧
      c'.thread_control_draw = c.thread_control_draw ∧
      c'.handle_semaphore_pcl_draw = c.handle_semaphore_pcl_draw ∧
      c'.viz_parameters.full_screen_request = c.viz_parameters.full_screen_request ∧
      c'.viz_parameters.restore_screen_request =
        (c.viz_parameters.full_screen_request && c.viz_parameters.restore_screen_request) ∧
      (c.viz_parameters.full_screen_request = true →
        v'.position = (0, 0) ∧ v'.size = (1920, 1080)) ∧
      (c.viz_parameters.full_screen_request = false →
        c.viz_parameters.restore_screen_request = true →
        v'.position = (xp, yp) ∧ v'.size = (v_width, v_height)) ∧
      (c.viz_parameters.full_screen_request = false →
        c.viz_parameters.restore_screen_request = false →
        v'.position = v.position ∧ v'.size = (v_width, v_height)) := by
  have hlen : cloud.points.length ≠ 0 := by
    simpa [List.length_eq_zero] using hsize
  unfold VisualizerThread_body
  simp only [hrun, Bool.false_eq_true, if_false, hterm, waitSemaphore, hhandle, hcount,
    and_self, if_true, hcloud, ne_eq, hlen, not_false_eq_true]
  cases hf : c.viz_parameters.full_screen_request <;>
    cases hr : c.viz_parameters.restore_screen_request <;>
    cases hv : v.cloud <;>
    simp only [Viewer.updatePointCloud, Viewer.addPointCloud, hv, Bool.false_eq_true,
      if_false, if_true, not_true_eq_false, not_false_eq_true, Bool.and_false, Bool.and_true,
      Bool.false_and, Bool.true_and] <;>
    (try split_ifs) <;>
    exact ⟨_, _, rfl, by simp [hf, hr, hrun, hhandle, hcloud]⟩

/-- A pass of the renderer that updates nothing on display: the wait was not
signalled, or the mailbox holds no cloud or a cloud of size 0. -/
theorem VisualizerThread_body_unchanged (xp yp v_width v_height : Int) (c : PclVizControl)
    (v : Viewer)
    (hrun : v.stopped = false) (hterm : c.thread_control_draw.terminate_request ≠ 1)
    (h : c.handle_semaphore_pcl_draw = false ∨ c.semaphore_pcl_draw = 0 ∨ c.cloud = none ∨
      ∃ cloud, c.cloud = some cloud ∧ cloud.points = []) :
    VisualizerThread_body xp yp v_width v_height c v =
      .again { c with semaphore_pcl_draw :=
                 (waitSemaphore c.handle_semaphore_pcl_draw c.semaphore_pcl_draw).2 } v := by
  unfold VisualizerThread_body
  simp only [hrun, Bool.false_eq_true, if_false, hterm]
  rcases h with h | h | h | ⟨cloud, h, hp⟩
  · simp [waitSemaphore, h]
  · simp [waitSemaphore, h]
  · simp only [h]
    split_ifs <;> rfl
  · simp only [h, hp, List.length_nil, ne_eq, not_true_eq_false, if_false]
    split_ifs <;> rfl

/-! ## Renderer worker: the cloud on display -/

/-- The pass of the builder over the frame of `farFrameArgs`: it publishes a
cloud of size 0 and releases the draw semaphore. -/
theorem BuildPCLThread_body_farFrame :
    ∃ c2 mailbox, BuildPCLThread_body sampleLibrary (controlAfterFrame farFrameArgs) =
        .ok (.again c2) ∧
      c2.cloud = some mailbox ∧ mailbox.points = [] ∧
      c2.handle_semaphore_pcl_draw = true ∧ c2.semaphore_pcl_draw = 1 ∧
      c2.thread_control_draw.terminate_request = 0 := by
  have hbody := BuildPCLThread_body_publish sampleLibrary (controlAfterFrame farFrameArgs)
    _ _ 0 50 (fillSlot (SlotContent.cleared (SlotContent.initial 2 1)) farFrameArgs)
    rfl rfl (le_refl 0) rfl rfl rfl rfl
  refine ⟨_, _, hbody, rfl, ?_, rfl, rfl, rfl⟩
  have hchain : ∀ X : PointCloud,
      filterChain sampleLibrary
        (fillSlot (SlotContent.cleared (SlotContent.initial 2 1)) farFrameArgs).pcl_filter_parameter
        X = PassThroughModel "z" 1 5 X := fun _ => rfl
  rw [hchain]
  simp only [PassThroughModel]
  rw [points_BuildPointCloud _ _ _ _ _ _ _ _ _ _ (Or.inl rfl)]
  have hcols : (baseImageScaleFlip sampleLibrary
      (fillSlot (SlotContent.cleared (SlotContent.initial 2 1)) farFrameArgs).pcl_data).cols = 2 :=
    rfl
  have hrows : (baseImageScaleFlip sampleLibrary
      (fillSlot (SlotContent.cleared (SlotContent.initial 2 1)) farFrameArgs).pcl_data).rows = 1 :=
    rfl
  have hdepth : ∀ i j, (depthScaleFlip sampleLibrary
      (fillSlot (SlotContent.cleared (SlotContent.initial 2 1)) farFrameArgs).pcl_data).mat.px
        i j = [(0 : ℚ), 0].getD ((1 - 1 - i) * 2 + (2 - 1 - j)) 0 := fun _ _ => rfl
  have hviz : (controlAfterFrame farFrameArgs).viz_parameters.d_inf = 2 := rfl
  rw [hcols, hrows, hviz]
  simp only [hdepth]
  norm_num [vectorResize, presize, PointCloud.fresh, List.range, List.range.loop, pixelPoint,
    List.replicate, passThroughKeeps, fieldValue, PointXYZRGBA.zero, point_nan]

/-- The renderer never writes `full_screen_request`, and it never sets
`restore_screen_request`. -/
theorem VisualizerThread_body_flags (xp yp v_width v_height : Int) (c : PclVizControl)
    (v : Viewer) :
    (VisualizerThread_body xp yp v_width v_height c v).control.viz_parameters.full_screen_request =
        c.viz_parameters.full_screen_request ∧
      ((VisualizerThread_body xp yp v_width v_height c v).control.viz_parameters.restore_screen_request
          = true → c.viz_parameters.restore_screen_request = true) := by
  unfold VisualizerThread_body
  split_ifs <;> simp only [DrawResult.control, imp_self, and_self]
  cases hc : c.cloud with
  | none => simp [DrawResult.control]
  | some cloud =>
    simp only
    split_ifs <;> simp_all [DrawResult.control]

/-- The view flags after `RunPclViz` on an active pipeline, when the call
returns: a restore request clears `full_screen_request` and sets
`restore_screen_request`; otherwise a full-screen request sets
`full_screen_request`; nothing else touches them. -/
theorem RunPclViz_view_flags (c c1 : PclVizControl) (time : Nat) (input_args : PclVizInputArgs)
    (output_args out1 : PclVizOutputArgs) (code : Int)
    (hactive : c.operation_status = OperationStatus.active)
    (h : RunPclViz c time input_args output_args = .ok (c1, out1, code)) :
    c1.viz_parameters.full_screen_request =
        (!input_args.restore_screen_request &&
          (input_args.full_screen_request || c.viz_parameters.full_screen_request)) ∧
      c1.viz_parameters.restore_screen_request =
        (input_args.restore_screen_request || c.viz_parameters.restore_screen_request) := by
  unfold RunPclViz at h
  simp only [hactive, ne_eq, not_true_eq_false, if_false] at h
  cases hput : c.pcl_data_ring_buffer.GetPutBuffer time with
  | outOfBounds => simp [hput, Outcome.bind] at h
  | outOfFuel => simp [hput, Outcome.bind] at h
  | ok r =>
    simp only [hput, Outcome.bind] at h
    by_cases hidx : r.2 ≥ 0
    · simp only [hidx, if_true] at h
      cases hs : c.slot_content[r.2.toNat]? with
      | none => simp [hs] at h
      | some slot =>
        simp only [hs] at h
        cases hdone : r.1.DonePutBuffer r.2 1 with
        | outOfBounds => simp [hdone] at h
        | outOfFuel => simp [hdone] at h
        | ok r' =>
          simp only [hdone, Outcome.ok.injEq, Prod.mk.injEq] at h
          obtain ⟨rfl, -, -⟩ := h
          cases hf : input_args.full_screen_request <;>
            cases hr : input_args.restore_screen_request <;> simp [screenControl, hf, hr]
    · simp only [hidx, if_false] at h
      cases hdone : r.1.DonePutBuffer r.2 0 with
      | outOfBounds => simp [hdone] at h
      | outOfFuel => simp [hdone] at h
      | ok r' =>
        simp only [hdone, Outcome.ok.injEq, Prod.mk.injEq] at h
        obtain ⟨rfl, -, -⟩ := h
        cases hf : input_args.full_screen_request <;>
          cases hr : input_args.restore_screen_request <;> simp [screenControl, hf, hr]

/-- The pass of the builder over the frame of `fullScreenArgs`, which was
passed with a full-screen request: a cloud that is not empty is published. -/
theorem BuildPCLThread_body_fullScreen :
    ∃ c2 mailbox, BuildPCLThread_body sampleLibrary (controlAfterFrame fullScreenArgs) =
        .ok (.again c2) ∧
      c2.cloud = some mailbox ∧ mailbox.points ≠ [] ∧
      c2.handle_semaphore_pcl_draw = true ∧ c2.semaphore_pcl_draw = 1 ∧
      c2.thread_control_draw.terminate_request = 0 ∧
      c2.viz_parameters.full_screen_request = true ∧
      c2.viz_parameters.restore_screen_request = false := by
  have hbody := BuildPCLThread_body_publish sampleLibrary (controlAfterFrame fullScreenArgs)
    _ _ 0 50 (fillSlot (SlotContent.cleared (SlotContent.initial 2 1)) fullScreenArgs)
    rfl rfl (le_refl 0) rfl rfl rfl rfl
  refine ⟨_, _, hbody, rfl, ?_, rfl, rfl, rfl, rfl, rfl⟩
  have hchain : ∀ X : PointCloud,
      filterChain sampleLibrary
        (fillSlot (SlotContent.cleared (SlotContent.initial 2 1)) fullScreenArgs).pcl_filter_parameter
        X = X := fun _ => rfl
  rw [hchain, points_BuildPointCloud _ _ _ _ _ _ _ _ _ _ (Or.inl rfl)]
  have hcols : (baseImageScaleFlip sampleLibrary
      (fillSlot (SlotContent.cleared (SlotContent.initial 2 1)) fullScreenArgs).pcl_data).cols = 2 :=
    rfl
  have hrows : (baseImageScaleFlip sampleLibrary
      (fillSlot (SlotContent.cleared (SlotContent.initial 2 1)) fullScreenArgs).pcl_data).rows = 1 :=
    rfl
  rw [hcols, hrows]
  intro hnil
  have hlen := congrArg List.length hnil
  simp [length_vectorResize, presize] at hlen

/-- C18 as stated fails for a published cloud of size 0. The frame of
`farFrameArgs` (pass-through filter on, no point in range) makes the builder
publish an empty cloud and release the draw semaphore; the renderer's wait is
signalled, and the viewer, which showed `shownCloud`, still shows `shownCloud`
afterwards and not the mailbox's cloud. -/
theorem C18_empty_cloud_counterexample :
    ∃ c2 mailbox, BuildPCLThread_body sampleLibrary (controlAfterFrame farFrameArgs) =
        .ok (.again c2) ∧
      c2.cloud = some mailbox ∧
      waitSemaphore c2.handle_semaphore_pcl_draw c2.semaphore_pcl_draw = (true, 0) ∧
      (VisualizerThread_body 0 0 640 480 c2
          { Viewer.create 0 0 640 480 with cloud := some shownCloud }).viewer.cloud =
        some shownCloud ∧
      (VisualizerThread_body 0 0 640 480 c2
          { Viewer.create 0 0 640 480 with cloud := some shownCloud }).viewer.cloud ≠
        (VisualizerThread_body 0 0 640 480 c2
          { Viewer.create 0 0 640 480 with cloud := some shownCloud }).control.cloud := by
  obtain ⟨c2, mailbox, hbody, hcloud, hpoints, hhandle, hcount, hterm⟩ :=
    BuildPCLThread_body_farFrame
  have hpass := VisualizerThread_body_unchanged 0 0 640 480 c2
    { Viewer.create 0 0 640 480 with cloud := some shownCloud } rfl (by rw [hterm]; decide)
    (Or.inr (Or.inr (Or.inr ⟨mailbox, hcloud, hpoints⟩)))
  refine ⟨c2, mailbox, hbody, hcloud, ?_, ?_, ?_⟩
  · rw [hhandle, hcount]
    rfl
  · rw [hpass]
    rfl
  · rw [hpass]
    simp only [DrawResult.viewer, DrawResult.control, hcloud, ne_eq, Option.some.injEq]
    intro h
    rw [← h] at hpoints
    exact absurd hpoints (by decide)

/-- C18 (amended): when the renderer's wait on the draw semaphore is signalled
(viewer not stopped, no termination requested), the pass leaves the mailbox as
it is and, if the mailbox holds a cloud that is not empty, the viewer shows
exactly that cloud afterwards, whatever it showed before; if the mailbox holds
no cloud or a cloud of size 0, the viewer shows what it showed before. -/
theorem C18_replace_on_signal (xp yp v_width v_height : Int) (c : PclVizControl) (v : Viewer)
    (hrun : v.stopped = false) (hterm : c.thread_control_draw.terminate_request ≠ 1)
    (hhandle : c.handle_semaphore_pcl_draw = true) (hcount : 0 < c.semaphore_pcl_draw) :
    ∃ c' v', VisualizerThread_body xp yp v_width v_height c v = .again c' v' ∧
      c'.cloud = c.cloud ∧
      (∀ cloud, c.cloud = some cloud → cloud.points ≠ [] → v'.cloud = some cloud) ∧
      ((c.cloud = none ∨ ∃ cloud, c.cloud = some cloud ∧ cloud.points = []) →
        v'.cloud = v.cloud) := by
  by_cases hfull : ∃ cloud, c.cloud = some cloud ∧ cloud.points ≠ []
  · obtain ⟨cloud, hcloud, hsize⟩ := hfull
    obtain ⟨c', v', hbody, hv, -, hc, -⟩ :=
      VisualizerThread_body_signalled xp yp v_width v_height c v cloud hrun hterm hhandle
        hcount hcloud hsize
    refine ⟨c', v', hbody, by rw [hc, hcloud], ?_, ?_⟩
    · intro cloud1 h1 _
      rw [hcloud] at h1
      rw [hv, h1]
    · rintro (h | ⟨cloud1, h1, h2⟩)
      · rw [hcloud] at h
        cases h
      · rw [hcloud] at h1
        cases h1
        exact absurd h2 hsize
  · have hempty : c.cloud = none ∨ ∃ cloud, c.cloud = some cloud ∧ cloud.points = [] := by
      cases hc : c.cloud with
      | none => exact Or.inl rfl
      | some cloud =>
        refine Or.inr ⟨cloud, rfl, ?_⟩
        by_contra hne
        exact hfull ⟨cloud, hc, hne⟩
    refine ⟨_, v, VisualizerThread_body_unchanged xp yp v_width v_height c v hrun hterm
      (Or.inr (Or.inr hempty)), rfl, ?_, fun _ => rfl⟩
    intro cloud hcloud hsize
    exact absurd ⟨cloud, hcloud, hsize⟩ hfull

theorem C18_replace_on_signal_witness :
    ∃ c' v',
      VisualizerThread_body 0 0 640 480
          { runningControl 2 1 with cloud := some shownCloud, semaphore_pcl_draw := 1 }
          (Viewer.create 0 0 640 480) = .again c' v' ∧
        v'.cloud = some shownCloud :=
  let ⟨c', v', h1, _, h3, _⟩ :=
    C18_replace_on_signal 0 0 640 480
      { runningControl 2 1 with cloud := some shownCloud, semaphore_pcl_draw := 1 }
      (Viewer.create 0 0 640 480) rfl (by decide) rfl (by decide)
  ⟨c', v', h1, h3 shownCloud rfl (by decide)⟩

/-! ## View flags -/

/-- C19 as stated fails for the full-screen request. `RunPclViz` is called once
with `full_screen_request` set; the builder publishes the frame's cloud and
the renderer handles it, putting the view at (0, 0) with size 1920×1080; after
that pass `full_screen_request` is still true. -/
theorem C19_full_screen_counterexample :
    (controlAfterFrame fullScreenArgs).viz_parameters.full_screen_request = true ∧
    ∃ c2 c3 v3, BuildPCLThread_body sampleLibrary (controlAfterFrame fullScreenArgs) =
        .ok (.again c2) ∧
      VisualizerThread_body 0 0 640 480 c2 (Viewer.create 0 0 640 480) = .again c3 v3 ∧
      v3.cloud = c2.cloud ∧ v3.size = (1920, 1080) ∧
      c3.viz_parameters.full_screen_request = true := by
  refine ⟨rfl, ?_⟩
  obtain ⟨c2, mailbox, hbody, hcloud, hpoints, hhandle, hcount, hterm, hfull, -⟩ :=
    BuildPCLThread_body_fullScreen
  obtain ⟨c3, v3, hpass, hv, -, -, -, -, -, hf, -, hgeo, -⟩ :=
    VisualizerThread_body_signalled 0 0 640 480 c2 (Viewer.create 0 0 640 480) mailbox rfl
      (by rw [hterm]; decide) hhandle (by rw [hcount]; decide) hcloud hpoints
  exact ⟨c2, c3, v3, hbody, hpass, by rw [hv, hcloud], (hgeo hfull).2, by rw [hf, hfull]⟩

/-- C19 (amended): `RunPclViz` on an active pipeline latches the requests (a
restore request clears `full_screen_request` and sets
`restore_screen_request`, otherwise a full-screen request sets
`full_screen_request`). No pass of the renderer ever changes
`full_screen_request`. In a pass that handles a signalled cloud that is not
empty: while `full_screen_request` is set the view is put at (0, 0) with size
1920×1080 and `restore_screen_request` is left as it is; when
`full_screen_request` is clear, a pending `restore_screen_request` is cleared
and the view put back at its start position and size, so that request is
consumed exactly once. -/
theorem C19_view_flags (xp yp v_width v_height : Int) (c : PclVizControl) (v : Viewer)
    (cloud : PointCloud)
    (hrun : v.stopped = false) (hterm : c.thread_control_draw.terminate_request ≠ 1)
    (hhandle : c.handle_semaphore_pcl_draw = true) (hcount : 0 < c.semaphore_pcl_draw)
    (hcloud : c.cloud = some cloud) (hsize : cloud.points ≠ []) :
    (∀ (c0 c1 : PclVizControl) (time : Nat) (input_args : PclVizInputArgs)
        (output_args out1 : PclVizOutputArgs) (code : Int),
      c0.operation_status = OperationStatus.active →
      RunPclViz c0 time input_args output_args = .ok (c1, out1, code) →
      c1.viz_parameters.full_screen_request =
          (!input_args.restore_screen_request &&
            (input_args.full_screen_request || c0.viz_parameters.full_screen_request)) ∧
        c1.viz_parameters.restore_screen_request =
          (input_args.restore_screen_request || c0.viz_parameters.restore_screen_request)) ∧
    (∀ (c0 : PclVizControl) (v0 : Viewer),
      (VisualizerThread_body xp yp v_width v_height c0 v0).control.viz_parameters.full_screen_request
        = c0.viz_parameters.full_screen_request) ∧
    ∃ c' v', VisualizerThread_body xp yp v_width v_height c v = .again c' v' ∧
      c'.viz_parameters.full_screen_request = c.viz_parameters.full_screen_request ∧
      c'.viz_parameters.restore_screen_request =
        (c.viz_parameters.full_screen_request && c.viz_parameters.restore_screen_request) ∧
      (c.viz_parameters.full_screen_request = true →
        v'.position = (0, 0) ∧ v'.size = (1920, 1080)) ∧
      (c.viz_parameters.full_screen_request = false →
        c.viz_parameters.restore_screen_request = true →
        v'.position = (xp, yp) ∧ v'.size = (v_width, v_height) ∧
        c'.viz_parameters.restore_screen_request = false) ∧
      (c.viz_parameters.full_screen_request = false →
        c.viz_parameters.restore_screen_request = false →
        v'.position = v.position ∧ v'.size = (v_width, v_height)) := by
  refine ⟨?_, ?_, ?_⟩
  · intro c0 c1 time input_args output_args out1 code hactive h
    exact RunPclViz_view_flags c0 c1 time input_args output_args out1 code hactive h
  · intro c0 v0
    exact (VisualizerThread_body_flags xp yp v_width v_height c0 v0).1
  · obtain ⟨c', v', hpass, -, -, -, -, -, -, hf, hr, hg1, hg2, hg3⟩ :=
      VisualizerThread_body_signalled xp yp v_width v_height c v cloud hrun hterm hhandle
        hcount hcloud hsize
    refine ⟨c', v', hpass, hf, hr, hg1, ?_, hg3⟩
    intro h1 h2
    refine ⟨(hg2 h1 h2).1, (hg2 h1 h2).2, ?_⟩
    rw [hr, h1]
    rfl

theorem C19_view_flags_witness :
    ∃ c' v',
      VisualizerThread_body 0 0 640 480
          { runningControl 2 1 with
              cloud := some shownCloud, semaphore_pcl_draw := 1,
              viz_parameters :=
                { sampleVizParameters 2 1 with restore_screen_request := true } }
          { Viewer.create 0 0 640 480 with position := (0, 0), size := (1920, 1080) } =
        .again c' v' ∧
      c'.viz_parameters.restore_screen_request = false ∧ v'.size = (640, 480) :=
  let ⟨c', v', h1, _, _, _, h5, _⟩ :=
    (C19_view_flags 0 0 640 480
      { runningControl 2 1 with
          cloud := some shownCloud, semaphore_pcl_draw := 1,
          viz_parameters := { sampleVizParameters 2 1 with restore_screen_request := true } }
      { Viewer.create 0 0 640 480 with position := (0, 0), size := (1920, 1080) }
      shownCloud rfl (by decide) rfl (by decide) rfl (by decide)).2.2
  ⟨c', v', h1, (h5 rfl rfl).2.2, (h5 rfl rfl).2.1⟩

/-! ## Shutdown -/

theorem pollTerminateDone_bounded (done : Nat → Int) :
    ∀ (fuel count : Nat), 202 ≤ count + fuel → count ≤ 201 →
      ∃ n, pollTerminateDone done fuel count = some (n, done n) ∧ count ≤ n ∧ n ≤ 201 ∧
        ((∀ k, k ≤ 201 → done k = 0) → n = 201) ∧
        (n < 201 → done n ≠ 0) := by
  intro fuel
  induction fuel with
  | zero => intro count h1 h2; omega
  | succ fuel ih =>
    intro count h1 h2
    unfold pollTerminateDone
    by_cases hd : done count = 0
    · by_cases hc : count > 200
      · refine ⟨count, by simp [hd, hc], le_refl _, h2, fun _ => by omega,
          fun h => by omega⟩
      · obtain ⟨n, hp, hn1, hn2, hn3, hn4⟩ := ih (count + 1) (by omega) (by omega)
        exact ⟨n, by simp [hd, hc, hp], by omega, hn2, hn3, hn4⟩
    · refine ⟨count, by simp [hd], le_refl _, h2, fun h => ?_, fun _ => hd⟩
      exact absurd (h count h2) hd

theorem stopWorker_bounded (t : ThreadControl) (done : Nat → Int) (extra : Nat) :
    ∃ t' n, stopWorker t done (202 + extra) = some (t', n) ∧ n ≤ 201 ∧
      t'.thread_handle = none ∧
      (t.thread_handle = none → n = 0 ∧ t' = t) ∧
      (t.thread_handle ≠ none → t'.terminate_request = 1 ∧ t'.stop_request = true) ∧
      (t.thread_handle ≠ none → (∀ k, k ≤ 201 → done k = 0) →
        n = 201 ∧ t'.terminate_done = 0) := by
  unfold stopWorker
  by_cases hh : t.thread_handle = none
  · refine ⟨t, 0, by simp [hh], by omega, hh, fun _ => ⟨rfl, rfl⟩, fun h => absurd hh h,
      fun h => absurd hh h⟩
  · obtain ⟨n, hp, -, hn, hall, -⟩ :=
      pollTerminateDone_bounded done (202 + extra) 0 (by omega) (by omega)
    rw [if_pos hh, hp]
    refine ⟨_, _, rfl, hn, rfl, fun h => absurd h hh, fun _ => ⟨rfl, rfl⟩, fun _ hz => ?_⟩
    exact ⟨hall hz, hz n hn⟩

/-- C20: for every behaviour of the two workers (every sequence of values the
polls of `terminate_done` read) `StopPclViz` returns, with value 0; on each
worker it makes at most 201 sleeps of 10 ms (none for a worker without thread
handle, exactly 201 for a worker with a handle that never sets
`terminate_done`), and afterwards both thread handles are cleared and the
pipeline is idle, whether or not a worker ever set `terminate_done`. -/
theorem C20_bounded_shutdown (c : PclVizControl) (draw_done build_done : Nat → Int)
    (extra : Nat) :
    ∃ c' n_draw n_build,
      StopPclViz c draw_done build_done (202 + extra) = some (c', 0, n_draw, n_build) ∧
      n_draw ≤ 201 ∧ n_build ≤ 201 ∧
      c'.thread_control_draw.thread_handle = none ∧
      c'.thread_control_build_pcl.thread_handle = none ∧
      c'.operation_status = OperationStatus.idle ∧
      (c.thread_control_draw.thread_handle = none → n_draw = 0) ∧
      (c.thread_control_build_pcl.thread_handle = none → n_build = 0) ∧
      (c.thread_control_draw.thread_handle ≠ none → (∀ k, k ≤ 201 → draw_done k = 0) →
        n_draw = 201 ∧ c'.thread_control_draw.terminate_done = 0) ∧
      (c.thread_control_build_pcl.thread_handle ≠ none →
        (∀ k, k ≤ 201 → build_done k = 0) →
        n_build = 201 ∧ c'.thread_control_build_pcl.terminate_done = 0) := by
  obtain ⟨d, nd, hd, hd1, hd2, hd3, -, hd5⟩ :=
    stopWorker_bounded c.thread_control_draw draw_done extra
  obtain ⟨b, nb, hb, hb1, hb2, hb3, -, hb5⟩ :=
    stopWorker_bounded c.thread_control_build_pcl build_done extra
  unfold StopPclViz
  simp only [hd, hb]
  exact ⟨_, nd, nb, rfl, hd1, hb1, hd2, hb2, rfl, fun h => (hd3 h).1, fun h => (hb3 h).1,
    hd5, hb5⟩

/-! ## Frame pool: return value of `Initialize` -/

/-- C22 as stated fails: `Initialize(true, true, 4, 0, 0)`, a call with
`width_def * height_def = 0`, returns 0 and not -1, and the pool is ready (four
slots, all in state 0, cursors at 0). -/
theorem C22_zero_size_counterexample :
    (PclDataRingBuffer.new.Initialize true true 4 0 0).2 = 0 ∧
    (PclDataRingBuffer.new.Initialize true true 4 0 0).2 ≠ -1 ∧
    IsCleared (PclDataRingBuffer.new.Initialize true true 4 0 0).1 ∧
    (PclDataRingBuffer.new.Initialize true true 4 0 0).1.buffer_count_ = 4 := by
  decide

/-- C22 (amended): `Initialize` returns 0 for every capacity and every frame size
`width_def * height_def ≥ 0`, zero included, and leaves the pool ready: an array
of `count` slots, every slot in state 0 with time 0, the four cursors at 0, the
mode flags as passed. No path returns -1. -/
theorem C22_Initialize_returns_zero (self : PclDataRingBuffer) (last_mpde allow_overwrite : Bool)
    (count : Nat) (width_def height_def : Int) (_hsize : 0 ≤ width_def * height_def) :
    (self.Initialize last_mpde allow_overwrite count width_def height_def).2 = 0 ∧
    IsCleared (self.Initialize last_mpde allow_overwrite count width_def height_def).1 ∧
    (self.Initialize last_mpde allow_overwrite count width_def height_def).1.buffer_count_ = count ∧
    (self.Initialize last_mpde allow_overwrite count width_def height_def).1.last_mode_ =
      last_mpde ∧
    (self.Initialize last_mpde allow_overwrite count width_def height_def).1.allow_overwrite_ =
      allow_overwrite ∧
    ∀ i : Nat, i < count →
      (self.Initialize last_mpde allow_overwrite count width_def height_def).1.timeAt i =
        some 0 := by
  refine ⟨rfl, ?_, rfl, rfl, rfl, ?_⟩
  · simp [IsCleared, Initialize]
  · intro i hi
    simp [timeAt, Initialize, readSlot, hi]

theorem C22_Initialize_returns_zero_witness :
    (PclDataRingBuffer.new.Initialize false false 3 0 480).2 = 0 ∧
    IsCleared (PclDataRingBuffer.new.Initialize false false 3 0 480).1 :=
  ⟨(C22_Initialize_returns_zero PclDataRingBuffer.new false false 3 0 480 (by decide)).1,
    (C22_Initialize_returns_zero PclDataRingBuffer.new false false 3 0 480 (by decide)).2.1⟩

/-! ## Start-up: return codes -/

/-- C23 at the failing calls: `InitializePclViz` returns 0 when the first or the
second `CreateSemaphoreA` gives `NULL`, and `StartPclViz` (no worker running)
returns 0 when the first or the second `_beginthreadex` gives 0, the same value
as on success; after a failed `StartPclViz` the pipeline is not active, after a
successful one it is. -/
theorem C23_failure_returns_zero (c : PclVizControl) (init : VizParameters)
    (draw_semaphore : Bool) (build_thread draw_thread : Nat) :
    (InitializePclViz c init false draw_semaphore).2 = 0 ∧
    (InitializePclViz c init false draw_semaphore).1.handle_semaphore_pcl_build = false ∧
    (InitializePclViz c init true false).2 = 0 ∧
    (InitializePclViz c init true false).1.handle_semaphore_pcl_draw = false ∧
    (InitializePclViz c init true true).2 = 0 ∧
    (StartPclViz (InitializePclViz c init true true).1 none (some draw_thread)).2 = 0 ∧
    (StartPclViz (InitializePclViz c init true true).1 none (some draw_thread)).1.operation_status
      = OperationStatus.idle ∧
    (StartPclViz (InitializePclViz c init true true).1 (some build_thread) none).2 = 0 ∧
    (StartPclViz (InitializePclViz c init true true).1 (some build_thread) none).1.operation_status
      = OperationStatus.idle ∧
    (StartPclViz (InitializePclViz c init true true).1 (some build_thread)
      (some draw_thread)).2 = 0 ∧
    (StartPclViz (InitializePclViz c init true true).1 (some build_thread)
      (some draw_thread)).1.operation_status = OperationStatus.active := by
  refine ⟨rfl, rfl, rfl, rfl, rfl, rfl, rfl, rfl, rfl, rfl, rfl⟩

/-! ## Frame pool: the stale-frame walk leaves the array -/

/-- C26 at capacity 4 in latest-wins, no-overwrite mode, after two frames (times
10 and 20, in slots 0 and 1): `GetGetBuffer` takes slot 1 and starts the walk at
slot 0; it clears slot 0, steps the index down to -1 (the wrap test looks for
0, not -1) and reads `buffer_data_[-1]`, outside the array. The disciplined run
of these five calls has no next state. -/
theorem C26_stale_walk_leaves_array :
    ∃ p1,
      submitFrames (clearedPool true false 4) [10, 20] = .ok (p1, [(0, 0), (1, 0)]) ∧
      p1.read_index_ = 1 ∧ p1.stateAt 0 = some 2 ∧ p1.stateAt 1 = some 2 ∧
      p1.GetGetBuffer 0 = .outOfBounds ∧
      clearPrevious 4 2 5 [⟨0, 2, 10⟩, ⟨1, 3, 20⟩, ⟨2, 0, 0⟩, ⟨3, 0, 0⟩] 0 = .outOfBounds ∧
      readSlot [⟨0, 0, 10⟩, ⟨1, 3, 20⟩, ⟨2, 0, 0⟩, ⟨3, 0, 0⟩] (-1) = none ∧
      (Sys.start (clearedPool true false 4)).run
        [.getPut 10, .donePut 1, .getPut 20, .donePut 1, .getGet 0] = none :=
  ⟨⟨true, false, 4, some [⟨0, 2, 10⟩, ⟨1, 2, 20⟩, ⟨2, 0, 0⟩, ⟨3, 0, 0⟩], 2, 1, 1, 0⟩,
    by decide, by decide, by decide, by decide, by decide, by decide, by decide, by decide⟩

/-! ## Frame pool: a state in which both users are turned away -/

/-- C27 at capacity 4 in latest-wins, no-overwrite mode: the producer commits
four frames (times 10, 20, 30, 40), the consumer takes the newest (slot 3) and
releases it. No slot is held then; slot 0 still is Ready with the frame of time
10, under the write cursor, and the read cursor is on slot 3, which is Idle.
From then on every `GetPutBuffer` returns -1 and every `GetGetBuffer` returns
-1, and neither call changes the pool. -/
theorem C27_pool_wedged :
    ∃ s,
      (Sys.start (clearedPool true false 4)).run
        [.getPut 10, .donePut 1, .getPut 20, .donePut 1, .getPut 30, .donePut 1,
         .getPut 40, .donePut 1, .getGet 0, .doneGet] = some s ∧
      s.writing = none ∧ s.reading = none ∧
      s.pool =
        ⟨true, false, 4, some [⟨0, 2, 10⟩, ⟨1, 0, 20⟩, ⟨2, 0, 30⟩, ⟨3, 0, 40⟩], 0, 3, 3, 3⟩ ∧
      (∀ time, s.pool.GetPutBuffer time = .ok (s.pool, -1)) ∧
      (∀ time_get, s.pool.GetGetBuffer time_get = .ok (s.pool, -1, time_get)) ∧
      (∀ calls s', s.run calls = some s' → s'.pool = s.pool) := by
  have hput : ∀ time, PclDataRingBuffer.GetPutBuffer
      ⟨true, false, 4, some [⟨0, 2, 10⟩, ⟨1, 0, 20⟩, ⟨2, 0, 30⟩, ⟨3, 0, 40⟩], 0, 3, 3, 3⟩ time =
      .ok (⟨true, false, 4, some [⟨0, 2, 10⟩, ⟨1, 0, 20⟩, ⟨2, 0, 30⟩, ⟨3, 0, 40⟩], 0, 3, 3, 3⟩,
        -1) := fun time =>
    @GetPutBuffer_refused _ [⟨0, 2, 10⟩, ⟨1, 0, 20⟩, ⟨2, 0, 30⟩, ⟨3, 0, 40⟩] ⟨0, 2, 10⟩ time
      rfl (by decide) (Or.inr ⟨rfl, by decide⟩)
  have hget : ∀ time_get, PclDataRingBuffer.GetGetBuffer
      ⟨true, false, 4, some [⟨0, 2, 10⟩, ⟨1, 0, 20⟩, ⟨2, 0, 30⟩, ⟨3, 0, 40⟩], 0, 3, 3, 3⟩
      time_get =
      .ok (⟨true, false, 4, some [⟨0, 2, 10⟩, ⟨1, 0, 20⟩, ⟨2, 0, 30⟩, ⟨3, 0, 40⟩], 0, 3, 3, 3⟩,
        -1, time_get) := fun time_get =>
    @GetGetBuffer_not_ready _ [⟨0, 2, 10⟩, ⟨1, 0, 20⟩, ⟨2, 0, 30⟩, ⟨3, 0, 40⟩] ⟨3, 0, 40⟩
      time_get rfl (by decide) (by decide)
  have hstay : ∀ (calls : List Call) (s0 s' : Sys),
      s0.pool =
        ⟨true, false, 4, some [⟨0, 2, 10⟩, ⟨1, 0, 20⟩, ⟨2, 0, 30⟩, ⟨3, 0, 40⟩], 0, 3, 3, 3⟩ →
      s0.writing = none → s0.reading = none → s0.run calls = some s' →
      s'.pool = s0.pool := by
    intro calls
    induction calls with
    | nil =>
      intro s0 s' _ _ _ hrun
      simp only [Sys.run, Option.some.injEq] at hrun
      rw [hrun]
    | cons c cs ih =>
      intro s0 s' hp hw hr hrun
      obtain ⟨pool, writing, reading, committed⟩ := s0
      simp only at hp hw hr
      subst hp hw hr
      cases c with
      | getPut time =>
        simp only [Sys.run, Sys.call, hput time, Option.bind,
          show ((-1 : Int) < 0) from by decide, if_true] at hrun
        exact ih _ s' rfl rfl rfl hrun
      | donePut status =>
        simp [Sys.run, Sys.call] at hrun
      | getGet time_get =>
        simp only [Sys.run, Sys.call, hget time_get, Option.bind,
          show ((-1 : Int) < 0) from by decide, if_true] at hrun
        exact ih _ s' rfl rfl rfl hrun
      | doneGet =>
        simp [Sys.run, Sys.call] at hrun
  refine ⟨⟨⟨true, false, 4, some [⟨0, 2, 10⟩, ⟨1, 0, 20⟩, ⟨2, 0, 30⟩, ⟨3, 0, 40⟩], 0, 3, 3, 3⟩,
    none, none, some (3, 40)⟩, by decide, rfl, rfl, rfl, hput, hget, ?_⟩
  intro calls s' hrun
  exact hstay calls _ s' rfl rfl rfl hrun

/-! ## Frame pool: release of a slot that is not held -/

/-- C28 at capacity 4 (latest-wins with overwrite, the pipeline's mode), before
any `GetGetBuffer`, when the last-get cursor still has its initial value 0.
While the producer holds slot 0 (Writing), `DoneGetBuffer(0)` sets it to Idle,
and the producer's `DonePutBuffer(0, 1)` is then rejected with -1; and when the
frame is committed (slot 0 Ready), `DoneGetBuffer(0)` sets it to Idle, and
`GetGetBuffer` finds nothing: the frame is lost. -/
theorem C28_release_of_unheld_slot :
    ∃ p1 p2 p3 p4,
      (clearedPool true true 4).GetPutBuffer 10 = .ok (p1, 0) ∧ p1.stateAt 0 = some 1 ∧
      p1.DoneGetBuffer 0 = .ok p2 ∧ p2.stateAt 0 = some 0 ∧
      p2.DonePutBuffer 0 1 = .ok (p2, -1) ∧
      p1.DonePutBuffer 0 1 = .ok (p3, 0) ∧ p3.stateAt 0 = some 2 ∧ p3.timeAt 0 = some 10 ∧
      p3.DoneGetBuffer 0 = .ok p4 ∧ p4.stateAt 0 = some 0 ∧
      p4.GetGetBuffer 0 = .ok (p4, -1, 0) :=
  ⟨⟨true, true, 4, some [⟨0, 1, 10⟩, ⟨1, 0, 0⟩, ⟨2, 0, 0⟩, ⟨3, 0, 0⟩], 0, 0, 0, 0⟩,
    ⟨true, true, 4, some [⟨0, 0, 10⟩, ⟨1, 0, 0⟩, ⟨2, 0, 0⟩, ⟨3, 0, 0⟩], 0, 0, 0, 0⟩,
    ⟨true, true, 4, some [⟨0, 2, 10⟩, ⟨1, 0, 0⟩, ⟨2, 0, 0⟩, ⟨3, 0, 0⟩], 1, 0, 0, 0⟩,
    ⟨true, true, 4, some [⟨0, 0, 10⟩, ⟨1, 0, 0⟩, ⟨2, 0, 0⟩, ⟨3, 0, 0⟩], 1, 0, 0, 0⟩,
    by decide, by decide, by decide, by decide, by decide, by decide, by decide, by decide,
    by decide, by decide, by decide⟩

/-! ## Start and stop: repeated calls -/

theorem clearPick_idem (pick_data : List PickData) :
    (List.range 4).foldl
        (fun pick_data i => pick_data.set i { valid := false, x := 0, y := 0, z := 0 })
        ((List.range 4).foldl
          (fun pick_data i => pick_data.set i { valid := false, x := 0, y := 0, z := 0 })
          pick_data) =
      (List.range 4).foldl
        (fun pick_data i => pick_data.set i { valid := false, x := 0, y := 0, z := 0 })
        pick_data := by
  simp only [List.range, List.range.loop, List.foldl]
  apply List.ext_getElem?
  intro n
  simp only [List.getElem?_set, List.length_set]
  split_ifs <;> rfl

theorem stopWorker_stopped (t : ThreadControl) (done : Nat → Int) (fuel : Nat)
    (h : t.thread_handle = none) : stopWorker t done fuel = some (t, 0) := by
  simp [stopWorker, h]

theorem StopPclViz_eq (c : PclVizControl) (draw_done build_done : Nat → Int) (fuel : Nat)
    (d b : ThreadControl) (nd nb : Nat)
    (hd : stopWorker c.thread_control_draw draw_done fuel = some (d, nd))
    (hb : stopWorker c.thread_control_build_pcl build_done fuel = some (b, nb)) :
    StopPclViz c draw_done build_done fuel =
      some ({ c with
                operation_status := OperationStatus.idle,
                thread_control_draw := d,
                thread_control_build_pcl := b,
                pick_information :=
                  { c.pick_information with
                      count := 0,
                      pick_data :=
                        (List.range 4).foldl
                          (fun pick_data i =>
                            pick_data.set i { valid := false, x := 0, y := 0, z := 0 })
                          c.pick_information.pick_data } },
            0, nd, nb) := by
  unfold StopPclViz
  simp only [hd, hb]

/-- C21: (a) `StopPclViz` returns for every behaviour of the workers, and a
second `StopPclViz` right after it returns 0 without a single sleep and leaves
the control record exactly as the first call left it; (b) `StartPclViz` called
while the build worker's handle is set returns -1 and changes nothing;
(c) after a `StartPclViz` on a stopped pipeline that created the build worker
and failed to create the draw worker, the build handle is set and the draw
handle is `NULL`, and `StopPclViz` leaves both handles `NULL`. -/
theorem C21_start_stop_idempotent (c : PclVizControl)
    (draw_done build_done draw_done2 build_done2 : Nat → Int) (extra fuel2 : Nat)
    (build_thread : Nat) (build_result draw_result : Option Nat) :
    (∃ c1 n_draw n_build,
      StopPclViz c draw_done build_done (202 + extra) = some (c1, 0, n_draw, n_build) ∧
      StopPclViz c1 draw_done2 build_done2 fuel2 = some (c1, 0, 0, 0)) ∧
    (c.thread_control_build_pcl.thread_handle ≠ none →
      StartPclViz c build_result draw_result = (c, -1)) ∧
    (c.thread_control_build_pcl.thread_handle = none →
      c.thread_control_draw.thread_handle = none →
      (StartPclViz c (some build_thread) none).1.thread_control_build_pcl.thread_handle =
        some build_thread ∧
      (StartPclViz c (some build_thread) none).1.thread_control_draw.thread_handle = none ∧
      ∃ c2 n_draw n_build,
        StopPclViz (StartPclViz c (some build_thread) none).1 draw_done build_done
          (202 + extra) = some (c2, 0, n_draw, n_build) ∧
        n_draw = 0 ∧
        c2.thread_control_build_pcl.thread_handle = none ∧
        c2.thread_control_draw.thread_handle = none) := by
  refine ⟨?_, ?_, ?_⟩
  · obtain ⟨d, nd, hd, -, hd2, -⟩ := stopWorker_bounded c.thread_control_draw draw_done extra
    obtain ⟨b, nb, hb, -, hb2, -⟩ :=
      stopWorker_bounded c.thread_control_build_pcl build_done extra
    refine ⟨_, nd, nb, StopPclViz_eq c draw_done build_done _ d b nd nb hd hb, ?_⟩
    rw [StopPclViz_eq _ draw_done2 build_done2 fuel2 d b 0 0
      (stopWorker_stopped d draw_done2 fuel2 hd2) (stopWorker_stopped b build_done2 fuel2 hb2)]
    simp only [clearPick_idem]
  · intro h
    simp [StartPclViz, h]
  · intro hb hd
    have h1 : (StartPclViz c (some build_thread) none).1.thread_control_build_pcl.thread_handle =
        some build_thread := by
      simp [StartPclViz, hb, hd]
    have h2 : (StartPclViz c (some build_thread) none).1.thread_control_draw.thread_handle =
        none := by
      simp [StartPclViz, hb, hd]
    refine ⟨h1, h2, ?_⟩
    obtain ⟨d, nd, hd', -, hd2, hd3, -⟩ :=
      stopWorker_bounded (StartPclViz c (some build_thread) none).1.thread_control_draw
        draw_done extra
    obtain ⟨b, nb, hb', -, hb2, -⟩ :=
      stopWorker_bounded (StartPclViz c (some build_thread) none).1.thread_control_build_pcl
        build_done extra
    exact ⟨_, nd, nb, StopPclViz_eq _ draw_done build_done _ d b nd nb hd' hb', (hd3 h2).1,
      hb2, hd2⟩

/-! ## Point pick: the poll in `RunPclViz` -/

/-- `RunPclViz` on a pipeline that accepts frames returns 0, whether the frame
finds a slot or not; its pick block is `pickControl`, and the pipeline still
accepts frames afterwards. -/
theorem RunPclViz_running (c : PclVizControl) (time : Nat) (input_args : PclVizInputArgs)
    (output_args : PclVizOutputArgs) (hrun : c.Running) :
    ∃ c', RunPclViz c time input_args output_args =
        .ok (c', (pickControl c.pick_information output_args).2, 0) ∧
      c'.pick_information = (pickControl c.pick_information output_args).1 ∧ c'.Running := by
  obtain ⟨hactive, bd, hbd, hlen, hw0, hw1, hsc⟩ := hrun
  obtain ⟨slot, hslot⟩ := @readSlot_isSome_of_lt bd _ hw0 (by omega)
  unfold RunPclViz
  simp only [hactive, ne_eq, not_true_eq_false, if_false]
  by_cases href : slot.state = 3 ∨
      (c.pcl_data_ring_buffer.allow_overwrite_ = false ∧ slot.state ≠ 0)
  · rw [GetPutBuffer_refused time hbd hslot href]
    simp only [Outcome.bind, show ¬ ((-1 : Int) ≥ 0) from by decide, if_false,
      DonePutBuffer_negative _ (-1) 0 (by decide)]
    exact ⟨_, rfl, rfl, rfl, bd, hbd, hlen, hw0, hw1, hsc⟩
  · rw [GetPutBuffer_granted time hbd hslot href]
    have hlt : c.pcl_data_ring_buffer.write_inex_.toNat < c.slot_content.length := by omega
    have hdone := @DonePutBuffer_commit
      { c.pcl_data_ring_buffer with
          buffer_data_ := some (writeSlot bd c.pcl_data_ring_buffer.write_inex_
            { slot with time := time, state := 1 }),
          put_index_ := c.pcl_data_ring_buffer.write_inex_ }
      _ _ c.pcl_data_ring_buffer.write_inex_ 1 rfl
      (by rw [length_writeSlot]; exact hlen) rfl
      (readSlot_writeSlot_self _ hslot) rfl
    simp only [show ¬ ((1 : Int) = 0) from by decide, if_false] at hdone
    simp only [Outcome.bind, ge_iff_le, hw0, if_true, List.getElem?_eq_getElem hlt, hdone]
    refine ⟨_, rfl, rfl, rfl, _, rfl, ?_, ?_, ?_, ?_⟩
    · simp only [length_writeSlot]
      exact hlen
    · simp only
      split_ifs <;> omega
    · simp only
      split_ifs <;> omega
    · simp only [length_writeSlot, List.length_set]
      exact hsc

/-- C24 as stated fails: `PointPickCallback` returns at once. On the running
pipeline the callback is invoked for the picked point 5 at (1, 2, 3); the next
`RunPclViz` returns 0 and reports no pick: `output_args` is as it was passed,
with `count = 0`. -/
theorem C24_pick_not_reported_counterexample :
    (PointPickCallback (runningControl 2 1) 5 1 2 3).pick_information.count = 0 ∧
    ∃ c1 out1,
      RunPclViz (PointPickCallback (runningControl 2 1) 5 1 2 3) 50 sampleInputArgs
          emptyOutputArgs = .ok (c1, out1, 0) ∧
        out1 = emptyOutputArgs ∧ out1.pick_information.count = 0 ∧
        out1.pick_information.count ≠ 1 :=
  ⟨rfl, _, _, rfl, rfl, rfl, by decide⟩

/-- C24 (amended): `PointPickCallback` leaves the control block as it is, so it
hands nothing over. The poll in `RunPclViz` on a pipeline that accepts frames
returns 0 and works on the stored `pick_information` alone: with `count ≤ 0`
it leaves `output_args` as passed; with `count > 0` and the entry at index
`count - 1` valid it reports exactly that entry (`count = 1`, entry 0 set to its
coordinates with `valid = true`) and resets the stored count to 0; in both cases
the stored count is not positive afterwards, and a second `RunPclViz` leaves
`output_args` as the first one left it. -/
theorem C24_pick_handoff (c : PclVizControl) (idx : Int) (x y z : ℚ) (time time2 : Nat)
    (input_args input_args2 : PclVizInputArgs) (output_args : PclVizOutputArgs)
    (hrun : c.Running) :
    PointPickCallback c idx x y z = c ∧
    ∃ c1 out1,
      RunPclViz (PointPickCallback c idx x y z) time input_args output_args =
        .ok (c1, out1, 0) ∧
      (c.pick_information.count ≤ 0 → out1 = output_args) ∧
      (0 < c.pick_information.count →
        (c.pick_information.pick_data.getD (max 0 (c.pick_information.count - 1)).toNat
          ⟨false, 0, 0, 0⟩).valid = true →
        out1.pick_information.count = 1 ∧
        out1.pick_information.pick_data =
          output_args.pick_information.pick_data.set 0
            { x := (c.pick_information.pick_data.getD
                (max 0 (c.pick_information.count - 1)).toNat ⟨false, 0, 0, 0⟩).x,
              y := (c.pick_information.pick_data.getD
                (max 0 (c.pick_information.count - 1)).toNat ⟨false, 0, 0, 0⟩).y,
              z := (c.pick_information.pick_data.getD
                (max 0 (c.pick_information.count - 1)).toNat ⟨false, 0, 0, 0⟩).z,
              valid := true }) ∧
      c1.pick_information.count ≤ 0 ∧
      (∃ c2, RunPclViz c1 time2 input_args2 out1 = .ok (c2, out1, 0)) ∧
      (0 < c.pick_information.count → c1.pick_information.count = 0) := by
  refine ⟨rfl, ?_⟩
  obtain ⟨c1, h1, hp1, hrun1⟩ := RunPclViz_running c time input_args output_args hrun
  have hcount : c1.pick_information.count ≤ 0 := by
    rw [hp1]
    unfold pickControl
    split_ifs with h
    · exact le_refl _
    · exact not_lt.mp h
  obtain ⟨c2, h2, -, -⟩ :=
    RunPclViz_running c1 time2 input_args2 (pickControl c.pick_information output_args).2 hrun1
  have hsame : (pickControl c1.pick_information (pickControl c.pick_information output_args).2).2
      = (pickControl c.pick_information output_args).2 := by
    have : ¬ c1.pick_information.count > 0 := by omega
    rw [pickControl, if_neg this]
  rw [hsame] at h2
  refine ⟨c1, _, h1, ?_, ?_, hcount, ⟨c2, h2⟩, ?_⟩
  · intro h
    have : ¬ c.pick_information.count > 0 := by omega
    rw [pickControl, if_neg this]
  · intro h hv
    have : c.pick_information.count > 0 := h
    simp only [pickControl, this, if_true, hv, and_self]
  · intro h
    have : c.pick_information.count > 0 := h
    rw [hp1, pickControl, if_pos this]

theorem C24_pick_handoff_witness :
    ∃ c1 out1,
      RunPclViz (PointPickCallback pickedControl 5 7 8 9) 50 sampleInputArgs emptyOutputArgs =
        .ok (c1, out1, 0) ∧
      out1.pick_information.count = 1 ∧
      out1.pick_information.pick_data[0]? = some { valid := true, x := 1, y := 2, z := 3 } ∧
      c1.pick_information.count ≤ 0 :=
  let ⟨c1, out1, h1, _, h3, h4, _⟩ :=
    (C24_pick_handoff pickedControl 5 7 8 9 50 60 sampleInputArgs sampleInputArgs emptyOutputArgs
      ⟨rfl, [⟨0, 0, 0⟩, ⟨1, 0, 0⟩, ⟨2, 0, 0⟩, ⟨3, 0, 0⟩], rfl, rfl, by decide, by decide, rfl⟩).2
  ⟨c1, out1, h1, (h3 (by decide) rfl).1, by rw [(h3 (by decide) rfl).2]; rfl, h4⟩

/-! ## Point cloud construction: pre-size plus append -/

theorem length_BuildPointCloud (W H : Nat) (d_inf base_length bf min_distance max_distance : ℚ)
    (base_image : Mat (Nat → Nat)) (depth_data : Mat ℚ) (cloud : PointCloud)
    (htype : base_image.type = CV_8UC3 ∨ base_image.type = CV_8UC4) :
    (BuildPointCloud W H d_inf base_length bf min_distance max_distance base_image depth_data
        cloud).points.length = presize W H + H * W := by
  rw [points_BuildPointCloud W H d_inf base_length bf min_distance max_distance base_image
    depth_data cloud htype, List.length_append, length_vectorResize, length_rows]

theorem presize_eq (W H : Nat) (hW : W < 2 ^ 31) (hH : H < 2 ^ 31) (hsize : W * H < 2 ^ 32) :
    presize W H = W * H := by
  unfold presize
  rw [Nat.mod_eq_of_lt (by omega : H < 2 ^ 32), Nat.mod_eq_of_lt (by omega : W < 2 ^ 32),
    Nat.mul_comm H W, Nat.mod_eq_of_lt hsize]

/-- C29 as stated fails for a 65536×65536 frame: the pre-size is the product
of the two `uint32_t` members, `65536 * 65536 mod 2^32 = 0`, so nothing is
pre-sized, the collection has `W*H = 2^32` points and not `2*W*H`, and
position 0 holds the point of pixel (0, 0), not a default point. -/
theorem C29_presize_wraps_counterexample :
    presize 65536 65536 = 0 ∧
    (BuildPointCloud 65536 65536 2 (1 / 10) 60 (1 / 2) 100 ⟨CV_8UC3, fun _ _ ch => ch + 1⟩
        ⟨5, fun _ _ => 3⟩ PointCloud.fresh).points.length = 65536 * 65536 ∧
    (BuildPointCloud 65536 65536 2 (1 / 10) 60 (1 / 2) 100 ⟨CV_8UC3, fun _ _ ch => ch + 1⟩
        ⟨5, fun _ _ => 3⟩ PointCloud.fresh).points.length ≠ 2 * 65536 * 65536 ∧
    (BuildPointCloud 65536 65536 2 (1 / 10) 60 (1 / 2) 100 ⟨CV_8UC3, fun _ _ ch => ch + 1⟩
        ⟨5, fun _ _ => 3⟩ PointCloud.fresh).points[0]? ≠ some PointXYZRGBA.zero := by
  have hp : presize 65536 65536 = 0 := by norm_num [presize]
  have hl := length_BuildPointCloud 65536 65536 2 (1 / 10) 60 (1 / 2) 100
    ⟨CV_8UC3, fun _ _ ch => ch + 1⟩ ⟨5, fun _ _ => 3⟩ PointCloud.fresh (Or.inl rfl)
  rw [hp] at hl
  refine ⟨hp, by rw [hl], by rw [hl]; norm_num, ?_⟩
  have he := emittedPoint_BuildPointCloud 65536 65536 2 (1 / 10) 60 (1 / 2) 100
    ⟨CV_8UC3, fun _ _ ch => ch + 1⟩ ⟨5, fun _ _ => 3⟩ PointCloud.fresh (Or.inl rfl) 0 0
    (by norm_num) (by norm_num)
  unfold emittedPoint at he
  rw [hp] at he
  simp only [Nat.zero_mul, Nat.add_zero] at he
  rw [he]
  norm_num [pixelPoint, PointXYZRGBA.zero]

/-- C29 (amended): for every `W × H` frame (`W`, `H` values of an `int`) of type
`CV_8UC3` or `CV_8UC4` with `W*H < 2^32`, `BuildPointCloud` on a fresh cloud
yields `2*W*H` points: the first `W*H` are default-constructed (zero) points
and the point computed from pixel (row `r`, column `c`) is at position
`W*H + r*W + c`. (Without the bound the number of leading default points is
`presize W H`, the 32-bit product: `length_BuildPointCloud`,
`presize_eq`.) -/
theorem C29_presize_plus_append (W H : Nat)
    (d_inf base_length bf min_distance max_distance : ℚ)
    (base_image : Mat (Nat → Nat)) (depth_data : Mat ℚ)
    (htype : base_image.type = CV_8UC3 ∨ base_image.type = CV_8UC4)
    (hW : W < 2 ^ 31) (hH : H < 2 ^ 31) (hsize : W * H < 2 ^ 32) :
    (BuildPointCloud W H d_inf base_length bf min_distance max_distance base_image depth_data
        PointCloud.fresh).points.length = 2 * W * H ∧
    (∀ k, k < W * H →
      (BuildPointCloud W H d_inf base_length bf min_distance max_distance base_image depth_data
        PointCloud.fresh).points[k]? = some PointXYZRGBA.zero) ∧
    (∀ r c, r < H → c < W →
      (BuildPointCloud W H d_inf base_length bf min_distance max_distance base_image depth_data
        PointCloud.fresh).points[W * H + r * W + c]? =
        some (pixelPoint d_inf base_length bf min_distance max_distance
          ((W / 2 : Nat) : Int) ((H / 2 : Nat) : Int) r c
          (depth_data.px r c) (base_image.px r c))) := by
  have hp := presize_eq W H hW hH hsize
  refine ⟨?_, ?_, ?_⟩
  · rw [length_BuildPointCloud _ _ _ _ _ _ _ _ _ _ htype, hp]
    ring
  · intro k hk
    rw [points_BuildPointCloud _ _ _ _ _ _ _ _ _ _ htype, hp,
      List.getElem?_append_left (by rw [length_vectorResize]; exact hk)]
    simp [vectorResize, PointCloud.fresh, List.getElem?_replicate, hk]
  · intro r c hr hc
    have he := emittedPoint_BuildPointCloud W H d_inf base_length bf min_distance max_distance
      base_image depth_data PointCloud.fresh htype r c hr hc
    unfold emittedPoint at he
    rw [hp] at he
    exact he

theorem C29_presize_plus_append_witness :
    (BuildPointCloud 2 1 2 (1 / 10) 60 (1 / 2) 100 ⟨CV_8UC3, fun _ _ ch => ch + 1⟩
        ⟨5, fun _ _ => 3⟩ PointCloud.fresh).points.length = 2 * 2 * 1 ∧
    (BuildPointCloud 2 1 2 (1 / 10) 60 (1 / 2) 100 ⟨CV_8UC3, fun _ _ ch => ch + 1⟩
        ⟨5, fun _ _ => 3⟩ PointCloud.fresh).points[1]? = some PointXYZRGBA.zero :=
  ⟨(C29_presize_plus_append 2 1 2 (1 / 10) 60 (1 / 2) 100 ⟨CV_8UC3, fun _ _ ch => ch + 1⟩
      ⟨5, fun _ _ => 3⟩ (Or.inl rfl) (by norm_num) (by norm_num) (by norm_num)).1,
    (C29_presize_plus_append 2 1 2 (1 / 10) 60 (1 / 2) 100 ⟨CV_8UC3, fun _ _ ch => ch + 1⟩
      ⟨5, fun _ _ => 3⟩ (Or.inl rfl) (by norm_num) (by norm_num) (by norm_num)).2.1 1
      (by norm_num)⟩

/-! ## Point cloud construction: depth against disparity -/

/-- C30 as stated fails when a depth falls outside the range gate: a 2×1
`CV_8UC3` frame of uniform colour with disparities `5/2 < 3`, both above
`d_inf = 2`, `bf = 60`, range `[1/2, 100)`. The depth of pixel (0, 0) is
`60 / (5/2 - 2) = 120`, not below `max_distance`, so its point is the NaN point:
its `z` is NaN and not a number above the `z = 60` of pixel (0, 1), and its
colour is (0, 0, 0) and not the pixel's. -/
theorem C30_out_of_range_counterexample :
    (2 : ℚ) < 5 / 2 ∧ (5 / 2 : ℚ) < 3 ∧
    emittedPoint 2 1 (BuildPointCloud 2 1 2 (1 / 10) 60 (1 / 2) 100
        ⟨CV_8UC3, fun _ _ ch => ch + 1⟩ ⟨5, fun _ j => if j = 0 then 5 / 2 else 3⟩
        PointCloud.fresh) 0 0 = some point_nan ∧
    emittedPoint 2 1 (BuildPointCloud 2 1 2 (1 / 10) 60 (1 / 2) 100
        ⟨CV_8UC3, fun _ _ ch => ch + 1⟩ ⟨5, fun _ j => if j = 0 then 5 / 2 else 3⟩
        PointCloud.fresh) 0 1 = some ⟨.num 0, .num 0, .num 60, 3, 2, 1⟩ ∧
    point_nan.z = FloatVal.nan ∧ (¬ ∃ z1 : ℚ, point_nan.z = .num z1 ∧ z1 > 60) ∧
    point_nan.r ≠ 3 := by
  refine ⟨by norm_num, by norm_num, ?_, ?_, rfl, ?_, by decide⟩
  · rw [emittedPoint_BuildPointCloud _ _ _ _ _ _ _ _ _ _ (Or.inl rfl) 0 0 (by decide)
      (by decide)]
    norm_num [pixelPoint]
  · rw [emittedPoint_BuildPointCloud _ _ _ _ _ _ _ _ _ _ (Or.inl rfl) 0 1 (by decide)
      (by decide)]
    norm_num [pixelPoint]
  · rintro ⟨z1, h, -⟩
    simp [point_nan] at h

/-- C30 (amended): for `bf > 0` and two pixels of a `CV_8UC3` or `CV_8UC4`
frame with disparities `d_inf < d1 < d2` whose depths `bf / (d - d_inf)` both
lie in `[min_distance, max_distance)`, the points `BuildPointCloud` emits for
them have numeric `z1 = bf / (d1 - d_inf)` and `z2 = bf / (d2 - d_inf)` with
`z1 > z2`; each of the two points carries its pixel's colour, `r`, `g`, `b`
being channels 2, 1, 0 of the pixel, so pixels of equal colour give points of
equal colour; and every pixel of the frame whose depth is outside that range is
emitted as the NaN point, whose colour is (0, 0, 0). -/
theorem C30_depth_decreasing (W H : Nat) (d_inf base_length bf min_distance max_distance : ℚ)
    (base_image : Mat (Nat → Nat)) (depth_data : Mat ℚ) (cloud : PointCloud)
    (htype : base_image.type = CV_8UC3 ∨ base_image.type = CV_8UC4)
    (r1 c1 r2 c2 : Nat) (hr1 : r1 < H) (hc1 : c1 < W) (hr2 : r2 < H) (hc2 : c2 < W)
    (hbf : 0 < bf) (hd1 : d_inf < depth_data.px r1 c1)
    (hd12 : depth_data.px r1 c1 < depth_data.px r2 c2)
    (hz1 : min_distance ≤ bf / (depth_data.px r1 c1 - d_inf) ∧
      bf / (depth_data.px r1 c1 - d_inf) < max_distance)
    (hz2 : min_distance ≤ bf / (depth_data.px r2 c2 - d_inf) ∧
      bf / (depth_data.px r2 c2 - d_inf) < max_distance) :
    ∃ pt1 pt2,
      emittedPoint W H (BuildPointCloud W H d_inf base_length bf min_distance max_distance
        base_image depth_data cloud) r1 c1 = some pt1 ∧
      emittedPoint W H (BuildPointCloud W H d_inf base_length bf min_distance max_distance
        base_image depth_data cloud) r2 c2 = some pt2 ∧
      pt1.z = .num (bf / (depth_data.px r1 c1 - d_inf)) ∧
      pt2.z = .num (bf / (depth_data.px r2 c2 - d_inf)) ∧
      bf / (depth_data.px r1 c1 - d_inf) > bf / (depth_data.px r2 c2 - d_inf) ∧
      (pt1.r = base_image.px r1 c1 2 ∧ pt1.g = base_image.px r1 c1 1 ∧
        pt1.b = base_image.px r1 c1 0) ∧
      (pt2.r = base_image.px r2 c2 2 ∧ pt2.g = base_image.px r2 c2 1 ∧
        pt2.b = base_image.px r2 c2 0) ∧
      ((∀ ch, ch < 3 → base_image.px r1 c1 ch = base_image.px r2 c2 ch) →
        pt1.r = pt2.r ∧ pt1.g = pt2.g ∧ pt1.b = pt2.b) ∧
      (∀ r c, r < H → c < W →
        ¬ (min_distance ≤ bf / (depth_data.px r c - d_inf) ∧
          bf / (depth_data.px r c - d_inf) < max_distance) →
        emittedPoint W H (BuildPointCloud W H d_inf base_length bf min_distance max_distance
          base_image depth_data cloud) r c = some point_nan ∧
        point_nan.r = 0 ∧ point_nan.g = 0 ∧ point_nan.b = 0) := by
  have hv1 : depth_data.px r1 c1 - d_inf > 0 := by linarith
  have hv2 : depth_data.px r2 c2 - d_inf > 0 := by linarith
  refine ⟨_, _,
    emittedPoint_BuildPointCloud W H d_inf base_length bf min_distance max_distance base_image
      depth_data cloud htype r1 c1 hr1 hc1,
    emittedPoint_BuildPointCloud W H d_inf base_length bf min_distance max_distance base_image
      depth_data cloud htype r2 c2 hr2 hc2, ?_, ?_, ?_, ?_, ?_, ?_, ?_⟩
  · rw [pixelPoint_in_range hv1 hz1]
  · rw [pixelPoint_in_range hv2 hz2]
  · exact div_lt_div_of_pos_left hbf hv1 (by linarith)
  · rw [pixelPoint_in_range hv1 hz1]
    exact ⟨rfl, rfl, rfl⟩
  · rw [pixelPoint_in_range hv2 hz2]
    exact ⟨rfl, rfl, rfl⟩
  · intro hcol
    rw [pixelPoint_in_range hv1 hz1, pixelPoint_in_range hv2 hz2]
    exact ⟨hcol 2 (by decide), hcol 1 (by decide), hcol 0 (by decide)⟩
  · intro r c hr hc hz
    rw [emittedPoint_BuildPointCloud W H d_inf base_length bf min_distance max_distance
      base_image depth_data cloud htype r c hr hc, pixelPoint_out_of_range hz]
    exact ⟨rfl, rfl, rfl, rfl⟩

/-- The 4×4 scenario: uniform colour, disparities 3, 4, ..., 18 row by row,
`baseline = 0.1`, `bf = 60`, `d_inf = 2`, range `[1/2, 100)`; pixels (0, 0) and
(0, 1) have depths 60 and 30. -/
theorem C30_depth_decreasing_witness :
    ∃ pt1 pt2,
      emittedPoint 4 4 (BuildPointCloud 4 4 2 (1 / 10) 60 (1 / 2) 100
        ⟨CV_8UC3, fun _ _ ch => ch + 1⟩ ⟨5, fun i j => 3 + ((i * 4 + j : Nat) : ℚ)⟩
        PointCloud.fresh) 0 0 = some pt1 ∧
      emittedPoint 4 4 (BuildPointCloud 4 4 2 (1 / 10) 60 (1 / 2) 100
        ⟨CV_8UC3, fun _ _ ch => ch + 1⟩ ⟨5, fun i j => 3 + ((i * 4 + j : Nat) : ℚ)⟩
        PointCloud.fresh) 0 1 = some pt2 ∧
      pt1.r = pt2.r ∧ pt1.g = pt2.g ∧ pt1.b = pt2.b :=
  let ⟨pt1, pt2, h1, h2, _, _, _, _, _, h8, _⟩ :=
    C30_depth_decreasing 4 4 2 (1 / 10) 60 (1 / 2) 100
      ⟨CV_8UC3, fun _ _ ch => ch + 1⟩ ⟨5, fun i j => 3 + ((i * 4 + j : Nat) : ℚ)⟩
      PointCloud.fresh (Or.inl rfl) 0 0 0 1 (by decide) (by decide) (by decide) (by decide)
      (by norm_num) (by norm_num) (by norm_num) (by norm_num) (by norm_num)
  ⟨pt1, pt2, h1, h2, h8 (fun _ _ => rfl)⟩

/-! ## Frame pool: what the hand-off can tell of a pool -/

theorem live_eq_iff (b b' : BufferData) :
    b.live = b'.live ↔ b.state = b'.state ∧ (b.state ≠ 0 → b.time = b'.time) := by
  unfold BufferData.live
  constructor
  · intro h
    simp only [BufferData.mk.injEq, true_and] at h
    obtain ⟨hs, ht⟩ := h
    refine ⟨hs, fun h0 => ?_⟩
    rw [← hs] at ht
    simpa [h0] using ht
  · rintro ⟨hs, ht⟩
    simp only [BufferData.mk.injEq, true_and]
    refine ⟨hs, ?_⟩
    rw [← hs]
    by_cases h0 : b.state = 0
    · simp [h0]
    · simp [h0, ht h0]

theorem readSlot_map_live (bd : List BufferData) (i : Int) :
    readSlot (bd.map BufferData.live) i = (readSlot bd i).map BufferData.live := by
  unfold readSlot
  split
  · rfl
  · rw [List.getElem?_map]

theorem writeSlot_map_live (bd : List BufferData) (i : Int) (b : BufferData) :
    (writeSlot bd i b).map BufferData.live = writeSlot (bd.map BufferData.live) i b.live := by
  unfold writeSlot
  split
  · rfl
  · rw [List.map_set]

theorem readSlot_live_eq {bd bd' : List BufferData}
    (h : bd.map BufferData.live = bd'.map BufferData.live) (i : Int) :
    (readSlot bd i).map BufferData.live = (readSlot bd' i).map BufferData.live := by
  rw [← readSlot_map_live, ← readSlot_map_live, h]

theorem writeSlot_live_eq {bd bd' : List BufferData}
    (h : bd.map BufferData.live = bd'.map BufferData.live) (i : Int) {b b' : BufferData}
    (hb : b.live = b'.live) :
    (writeSlot bd i b).map BufferData.live = (writeSlot bd' i b').map BufferData.live := by
  rw [writeSlot_map_live, writeSlot_map_live, h, hb]

/-- Two slots the hand-off cannot tell apart are both absent or both present
with the same state and, unless Idle, the same time. -/
theorem readSlot_live_cases {bd bd' : List BufferData}
    (h : bd.map BufferData.live = bd'.map BufferData.live) (i : Int) :
    (readSlot bd i = none ∧ readSlot bd' i = none) ∨
    ∃ slot slot', readSlot bd i = some slot ∧ readSlot bd' i = some slot' ∧
      slot.state = slot'.state ∧ (slot.state ≠ 0 → slot.time = slot'.time) := by
  have hs := readSlot_live_eq h i
  cases h1 : readSlot bd i with
  | none =>
    cases h2 : readSlot bd' i with
    | none => exact Or.inl ⟨rfl, rfl⟩
    | some s' => simp [h1, h2] at hs
  | some s =>
    cases h2 : readSlot bd' i with
    | none => simp [h1, h2] at hs
    | some s' =>
      simp only [h1, h2, Option.map_some', Option.some.injEq] at hs
      exact Or.inr ⟨s, s', rfl, rfl, (live_eq_iff s s').mp hs⟩

theorem GetPutBuffer_live (p q : PclDataRingBuffer) (h : p.live = q.live) (time : Nat) :
    observeCall p (.getPut time) = observeCall q (.getPut time) := by
  obtain ⟨lm, ao, n, obd, w, r, pi, gi⟩ := p
  obtain ⟨lm', ao', n', obd', w', r', pi', gi'⟩ := q
  simp only [PclDataRingBuffer.live, PclDataRingBuffer.mk.injEq] at h
  obtain ⟨rfl, rfl, rfl, hbd, rfl, rfl, rfl, rfl⟩ := h
  cases obd with
  | none =>
    cases obd' with
    | none => rfl
    | some bd' => simp at hbd
  | some bd =>
    cases obd' with
    | none => simp at hbd
    | some bd' =>
      simp only [Option.map_some', Option.some.injEq] at hbd
      simp only [observeCall, MethodCall.apply, GetPutBuffer]
      rcases readSlot_live_cases hbd w with ⟨h1, h2⟩ | ⟨slot, slot', h1, h2, hs, -⟩
      · simp only [h1, h2]
      · simp only [h1, h2, ← hs]
        have hw := writeSlot_live_eq hbd w
          (show ({ slot with time := time, state := 1 } : BufferData).live =
            ({ slot' with time := time, state := 1 } : BufferData).live from by
              simp [BufferData.live])
        split_ifs <;>
          simp only [Outcome.bind, PclDataRingBuffer.live, Option.map_some', hbd, hw]

theorem DonePutBuffer_live (p q : PclDataRingBuffer) (h : p.live = q.live)
    (index status : Int) :
    observeCall p (.donePut index status) = observeCall q (.donePut index status) := by
  obtain ⟨lm, ao, n, obd, w, r, pi, gi⟩ := p
  obtain ⟨lm', ao', n', obd', w', r', pi', gi'⟩ := q
  simp only [PclDataRingBuffer.live, PclDataRingBuffer.mk.injEq] at h
  obtain ⟨rfl, rfl, rfl, hbd, rfl, rfl, rfl, rfl⟩ := h
  cases obd with
  | none =>
    cases obd' with
    | none => rfl
    | some bd' => simp at hbd
  | some bd =>
    cases obd' with
    | none => simp at hbd
    | some bd' =>
      simp only [Option.map_some', Option.some.injEq] at hbd
      simp only [observeCall, MethodCall.apply, DonePutBuffer]
      by_cases hr : index < 0 ∨ index ≥ n
      · simp only [if_pos hr, Outcome.bind, PclDataRingBuffer.live, Option.map_some', hbd]
      · by_cases hp : index ≠ pi
        · simp only [if_neg hr, if_pos hp, Outcome.bind, PclDataRingBuffer.live,
            Option.map_some', hbd]
        · simp only [if_neg hr, if_neg hp]
          rcases readSlot_live_cases hbd index with ⟨h1, h2⟩ | ⟨slot, slot', h1, h2, hs, ht⟩
          · simp only [h1, h2]
          · simp only [h1, h2, ← hs]
            by_cases h1s : slot.state = 1
            · have ht' : slot.time = slot'.time := ht (by rw [h1s]; decide)
              have hw0 := writeSlot_live_eq hbd index
                (show ({ slot with state := 0 } : BufferData).live =
                  ({ slot' with state := 0 } : BufferData).live from by
                    simp [BufferData.live])
              have hw2 := writeSlot_live_eq hbd index
                (show ({ slot with state := 2 } : BufferData).live =
                  ({ slot' with state := 2 } : BufferData).live from by
                    simp [BufferData.live, ht'])
              split_ifs <;>
                simp only [Outcome.bind, PclDataRingBuffer.live, Option.map_some', hbd, hw0, hw2]
            · simp only [if_pos h1s, Outcome.bind, PclDataRingBuffer.live, Option.map_some', hbd]

theorem DoneGetBuffer_live (p q : PclDataRingBuffer) (h : p.live = q.live) (index : Int) :
    observeCall p (.doneGet index) = observeCall q (.doneGet index) := by
  obtain ⟨lm, ao, n, obd, w, r, pi, gi⟩ := p
  obtain ⟨lm', ao', n', obd', w', r', pi', gi'⟩ := q
  simp only [PclDataRingBuffer.live, PclDataRingBuffer.mk.injEq] at h
  obtain ⟨rfl, rfl, rfl, hbd, rfl, rfl, rfl, rfl⟩ := h
  cases obd with
  | none =>
    cases obd' with
    | none => rfl
    | some bd' => simp at hbd
  | some bd =>
    cases obd' with
    | none => simp at hbd
    | some bd' =>
      simp only [Option.map_some', Option.some.injEq] at hbd
      simp only [observeCall, MethodCall.apply, DoneGetBuffer]
      by_cases hr : index < 0 ∨ index ≥ n
      · simp only [if_pos hr, Outcome.bind, PclDataRingBuffer.live, Option.map_some', hbd]
      · by_cases hp : index ≠ gi
        · simp only [if_neg hr, if_pos hp, Outcome.bind, PclDataRingBuffer.live,
            Option.map_some', hbd]
        · simp only [if_neg hr, if_neg hp]
          rcases readSlot_live_cases hbd index with ⟨h1, h2⟩ | ⟨slot, slot', h1, h2, hs, ht⟩
          · simp only [h1, h2]
          · have hw0 := writeSlot_live_eq hbd index
              (show ({ slot with state := 0 } : BufferData).live =
                ({ slot' with state := 0 } : BufferData).live from by
                  simp [BufferData.live])
            simp only [h1, h2, Outcome.bind, PclDataRingBuffer.live, Option.map_some', hw0]

theorem clearPrevious_live (N e : Int) :
    ∀ (fuel : Nat) (bd bd' : List BufferData) (i : Int),
      bd.map BufferData.live = bd'.map BufferData.live →
      ((clearPrevious N e fuel bd i).bind fun r => .ok (r.map BufferData.live)) =
        ((clearPrevious N e fuel bd' i).bind fun r => .ok (r.map BufferData.live)) := by
  intro fuel
  induction fuel with
  | zero => intro bd bd' i _; rfl
  | succ fuel ih =>
    intro bd bd' i hbd
    unfold clearPrevious
    by_cases hi : i = e
    · simp only [if_pos hi, Outcome.bind, hbd]
    · simp only [if_neg hi]
      rcases readSlot_live_cases hbd i with ⟨h1, h2⟩ | ⟨slot, slot', h1, h2, hs, -⟩
      · simp only [h1, h2]
      · simp only [h1, h2, ← hs]
        by_cases h2s : slot.state ≠ 2
        · simp only [if_pos h2s, Outcome.bind, hbd]
        · simp only [if_neg h2s]
          exact ih _ _ _ (writeSlot_live_eq hbd i
            (show ({ slot with state := 0 } : BufferData).live =
              ({ slot' with state := 0 } : BufferData).live from by simp [BufferData.live]))

theorem GetGetBuffer_live (p q : PclDataRingBuffer) (h : p.live = q.live) (time_get : Nat) :
    observeCall p (.getGet time_get) = observeCall q (.getGet time_get) := by
  obtain ⟨lm, ao, n, obd, w, r, pi, gi⟩ := p
  obtain ⟨lm', ao', n', obd', w', r', pi', gi'⟩ := q
  simp only [PclDataRingBuffer.live, PclDataRingBuffer.mk.injEq] at h
  obtain ⟨rfl, rfl, rfl, hbd, rfl, rfl, rfl, rfl⟩ := h
  cases obd with
  | none =>
    cases obd' with
    | none => rfl
    | some bd' => simp at hbd
  | some bd =>
    cases obd' with
    | none => simp at hbd
    | some bd' =>
      simp only [Option.map_some', Option.some.injEq] at hbd
      simp only [observeCall, MethodCall.apply, GetGetBuffer]
      rcases readSlot_live_cases hbd r with ⟨h1, h2⟩ | ⟨slot, slot', h1, h2, hs, ht⟩
      · simp only [h1, h2]
      · simp only [h1, h2, ← hs]
        by_cases h2s : slot.state ≠ 2
        · simp only [if_pos h2s, Outcome.bind, PclDataRingBuffer.live, Option.map_some', hbd]
        · simp only [if_neg h2s]
          have ht' : slot.time = slot'.time := ht (by
            have : slot.state = 2 := not_not.mp h2s
            rw [this]; decide)
          simp only [ht']
          have hw3 := writeSlot_live_eq hbd r
            (show ({ inedx := slot.inedx, state := 3, time := slot'.time } : BufferData).live =
              ({ slot' with state := 3 } : BufferData).live from by
                simp [BufferData.live])
          have hlen : (writeSlot bd r { inedx := slot.inedx, state := 3, time := slot'.time }).length =
              (writeSlot bd' r { slot' with state := 3 }).length := by
            have := congrArg List.length hw3
            simpa using this
          cases lm with
          | false =>
            simp only [Bool.false_eq_true, if_false, Outcome.bind, PclDataRingBuffer.live,
              Option.map_some', hw3]
          | true =>
            cases ao with
            | true =>
              simp only [if_true, Bool.true_eq_false, if_false, Outcome.bind,
                PclDataRingBuffer.live, Option.map_some', hw3]
            | false =>
              simp only [if_true]
              have hc := clearPrevious_live n (if r + 1 ≥ n then 0 else r + 1)
                ((writeSlot bd r { inedx := slot.inedx, state := 3, time := slot'.time }).length + 1)
                _ _ (if r - 1 = -1 then n - 1 else r - 1) hw3
              rw [← hlen]
              cases hc1 : clearPrevious n (if r + 1 ≥ n then 0 else r + 1)
                  ((writeSlot bd r { inedx := slot.inedx, state := 3, time := slot'.time }).length + 1)
                  (writeSlot bd r { inedx := slot.inedx, state := 3, time := slot'.time })
                  (if r - 1 = -1 then n - 1 else r - 1) <;>
                cases hc2 : clearPrevious n (if r + 1 ≥ n then 0 else r + 1)
                  ((writeSlot bd r { inedx := slot.inedx, state := 3, time := slot'.time }).length + 1)
                  (writeSlot bd' r { slot' with state := 3 })
                  (if r - 1 = -1 then n - 1 else r - 1) <;>
                simp only [hc1, hc2, Outcome.bind] at hc <;>
                first
                  | exact Outcome.noConfusion hc
                  | rfl
                  | (simp only [Outcome.ok.injEq] at hc
                     simp only [Outcome.bind, PclDataRingBuffer.live, Option.map_some', hc])

theorem observeCall_congr (p q : PclDataRingBuffer) (h : p.live = q.live) (c : MethodCall) :
    observeCall p c = observeCall q c := by
  cases c with
  | getPut time => exact GetPutBuffer_live p q h time
  | donePut index status => exact DonePutBuffer_live p q h index status
  | getGet time_get => exact GetGetBuffer_live p q h time_get
  | doneGet index => exact DoneGetBuffer_live p q h index

/-- Pools the hand-off cannot tell apart give the same results under every
sequence of calls. -/
theorem runCalls_congr :
    ∀ (calls : List MethodCall) (p q : PclDataRingBuffer), p.live = q.live →
      runCalls p calls = runCalls q calls := by
  intro calls
  induction calls with
  | nil => intro p q _; rfl
  | cons c cs ih =>
    intro p q h
    have hc := observeCall_congr p q h c
    unfold observeCall at hc
    unfold runCalls
    cases hp : c.apply p <;> cases hq : c.apply q <;>
      simp only [hp, hq, Outcome.bind] at hc <;>
      first
        | exact Outcome.noConfusion hc
        | rfl
        | (simp only [Outcome.ok.injEq, Prod.mk.injEq] at hc
           simp only [hc.2, ih _ _ hc.1])

theorem Clear_live (p : PclDataRingBuffer) (bd : List BufferData)
    (hbd : p.buffer_data_ = some bd) (hlen : (bd.length : Int) = p.buffer_count_)
    (width_def height_def : Int) :
    p.Clear.1.live =
      (PclDataRingBuffer.new.Initialize p.last_mode_ p.allow_overwrite_ bd.length width_def
        height_def).1.live := by
  simp only [PclDataRingBuffer.live, Clear, Initialize, hbd, Option.map_some',
    PclDataRingBuffer.mk.injEq, Option.some.injEq, true_and, and_true, hlen]
  apply List.ext_getElem?
  intro k
  simp only [List.getElem?_map, List.getElem?_range]
  by_cases hk : k < bd.length
  · simp [List.getElem?_eq_getElem hk, List.getElem?_range hk, BufferData.live]
  · have h1 : bd[k]? = none := List.getElem?_eq_none (by omega)
    have h2 : (List.range bd.length)[k]? = none := List.getElem?_eq_none (by simp; omega)
    simp [h1, h2]

/-! ## Frame pool: `Clear` -/

/-- C25: on every state of an initialised pool (array of `buffer_count_` slots),
`Clear()` returns 0 and leaves every slot in state 0 and the write, read,
last-put and last-get cursors at 0, with capacity and the two mode flags
unchanged (the stored times are kept); and under every sequence of calls of the
four hand-off methods, with any arguments, the cleared pool gives back exactly
what a freshly initialised pool of the same capacity and mode gives back,
call by call. -/
theorem C25_Clear_resets (p : PclDataRingBuffer) (bd : List BufferData)
    (width_def height_def : Int)
    (hbd : p.buffer_data_ = some bd) (hlen : (bd.length : Int) = p.buffer_count_) :
    p.Clear.2 = 0 ∧ IsCleared p.Clear.1 ∧
    (∀ i : Int, 0 ≤ i → i < p.buffer_count_ → p.Clear.1.stateAt i = some 0) ∧
    (p.Clear.1.write_inex_ = 0 ∧ p.Clear.1.read_index_ = 0 ∧ p.Clear.1.put_index_ = 0 ∧
      p.Clear.1.geted_inedx_ = 0) ∧
    (p.Clear.1.buffer_count_ = p.buffer_count_ ∧ p.Clear.1.last_mode_ = p.last_mode_ ∧
      p.Clear.1.allow_overwrite_ = p.allow_overwrite_) ∧
    (∀ i : Int, p.Clear.1.timeAt i = p.timeAt i) ∧
    ∀ calls : List MethodCall,
      runCalls p.Clear.1 calls =
        runCalls (PclDataRingBuffer.new.Initialize p.last_mode_ p.allow_overwrite_ bd.length
          width_def height_def).1 calls := by
  refine ⟨rfl, ?_, ?_, ⟨rfl, rfl, rfl, rfl⟩, ⟨rfl, rfl, rfl⟩, ?_, ?_⟩
  · simp [IsCleared, Clear, hbd, hlen]
  · intro i h0 h1
    obtain ⟨b, hb⟩ := @readSlot_isSome_of_lt bd i h0 (by omega)
    rw [readSlot_eq_some_iff] at hb
    simp [stateAt, Clear, hbd, readSlot, show ¬ i < 0 from by omega, hb.2]
  · intro i
    simp only [timeAt, Clear, hbd, Option.map_some', Option.bind_some, readSlot]
    split
    · rfl
    · simp [List.getElem?_map, Option.map_map, Function.comp_def]
  · intro calls
    exact runCalls_congr calls _ _ (Clear_live p bd hbd hlen width_def height_def)

/-- A pool of 4 with slots Reading, Ready, Ready, Ready and moved cursors, then
cleared: a frame put in and read back goes as on a fresh pool. -/
theorem C25_Clear_resets_witness :
    runCalls
        (PclDataRingBuffer.Clear
          ⟨true, true, 4, some [⟨0, 3, 10⟩, ⟨1, 2, 20⟩, ⟨2, 2, 30⟩, ⟨3, 2, 40⟩], 0, 3, 3, 0⟩).1
        [.getPut 50, .donePut 0 1, .getGet 0, .doneGet 0, .getGet 0] =
      [.ok (0, 0), .ok (0, 0), .ok (0, 50), .ok (0, 0), .ok (-1, 0)] :=
  ((C25_Clear_resets
      ⟨true, true, 4, some [⟨0, 3, 10⟩, ⟨1, 2, 20⟩, ⟨2, 2, 30⟩, ⟨3, 2, 40⟩], 0, 3, 3, 0⟩
      [⟨0, 3, 10⟩, ⟨1, 2, 20⟩, ⟨2, 2, 30⟩, ⟨3, 2, 40⟩] 2 1 rfl rfl).2.2.2.2.2.2
    [.getPut 50, .donePut 0 1, .getGet 0, .doneGet 0, .getGet 0]).trans (by decide)

/-! ## Point cloud construction with rounding: where each pixel's point lands -/

theorem pixelPointRounded_exact (d_inf base_length bf min_distance max_distance : ℚ)
    (xc yc : Int) (i j : Nat) (src_depth_j : ℚ) (src_image_j : Nat → Nat) :
    pixelPointRounded Rounding.exact d_inf base_length bf min_distance max_distance xc yc i j
        src_depth_j src_image_j =
      pixelPoint d_inf base_length bf min_distance max_distance xc yc i j src_depth_j
        src_image_j := rfl

/-- Read over exact rationals, the rounded construction is `BuildPointCloud`. -/
theorem BuildPointCloudRounded_exact (W H : Nat)
    (d_inf base_length bf min_distance max_distance : ℚ)
    (base_image : Mat (Nat → Nat)) (depth_data : Mat ℚ) (cloud : PointCloud) :
    BuildPointCloudRounded Rounding.exact W H d_inf base_length bf min_distance max_distance
        base_image depth_data cloud =
      BuildPointCloud W H d_inf base_length bf min_distance max_distance base_image depth_data
        cloud := rfl

theorem points_pushPixelsRounded (fl : Rounding) (W H : Nat)
    (d_inf base_length bf min_distance max_distance : ℚ)
    (xc yc : Int) (base_image : Mat (Nat → Nat)) (depth_data : Mat ℚ) (cloud : PointCloud) :
    (pushPixelsRounded fl W H d_inf base_length bf min_distance max_distance xc yc base_image
        depth_data cloud).points =
      cloud.points ++ (List.range H).flatMap fun i => (List.range W).map fun j =>
        pixelPointRounded fl d_inf base_length bf min_distance max_distance xc yc i j
          (depth_data.px i j) (base_image.px i j) := by
  unfold pushPixelsRounded
  exact points_foldl_rows W
    (fun i j => pixelPointRounded fl d_inf base_length bf min_distance max_distance xc yc i j
      (depth_data.px i j) (base_image.px i j)) (List.range H) cloud

theorem points_BuildPointCloudRounded (fl : Rounding) (W H : Nat)
    (d_inf base_length bf min_distance max_distance : ℚ)
    (base_image : Mat (Nat → Nat)) (depth_data : Mat ℚ) (cloud : PointCloud)
    (htype : base_image.type = CV_8UC3 ∨ base_image.type = CV_8UC4) :
    (BuildPointCloudRounded fl W H d_inf base_length bf min_distance max_distance base_image
        depth_data cloud).points =
      vectorResize cloud.points (presize W H) ++
        (List.range H).flatMap fun i => (List.range W).map fun j =>
          pixelPointRounded fl d_inf base_length bf min_distance max_distance
            ((W / 2 : Nat) : Int) ((H / 2 : Nat) : Int) i j
            (depth_data.px i j) (base_image.px i j) := by
  unfold BuildPointCloudRounded
  rcases htype with h3 | h4
  · simp only [h3, if_true]
    rw [points_pushPixelsRounded]
  · have hne : ¬ CV_8UC4 = CV_8UC3 := by decide
    simp only [h4, hne, if_true, if_false]
    rw [points_pushPixelsRounded]

theorem emittedPoint_BuildPointCloudRounded (fl : Rounding) (W H : Nat)
    (d_inf base_length bf min_distance max_distance : ℚ)
    (base_image : Mat (Nat → Nat)) (depth_data : Mat ℚ) (cloud : PointCloud)
    (htype : base_image.type = CV_8UC3 ∨ base_image.type = CV_8UC4)
    (r c : Nat) (hr : r < H) (hc : c < W) :
    emittedPoint W H
        (BuildPointCloudRounded fl W H d_inf base_length bf min_distance max_distance base_image
          depth_data cloud) r c =
      some (pixelPointRounded fl d_inf base_length bf min_distance max_distance
        ((W / 2 : Nat) : Int) ((H / 2 : Nat) : Int) r c
        (depth_data.px r c) (base_image.px r c)) := by
  unfold emittedPoint
  rw [points_BuildPointCloudRounded fl W H d_inf base_length bf min_distance max_distance
    base_image depth_data cloud htype, Nat.add_assoc,
    List.getElem?_append_right (by rw [length_vectorResize]; omega), length_vectorResize,
    Nat.add_sub_cancel_left]
  exact getElem?_rows W _ H r c hr hc

/-! ## IEEE rounding: values used below -/

theorem log_two_eq_of_bounds {r : ℚ} {e : Int} (hr : 0 < r) (h1 : (2 : ℚ) ^ e ≤ r)
    (h2 : r < (2 : ℚ) ^ (e + 1)) : Int.log 2 r = e := by
  have a := (Int.zpow_le_iff_le_log (b := 2) (by norm_num) hr (x := e)).mp (by exact_mod_cast h1)
  have b := (Int.lt_zpow_iff_log_lt (b := 2) (by norm_num) hr (x := e + 1)).mp
    (by exact_mod_cast h2)
  omega

theorem log_two_one : Int.log 2 (1 : ℚ) = 0 :=
  log_two_eq_of_bounds (by norm_num) (by norm_num) (by norm_num)

theorem log_two_two : Int.log 2 (2 : ℚ) = 1 :=
  log_two_eq_of_bounds (by norm_num) (by norm_num) (by norm_num)

theorem log_two_half : Int.log 2 (1 / 2 : ℚ) = -1 :=
  log_two_eq_of_bounds (by norm_num) (by norm_num) (by norm_num)

theorem log_two_sixty : Int.log 2 (60 : ℚ) = 5 :=
  log_two_eq_of_bounds (by norm_num) (by norm_num) (by norm_num)

theorem roundNearestEven_zero (p : Nat) (emin : Int) : roundNearestEven p emin 0 = 0 := by
  simp [roundNearestEven]

theorem toFloat_ieee_zero : Rounding.ieee.toFloat 0 = 0 :=
  roundNearestEven_zero 24 (-126)

theorem toDouble_ieee_zero : Rounding.ieee.toDouble 0 = 0 :=
  roundNearestEven_zero 53 (-1022)

theorem toFloat_ieee_one : Rounding.ieee.toFloat 1 = 1 := by
  simp only [Rounding.ieee, roundNearestEven, abs_one, log_two_one]
  norm_num

theorem toFloat_ieee_two : Rounding.ieee.toFloat 2 = 2 := by
  simp only [Rounding.ieee, roundNearestEven, abs_two, log_two_two]
  norm_num

theorem toFloat_ieee_sixty : Rounding.ieee.toFloat 60 = 60 := by
  have h : |(60 : ℚ)| = 60 := abs_of_pos (by norm_num)
  simp only [Rounding.ieee, roundNearestEven, h, log_two_sixty]
  norm_num

theorem toFloat_ieee_half : Rounding.ieee.toFloat (1 / 2) = 1 / 2 := by
  have h : |(1 / 2 : ℚ)| = 1 / 2 := abs_of_pos (by norm_num)
  simp only [Rounding.ieee, roundNearestEven, h, log_two_half]
  norm_num

theorem toFloat_ieee_neg_half : Rounding.ieee.toFloat (-(1 / 2)) = -(1 / 2) := by
  have h : |(-(1 / 2) : ℚ)| = 1 / 2 := by rw [abs_neg]; exact abs_of_pos (by norm_num)
  simp only [Rounding.ieee, roundNearestEven, h, log_two_half]
  norm_num

theorem toDouble_ieee_half : Rounding.ieee.toDouble (1 / 2) = 1 / 2 := by
  have h : |(1 / 2 : ℚ)| = 1 / 2 := abs_of_pos (by norm_num)
  simp only [Rounding.ieee, roundNearestEven, h, log_two_half]
  norm_num

theorem toDouble_ieee_neg_half : Rounding.ieee.toDouble (-(1 / 2)) = -(1 / 2) := by
  have h : |(-(1 / 2) : ℚ)| = 1 / 2 := by rw [abs_neg]; exact abs_of_pos (by norm_num)
  simp only [Rounding.ieee, roundNearestEven, h, log_two_half]
  norm_num

/-- The `double` nearest to 0.7 is `3152519739159347 / 2^52`. -/
theorem toDouble_ieee_seven_tenths :
    Rounding.ieee.toDouble (7 / 10) = 3152519739159347 / 4503599627370496 := by
  have h : |(7 / 10 : ℚ)| = 7 / 10 := abs_of_pos (by norm_num)
  have hl : Int.log 2 (7 / 10 : ℚ) = -1 :=
    log_two_eq_of_bounds (by norm_num) (by norm_num) (by norm_num)
  simp only [Rounding.ieee, roundNearestEven, h, hl]
  norm_num

/-- The `float` conversion of the `double` 0.7 is `11744051 / 2^24`, below it. -/
theorem toFloat_ieee_double_seven_tenths :
    Rounding.ieee.toFloat (3152519739159347 / 4503599627370496) = 11744051 / 16777216 := by
  have h : |(3152519739159347 / 4503599627370496 : ℚ)| =
      3152519739159347 / 4503599627370496 := abs_of_pos (by norm_num)
  have hl : Int.log 2 (3152519739159347 / 4503599627370496 : ℚ) = -1 :=
    log_two_eq_of_bounds (by norm_num) (by norm_num) (by norm_num)
  simp only [Rounding.ieee, roundNearestEven, h, hl]
  norm_num

theorem toFloat_ieee_float_seven_tenths :
    Rounding.ieee.toFloat (11744051 / 16777216) = 11744051 / 16777216 := by
  have h : |(11744051 / 16777216 : ℚ)| = 11744051 / 16777216 := abs_of_pos (by norm_num)
  have hl : Int.log 2 (11744051 / 16777216 : ℚ) = -1 :=
    log_two_eq_of_bounds (by norm_num) (by norm_num) (by norm_num)
  simp only [Rounding.ieee, roundNearestEven, h, hl]
  norm_num

/-- The `double` nearest to 0.1 is `3602879701896397 / 2^55`. -/
theorem toDouble_ieee_tenth :
    Rounding.ieee.toDouble (1 / 10) = 3602879701896397 / 36028797018963968 := by
  have h : |(1 / 10 : ℚ)| = 1 / 10 := abs_of_pos (by norm_num)
  have hl : Int.log 2 (1 / 10 : ℚ) = -4 :=
    log_two_eq_of_bounds (by norm_num) (by norm_num) (by norm_num)
  simp only [Rounding.ieee, roundNearestEven, h, hl]
  norm_num

theorem toDouble_ieee_neg_double_tenth :
    Rounding.ieee.toDouble (-(3602879701896397 / 36028797018963968)) =
      -(3602879701896397 / 36028797018963968) := by
  have h : |(-(3602879701896397 / 36028797018963968) : ℚ)| =
      3602879701896397 / 36028797018963968 := by
    rw [abs_neg]
    exact abs_of_pos (by norm_num)
  have hl : Int.log 2 (3602879701896397 / 36028797018963968 : ℚ) = -4 :=
    log_two_eq_of_bounds (by norm_num) (by norm_num) (by norm_num)
  simp only [Rounding.ieee, roundNearestEven, h, hl]
  norm_num

theorem toDouble_ieee_double_tenth :
    Rounding.ieee.toDouble (3602879701896397 / 36028797018963968) =
      3602879701896397 / 36028797018963968 := by
  have h : |(3602879701896397 / 36028797018963968 : ℚ)| =
      3602879701896397 / 36028797018963968 := abs_of_pos (by norm_num)
  have hl : Int.log 2 (3602879701896397 / 36028797018963968 : ℚ) = -4 :=
    log_two_eq_of_bounds (by norm_num) (by norm_num) (by norm_num)
  simp only [Rounding.ieee, roundNearestEven, h, hl]
  norm_num

/-- The `float` conversion of the `double` -0.1 is `-(13421773 / 2^27)`. -/
theorem toFloat_ieee_neg_double_tenth :
    Rounding.ieee.toFloat (-(3602879701896397 / 36028797018963968)) =
      -(13421773 / 134217728) := by
  have h : |(-(3602879701896397 / 36028797018963968) : ℚ)| =
      3602879701896397 / 36028797018963968 := by
    rw [abs_neg]
    exact abs_of_pos (by norm_num)
  have hl : Int.log 2 (3602879701896397 / 36028797018963968 : ℚ) = -4 :=
    log_two_eq_of_bounds (by norm_num) (by norm_num) (by norm_num)
  simp only [Rounding.ieee, roundNearestEven, h, hl]
  norm_num

theorem toFloat_ieee_double_tenth :
    Rounding.ieee.toFloat (3602879701896397 / 36028797018963968) = 13421773 / 134217728 := by
  have h : |(3602879701896397 / 36028797018963968 : ℚ)| =
      3602879701896397 / 36028797018963968 := abs_of_pos (by norm_num)
  have hl : Int.log 2 (3602879701896397 / 36028797018963968 : ℚ) = -4 :=
    log_two_eq_of_bounds (by norm_num) (by norm_num) (by norm_num)
  simp only [Rounding.ieee, roundNearestEven, h, hl]
  norm_num

/-! ## Point cloud construction with rounding: coordinates and range test -/

theorem pixelPointRounded_in_range {fl : Rounding}
    {d_inf base_length bf min_distance max_distance : ℚ} {xc yc : Int}
    {i j : Nat} {d : ℚ} {pix : Nat → Nat}
    (hv : fl.toFloat (d - fl.toFloat d_inf) > 0)
    (hz : min_distance ≤ fl.toFloat (fl.toFloat bf / fl.toFloat (d - fl.toFloat d_inf)) ∧
      fl.toFloat (fl.toFloat bf / fl.toFloat (d - fl.toFloat d_inf)) < max_distance) :
    pixelPointRounded fl d_inf base_length bf min_distance max_distance xc yc i j d pix =
      { x := .num (-1 * fl.toFloat (fl.toDouble
          (fl.toDouble (base_length * (((j : Int) - xc : Int) : ℚ)) /
            fl.toFloat (d - fl.toFloat d_inf)))),
        y := .num (fl.toFloat (fl.toDouble
          (fl.toDouble (base_length * ((yc - (i : Int) : Int) : ℚ)) /
            fl.toFloat (d - fl.toFloat d_inf)))),
        z := .num (fl.toFloat (fl.toFloat bf / fl.toFloat (d - fl.toFloat d_inf))),
        r := pix 2, g := pix 1, b := pix 0 } := by
  unfold pixelPointRounded
  simp only [hv, if_true, ge_iff_le, hz, and_self]

theorem pixelPointRounded_out_of_range {fl : Rounding}
    {d_inf base_length bf min_distance max_distance : ℚ} {xc yc : Int}
    {i j : Nat} {d : ℚ} {pix : Nat → Nat}
    (hz : ¬ (min_distance ≤ fl.toFloat (fl.toFloat bf / fl.toFloat (d - fl.toFloat d_inf)) ∧
      fl.toFloat (fl.toFloat bf / fl.toFloat (d - fl.toFloat d_inf)) < max_distance)) :
    pixelPointRounded fl d_inf base_length bf min_distance max_distance xc yc i j d pix =
      point_nan := by
  unfold pixelPointRounded
  by_cases hv : fl.toFloat (d - fl.toFloat d_inf) > 0
  · simp only [hv, if_true, ge_iff_le, hz, if_false]
  · simp only [hv, if_false]

/-- Where the rounding decides the range test: `bf = min_distance = b`,
`d_inf = 0`, disparity 1. For every rounding that keeps 0 and 1 and takes `b`
to a `float` `a` below `b` (as round-to-nearest does with the `double` 0.7),
the quotient `(float)bf / value` is below `min_distance` and the point is the
NaN point, although `bf / (d - d_inf) = min_distance` over the rationals. -/
theorem pixelPointRounded_boundary (fl : Rounding) (b a base_length max_distance : ℚ)
    (xc yc : Int) (i j : Nat) (pix : Nat → Nat)
    (h0 : fl.toFloat 0 = 0) (h1 : fl.toFloat 1 = 1) (hb : fl.toFloat b = a)
    (ha : fl.toFloat a = a) (hlt : a < b) :
    pixelPointRounded fl 0 base_length b b max_distance xc yc i j 1 pix = point_nan := by
  apply pixelPointRounded_out_of_range
  rw [h0, sub_zero, h1, hb, div_one, ha]
  intro h
  exact absurd h.1 (not_le.mpr hlt)

/-- C7 (as amended): for every pixel (row `r`, column `c`) of a `CV_8UC3` or
`CV_8UC4` frame whose `float` `value = disparity[r,c] - (float)d_inf` is
positive and that is emitted as a valid point (`min_distance ≤ z <
max_distance` for the `float` `z = (float)bf / value`), the emitted point has
`x = -(base_length * (c - ⌊W/2⌋) / value)` (the sign of `x` is flipped) and
`y = base_length * (⌊H/2⌋ - r) / value`, each computed as the source does: the
product and the quotient in `double`, the result stored to a `float`; the
halves are integer divisions. This holds for every rounding `fl`: for the IEEE
rounding (`Rounding.ieee`) and also with the arithmetic read over exact
rationals (`Rounding.exact`). -/
theorem C7_reprojection_xy (fl : Rounding) (W H : Nat)
    (d_inf base_length bf min_distance max_distance : ℚ)
    (base_image : Mat (Nat → Nat)) (depth_data : Mat ℚ) (cloud : PointCloud)
    (htype : base_image.type = CV_8UC3 ∨ base_image.type = CV_8UC4)
    (r c : Nat) (hr : r < H) (hc : c < W)
    (hvalue : fl.toFloat (depth_data.px r c - fl.toFloat d_inf) > 0)
    (hvalid :
      min_distance ≤
          fl.toFloat (fl.toFloat bf / fl.toFloat (depth_data.px r c - fl.toFloat d_inf)) ∧
        fl.toFloat (fl.toFloat bf / fl.toFloat (depth_data.px r c - fl.toFloat d_inf)) <
          max_distance) :
    ∃ pt, emittedPoint W H (BuildPointCloudRounded fl W H d_inf base_length bf min_distance
        max_distance base_image depth_data cloud) r c = some pt ∧
      pt.x = .num (-(fl.toFloat (fl.toDouble
        (fl.toDouble (base_length * ((c : ℚ) - ((W / 2 : Nat) : ℚ))) /
          fl.toFloat (depth_data.px r c - fl.toFloat d_inf))))) ∧
      pt.y = .num (fl.toFloat (fl.toDouble
        (fl.toDouble (base_length * (((H / 2 : Nat) : ℚ) - (r : ℚ))) /
          fl.toFloat (depth_data.px r c - fl.toFloat d_inf)))) := by
  rw [emittedPoint_BuildPointCloudRounded fl W H d_inf base_length bf min_distance max_distance
    base_image depth_data cloud htype r c hr hc, pixelPointRounded_in_range hvalue hvalid]
  refine ⟨_, rfl, ?_, ?_⟩
  · simp only [FloatVal.num.injEq, Int.cast_sub, Int.cast_natCast]
    ring
  · simp only [FloatVal.num.injEq, Int.cast_sub, Int.cast_natCast]

/-- C7 under IEEE rounding at pixel (0,0) of a 3×3 `CV_8UC3` frame with
disparity 3, `d_inf = 2`, `base_length = 1/2`, `bf = 60`, range `[1/2, 100)`
(every value and every intermediate result is a `float`):
`x = -((1/2)(0 - 1)/1) = 1/2` and `y = (1/2)(1 - 0)/1 = 1/2`. -/
theorem C7_reprojection_xy_witness :
    ∃ pt, emittedPoint 3 3 (BuildPointCloudRounded Rounding.ieee 3 3 2 (1 / 2) 60 (1 / 2) 100
        ⟨CV_8UC3, fun _ _ ch => ch + 1⟩ ⟨5, fun _ _ => 3⟩ PointCloud.fresh) 0 0 = some pt ∧
      pt.x = .num (1 / 2) ∧ pt.y = .num (1 / 2) :=
  let ⟨pt, h1, h2, h3⟩ :=
    C7_reprojection_xy Rounding.ieee 3 3 2 (1 / 2) 60 (1 / 2) 100
      ⟨CV_8UC3, fun _ _ ch => ch + 1⟩ ⟨5, fun _ _ => 3⟩ PointCloud.fresh (Or.inl rfl) 0 0
      (by decide) (by decide)
      (by norm_num [toFloat_ieee_one, toFloat_ieee_two])
      (by norm_num [toFloat_ieee_one, toFloat_ieee_two, toFloat_ieee_sixty])
  ⟨pt, h1,
    by rw [h2]; norm_num [toFloat_ieee_one, toFloat_ieee_two, toFloat_ieee_neg_half,
      toDouble_ieee_neg_half],
    by rw [h3]; norm_num [toFloat_ieee_one, toFloat_ieee_two, toFloat_ieee_half,
      toDouble_ieee_half]⟩

/-- C7 as stated fails, under IEEE rounding: at pixel (row 0, column 0) of a 3×3
`CV_8UC3` frame with disparity 3, `d_inf = 2` (so `value = 1`),
`base_length = 1/2`, `bf = 60`, range `[1/2, 100)`, where every value and every
intermediate result is a `float` and no operation rounds, the point is emitted
as valid with `x = 1/2` and `y = 1/2`, whereas
`base_length * (c - width/2) / value` is `-3/4` (or `-1/2` with `width/2`
rounded down) and `base_length * (height/2 - r) / value` is `3/4`. -/
theorem C7_xy_counterexample :
    emittedPoint 3 3 (BuildPointCloudRounded Rounding.ieee 3 3 2 (1 / 2) 60 (1 / 2) 100
        ⟨CV_8UC3, fun _ _ ch => ch + 1⟩ ⟨5, fun _ _ => 3⟩ PointCloud.fresh) 0 0 =
      some ⟨.num (1 / 2), .num (1 / 2), .num 60, 3, 2, 1⟩ ∧
    (1 / 2 : ℚ) ≠ (1 / 2) * (0 - 3 / 2) / (3 - 2) ∧
    (1 / 2 : ℚ) ≠ (1 / 2) * (0 - 1) / (3 - 2) ∧
    (1 / 2 : ℚ) ≠ (1 / 2) * (3 / 2 - 0) / (3 - 2) := by
  refine ⟨?_, by norm_num, by norm_num, by norm_num⟩
  rw [emittedPoint_BuildPointCloudRounded _ _ _ _ _ _ _ _ _ _ _ (Or.inl rfl) 0 0 (by decide)
    (by decide)]
  norm_num [pixelPointRounded, toFloat_ieee_one, toFloat_ieee_two, toFloat_ieee_sixty,
    toFloat_ieee_half, toFloat_ieee_neg_half, toDouble_ieee_half, toDouble_ieee_neg_half]

/-- C8 (as amended): `BuildPointCloud` does cull by range, with its
`min_distance` / `max_distance` parameters: every pixel (row `r`, column `c`)
of a `CV_8UC3` or `CV_8UC4` frame whose `float`
`value = disparity - (float)d_inf` is positive gets exactly one point, which is
valid (no NaN coordinate) exactly when `min_distance ≤ z < max_distance` for
the `float` quotient `z = (float)bf / value`, and is the NaN point otherwise; no
point is dropped here. This holds for every rounding `fl`: for the IEEE
rounding (`Rounding.ieee`) and also with the arithmetic read over exact
rationals (`Rounding.exact`). -/
theorem C8_range_test_in_reprojection (fl : Rounding) (W H : Nat)
    (d_inf base_length bf min_distance max_distance : ℚ)
    (base_image : Mat (Nat → Nat)) (depth_data : Mat ℚ) (cloud : PointCloud)
    (htype : base_image.type = CV_8UC3 ∨ base_image.type = CV_8UC4)
    (r c : Nat) (hr : r < H) (hc : c < W)
    (hvalue : fl.toFloat (depth_data.px r c - fl.toFloat d_inf) > 0) :
    ∃ pt, emittedPoint W H (BuildPointCloudRounded fl W H d_inf base_length bf min_distance
        max_distance base_image depth_data cloud) r c = some pt ∧
      ((pt.x ≠ .nan ∧ pt.y ≠ .nan ∧ pt.z ≠ .nan) ↔
        (min_distance ≤
            fl.toFloat (fl.toFloat bf / fl.toFloat (depth_data.px r c - fl.toFloat d_inf)) ∧
          fl.toFloat (fl.toFloat bf / fl.toFloat (depth_data.px r c - fl.toFloat d_inf)) <
            max_distance)) ∧
      (pt = point_nan ↔
        ¬ (min_distance ≤
            fl.toFloat (fl.toFloat bf / fl.toFloat (depth_data.px r c - fl.toFloat d_inf)) ∧
          fl.toFloat (fl.toFloat bf / fl.toFloat (depth_data.px r c - fl.toFloat d_inf)) <
            max_distance)) ∧
      (BuildPointCloudRounded fl W H d_inf base_length bf min_distance max_distance base_image
        depth_data cloud).points.length = presize W H + H * W := by
  rw [emittedPoint_BuildPointCloudRounded fl W H d_inf base_length bf min_distance max_distance
    base_image depth_data cloud htype r c hr hc]
  refine ⟨_, rfl, ?_⟩
  have hlen : (BuildPointCloudRounded fl W H d_inf base_length bf min_distance max_distance
      base_image depth_data cloud).points.length = presize W H + H * W := by
    rw [points_BuildPointCloudRounded fl W H d_inf base_length bf min_distance max_distance
      base_image depth_data cloud htype, List.length_append, length_vectorResize, length_rows]
  by_cases hz : min_distance ≤
        fl.toFloat (fl.toFloat bf / fl.toFloat (depth_data.px r c - fl.toFloat d_inf)) ∧
      fl.toFloat (fl.toFloat bf / fl.toFloat (depth_data.px r c - fl.toFloat d_inf)) <
        max_distance
  · rw [pixelPointRounded_in_range hvalue hz]
    simp [hz, point_nan, hlen]
  · rw [pixelPointRounded_out_of_range hz]
    simp [hz, point_nan, hlen]

/-- C8 under IEEE rounding at a 1×1 `CV_8UC3` frame with disparity 3,
`d_inf = 2`, `bf = 60` (all values and intermediate results are `float`s): with
range `[1/2, 50)` the depth 60 fails the range test and the emitted point is the
NaN point. -/
theorem C8_range_test_in_reprojection_witness :
    ∃ pt, emittedPoint 1 1 (BuildPointCloudRounded Rounding.ieee 1 1 2 (1 / 2) 60 (1 / 2) 50
        ⟨CV_8UC3, fun _ _ ch => ch + 1⟩ ⟨5, fun _ _ => 3⟩ PointCloud.fresh) 0 0 = some pt ∧
      pt = point_nan :=
  let ⟨pt, h1, _, h3, _⟩ :=
    C8_range_test_in_reprojection Rounding.ieee 1 1 2 (1 / 2) 60 (1 / 2) 50
      ⟨CV_8UC3, fun _ _ ch => ch + 1⟩ ⟨5, fun _ _ => 3⟩ PointCloud.fresh (Or.inl rfl) 0 0
      (by decide) (by decide) (by norm_num [toFloat_ieee_one, toFloat_ieee_two])
  ⟨pt, h1, h3.mpr (by norm_num [toFloat_ieee_one, toFloat_ieee_two, toFloat_ieee_sixty])⟩

/-- C8 as stated fails, under IEEE rounding: for the same 1×1 `CV_8UC3` frame
(disparity 3, `d_inf = 2`, `bf = 60`, `base_length = 1/2`, so
`disparity - d_inf > 0` and no operation rounds) `BuildPointCloud` gives a valid
point with `max_distance = 100` and the NaN point with `max_distance = 50`; its
output depends on `max_distance`. -/
theorem C8_range_counterexample :
    (3 : ℚ) - 2 > 0 ∧
    (BuildPointCloudRounded Rounding.ieee 1 1 2 (1 / 2) 60 (1 / 2) 100
        ⟨CV_8UC3, fun _ _ ch => ch + 1⟩ ⟨5, fun _ _ => 3⟩ PointCloud.fresh).points =
      [PointXYZRGBA.zero, ⟨.num 0, .num 0, .num 60, 3, 2, 1⟩] ∧
    (BuildPointCloudRounded Rounding.ieee 1 1 2 (1 / 2) 60 (1 / 2) 50
        ⟨CV_8UC3, fun _ _ ch => ch + 1⟩ ⟨5, fun _ _ => 3⟩ PointCloud.fresh).points =
      [PointXYZRGBA.zero, point_nan] ∧
    BuildPointCloudRounded Rounding.ieee 1 1 2 (1 / 2) 60 (1 / 2) 100
        ⟨CV_8UC3, fun _ _ ch => ch + 1⟩ ⟨5, fun _ _ => 3⟩ PointCloud.fresh ≠
      BuildPointCloudRounded Rounding.ieee 1 1 2 (1 / 2) 60 (1 / 2) 50
        ⟨CV_8UC3, fun _ _ ch => ch + 1⟩ ⟨5, fun _ _ => 3⟩ PointCloud.fresh := by
  have h100 : (BuildPointCloudRounded Rounding.ieee 1 1 2 (1 / 2) 60 (1 / 2) 100
        ⟨CV_8UC3, fun _ _ ch => ch + 1⟩ ⟨5, fun _ _ => 3⟩ PointCloud.fresh).points =
      [PointXYZRGBA.zero, ⟨.num 0, .num 0, .num 60, 3, 2, 1⟩] := by
    rw [points_BuildPointCloudRounded _ _ _ _ _ _ _ _ _ _ _ (Or.inl rfl)]
    norm_num [vectorResize, presize, PointCloud.fresh, List.range, List.range.loop,
      pixelPointRounded, List.replicate, toFloat_ieee_zero, toDouble_ieee_zero,
      toFloat_ieee_one, toFloat_ieee_two, toFloat_ieee_sixty]
  have h50 : (BuildPointCloudRounded Rounding.ieee 1 1 2 (1 / 2) 60 (1 / 2) 50
        ⟨CV_8UC3, fun _ _ ch => ch + 1⟩ ⟨5, fun _ _ => 3⟩ PointCloud.fresh).points =
      [PointXYZRGBA.zero, point_nan] := by
    rw [points_BuildPointCloudRounded _ _ _ _ _ _ _ _ _ _ _ (Or.inl rfl)]
    norm_num [vectorResize, presize, PointCloud.fresh, List.range, List.range.loop,
      pixelPointRounded, List.replicate, toFloat_ieee_zero, toDouble_ieee_zero,
      toFloat_ieee_one, toFloat_ieee_two, toFloat_ieee_sixty]
  refine ⟨by norm_num, h100, h50, ?_⟩
  intro h
  have h' := congrArg PointCloud.points h
  rw [h100, h50] at h'
  simp [point_nan] at h'

/-! ## Point cloud construction under IEEE rounding: where it differs from the rationals -/

/-- The coordinates under IEEE rounding where they are no `float`s over the
rationals: a 3×3 `CV_8UC3` frame with disparity 3, `d_inf = 2`, `bf = 60`,
range `[1/2, 100)` and `base_length` the `double` 0.1. At pixel (0, 0) the
emitted `x` and `y` are `13421773 / 2^27`, the `float` nearest to 0.1, and not
the rational `base_length * 1 / 1`. -/
theorem emittedPoint_ieee_tenth :
    emittedPoint 3 3 (BuildPointCloudRounded Rounding.ieee 3 3 2
        (3602879701896397 / 36028797018963968) 60 (1 / 2) 100
        ⟨CV_8UC3, fun _ _ ch => ch + 1⟩ ⟨5, fun _ _ => 3⟩ PointCloud.fresh) 0 0 =
      some ⟨.num (13421773 / 134217728), .num (13421773 / 134217728), .num 60, 3, 2, 1⟩ ∧
    (13421773 / 134217728 : ℚ) ≠ 3602879701896397 / 36028797018963968 := by
  refine ⟨?_, by norm_num⟩
  rw [emittedPoint_BuildPointCloudRounded _ _ _ _ _ _ _ _ _ _ _ (Or.inl rfl) 0 0 (by decide)
    (by decide)]
  norm_num [pixelPointRounded, toFloat_ieee_one, toFloat_ieee_two, toFloat_ieee_sixty,
    toDouble_ieee_neg_double_tenth, toDouble_ieee_double_tenth, toFloat_ieee_neg_double_tenth,
    toFloat_ieee_double_tenth]

/-- The range test under IEEE rounding at the boundary: a 1×1 `CV_8UC3` frame
with disparity 1, `d_inf = 0` and `bf = min_distance` the `double` 0.7. The
`float` `z = (float)bf / value` is `11744051 / 2^24`, below `min_distance`, and
the emitted point is the NaN point; read over exact rationals the same pixel
has `z = bf = min_distance` and is valid. -/
theorem emittedPoint_ieee_boundary :
    emittedPoint 1 1 (BuildPointCloudRounded Rounding.ieee 1 1 0 (1 / 2)
        (3152519739159347 / 4503599627370496) (3152519739159347 / 4503599627370496) 100
        ⟨CV_8UC3, fun _ _ ch => ch + 1⟩ ⟨5, fun _ _ => 1⟩ PointCloud.fresh) 0 0 =
      some point_nan ∧
    emittedPoint 1 1 (BuildPointCloudRounded Rounding.exact 1 1 0 (1 / 2)
        (3152519739159347 / 4503599627370496) (3152519739159347 / 4503599627370496) 100
        ⟨CV_8UC3, fun _ _ ch => ch + 1⟩ ⟨5, fun _ _ => 1⟩ PointCloud.fresh) 0 0 =
      some ⟨.num 0, .num 0, .num (3152519739159347 / 4503599627370496), 3, 2, 1⟩ := by
  refine ⟨?_, ?_⟩
  · rw [emittedPoint_BuildPointCloudRounded _ _ _ _ _ _ _ _ _ _ _ (Or.inl rfl) 0 0 (by decide)
      (by decide)]
    exact congrArg some (pixelPointRounded_boundary Rounding.ieee _ _ _ _ _ _ _ _ _
      toFloat_ieee_zero toFloat_ieee_one toFloat_ieee_double_seven_tenths
      toFloat_ieee_float_seven_tenths (by norm_num))
  · rw [emittedPoint_BuildPointCloudRounded _ _ _ _ _ _ _ _ _ _ _ (Or.inl rfl) 0 0 (by decide)
      (by decide)]
    norm_num [pixelPointRounded, Rounding.exact]

/-! ## Frame pool: every call in turn returns, outside the stale-frame walk -/

theorem GetPutBuffer_cursors {p p' : PclDataRingBuffer} {time : Nat} {idx : Int}
    (h : p.GetPutBuffer time = .ok (p', idx)) :
    p'.write_inex_ = p.write_inex_ ∧ p'.read_index_ = p.read_index_ := by
  unfold GetPutBuffer at h
  cases hbd : p.buffer_data_ with
  | none =>
    simp only [hbd, Outcome.ok.injEq, Prod.mk.injEq] at h
    rw [← h.1]
    exact ⟨rfl, rfl⟩
  | some bd =>
    simp only [hbd] at h
    cases hs : readSlot bd p.write_inex_ with
    | none => simp [hs] at h
    | some slot =>
      simp only [hs] at h
      split_ifs at h <;> simp only [Outcome.ok.injEq, Prod.mk.injEq] at h <;> rw [← h.1] <;>
        exact ⟨rfl, rfl⟩

theorem DonePutBuffer_cursors {p p' : PclDataRingBuffer} {index status r : Int}
    (h : p.DonePutBuffer index status = .ok (p', r))
    (hw : 0 ≤ p.write_inex_ ∧ p.write_inex_ < p.buffer_count_)
    (hr : 0 ≤ p.read_index_ ∧ p.read_index_ < p.buffer_count_) :
    (0 ≤ p'.write_inex_ ∧ p'.write_inex_ < p.buffer_count_) ∧
      (0 ≤ p'.read_index_ ∧ p'.read_index_ < p.buffer_count_) := by
  unfold DonePutBuffer at h
  cases hbd : p.buffer_data_ with
  | none =>
    simp only [hbd, Outcome.ok.injEq, Prod.mk.injEq] at h
    rw [← h.1]
    exact ⟨hw, hr⟩
  | some bd =>
    simp only [hbd] at h
    by_cases hrange : index < 0 ∨ index ≥ p.buffer_count_
    · rw [if_pos hrange] at h
      simp only [Outcome.ok.injEq, Prod.mk.injEq] at h
      rw [← h.1]
      exact ⟨hw, hr⟩
    · rw [if_neg hrange] at h
      by_cases hput : index ≠ p.put_index_
      · rw [if_pos hput] at h
        simp only [Outcome.ok.injEq, Prod.mk.injEq] at h
        rw [← h.1]
        exact ⟨hw, hr⟩
      · rw [if_neg hput] at h
        cases hs : readSlot bd index with
        | none => simp [hs] at h
        | some slot =>
          simp only [hs] at h
          by_cases h1 : slot.state ≠ 1
          · rw [if_pos h1] at h
            simp only [Outcome.ok.injEq, Prod.mk.injEq] at h
            rw [← h.1]
            exact ⟨hw, hr⟩
          · rw [if_neg h1] at h
            by_cases h0 : status = 0
            · rw [if_pos h0] at h
              simp only [Outcome.ok.injEq, Prod.mk.injEq] at h
              rw [← h.1]
              exact ⟨hw, hr⟩
            · rw [if_neg h0] at h
              simp only [Outcome.ok.injEq, Prod.mk.injEq] at h
              rw [← h.1]
              push_neg at hrange
              refine ⟨?_, ?_⟩
              · show 0 ≤ (if p.write_inex_ + 1 ≥ p.buffer_count_ then 0 else p.write_inex_ + 1) ∧
                  (if p.write_inex_ + 1 ≥ p.buffer_count_ then 0 else p.write_inex_ + 1) <
                    p.buffer_count_
                split_ifs <;> omega
              · show 0 ≤ (if p.last_mode_ = true then index else p.read_index_) ∧
                  (if p.last_mode_ = true then index else p.read_index_) < p.buffer_count_
                split_ifs <;> omega

theorem GetGetBuffer_cursors {p p' : PclDataRingBuffer} {time_get t : Nat} {idx : Int}
    (h : p.GetGetBuffer time_get = .ok (p', idx, t))
    (hr : 0 ≤ p.read_index_ ∧ p.read_index_ < p.buffer_count_) :
    p'.write_inex_ = p.write_inex_ ∧
      (0 ≤ p'.read_index_ ∧ p'.read_index_ < p.buffer_count_) := by
  cases hbd : p.buffer_data_ with
  | none =>
    unfold GetGetBuffer at h
    simp only [hbd, Outcome.ok.injEq, Prod.mk.injEq] at h
    rw [← h.1]
    exact ⟨rfl, hr⟩
  | some bd =>
    cases hs : readSlot bd p.read_index_ with
    | none => simp [GetGetBuffer, hbd, hs] at h
    | some slot =>
      by_cases h2 : slot.state = 2
      · obtain ⟨_, _, _, hw', _, _, _, _, hr', _⟩ := GetGetBuffer_ready hbd hs h2 h
        refine ⟨hw', ?_⟩
        rw [hr']
        split_ifs <;> omega
      · rw [GetGetBuffer_not_ready time_get hbd hs h2] at h
        simp only [Outcome.ok.injEq, Prod.mk.injEq] at h
        rw [← h.1]
        exact ⟨rfl, hr⟩

theorem DoneGetBuffer_cursors {p p' : PclDataRingBuffer} {index : Int}
    (h : p.DoneGetBuffer index = .ok p') :
    p'.write_inex_ = p.write_inex_ ∧ p'.read_index_ = p.read_index_ := by
  unfold DoneGetBuffer at h
  cases hbd : p.buffer_data_ with
  | none =>
    simp only [hbd, Outcome.ok.injEq] at h
    rw [← h]
    exact ⟨rfl, rfl⟩
  | some bd =>
    simp only [hbd] at h
    cases hs : readSlot bd index with
    | none =>
      simp only [hs] at h
      split_ifs at h <;> simp only [Outcome.ok.injEq] at h <;> rw [← h] <;>
        exact ⟨rfl, rfl⟩
    | some slot =>
      simp only [hs] at h
      split_ifs at h <;> simp only [Outcome.ok.injEq] at h <;> rw [← h] <;>
        exact ⟨rfl, rfl⟩

/-- A disciplined call keeps the write cursor and the read cursor inside the
array. -/
theorem Sys.call_cursors {s s' : Sys} {c : Call}
    (hw : 0 ≤ s.pool.write_inex_ ∧ s.pool.write_inex_ < s.pool.buffer_count_)
    (hr : 0 ≤ s.pool.read_index_ ∧ s.pool.read_index_ < s.pool.buffer_count_)
    (hc : s.call c = some s') :
    (0 ≤ s'.pool.write_inex_ ∧ s'.pool.write_inex_ < s'.pool.buffer_count_) ∧
      (0 ≤ s'.pool.read_index_ ∧ s'.pool.read_index_ < s'.pool.buffer_count_) := by
  have hcfg := (Sys.call_config hc).2.2
  rw [hcfg]
  obtain ⟨pool, wr, rd, cm⟩ := s
  simp only at hw hr ⊢
  cases c with
  | getPut time =>
    simp only [Sys.call] at hc
    cases wr with
    | some x => simp at hc
    | none =>
      simp only at hc
      cases hg : pool.GetPutBuffer time with
      | ok r =>
        obtain ⟨p, idx⟩ := r
        simp only [hg, Option.some.injEq] at hc
        subst hc
        obtain ⟨e1, e2⟩ := GetPutBuffer_cursors hg
        split <;> simp only [e1, e2] <;> exact ⟨hw, hr⟩
      | outOfBounds => simp [hg] at hc
      | outOfFuel => simp [hg] at hc
  | donePut status =>
    simp only [Sys.call] at hc
    cases wr with
    | none => simp at hc
    | some x =>
      obtain ⟨idx, time⟩ := x
      simp only at hc
      cases hg : pool.DonePutBuffer idx status with
      | ok r =>
        obtain ⟨p, q⟩ := r
        simp only [hg, Option.some.injEq] at hc
        subst hc
        exact DonePutBuffer_cursors hg hw hr
      | outOfBounds => simp [hg] at hc
      | outOfFuel => simp [hg] at hc
  | getGet time_get =>
    simp only [Sys.call] at hc
    cases rd with
    | some x => simp at hc
    | none =>
      simp only at hc
      cases hg : pool.GetGetBuffer time_get with
      | ok r =>
        obtain ⟨p, idx, t⟩ := r
        simp only [hg, Option.some.injEq] at hc
        subst hc
        obtain ⟨e1, e2⟩ := GetGetBuffer_cursors hg hr
        split <;> simp only [e1] <;> exact ⟨hw, e2⟩
      | outOfBounds => simp [hg] at hc
      | outOfFuel => simp [hg] at hc
  | doneGet =>
    simp only [Sys.call] at hc
    cases rd with
    | none => simp at hc
    | some idx =>
      simp only at hc
      cases hg : pool.DoneGetBuffer idx with
      | ok p =>
        simp only [hg, Option.some.injEq] at hc
        subst hc
        obtain ⟨e1, e2⟩ := DoneGetBuffer_cursors hg
        simp only [e1, e2]
        exact ⟨hw, hr⟩
      | outOfBounds => simp [hg] at hc
      | outOfFuel => simp [hg] at hc

/-- Outside the latest-wins no-overwrite submode, a call in turn on a pool whose
cursors are inside the array returns: the disciplined step has a next state. -/
theorem Sys.call_defined {s : Sys} {c : Call} (h : s.Inv)
    (hw : 0 ≤ s.pool.write_inex_ ∧ s.pool.write_inex_ < s.pool.buffer_count_)
    (hr : 0 ≤ s.pool.read_index_ ∧ s.pool.read_index_ < s.pool.buffer_count_)
    (hmode : s.pool.last_mode_ = false ∨ s.pool.allow_overwrite_ = true)
    (hturn : s.inTurn c = true) : ∃ s', s.call c = some s' := by
  obtain ⟨bd, hbd, hlen, hW, hR, _, _, _⟩ := h
  obtain ⟨pool, wr, rd, cm⟩ := s
  simp only at hbd hlen hW hR hw hr hmode
  cases c with
  | getPut time =>
    cases wr with
    | some x => simp [Sys.inTurn] at hturn
    | none =>
      obtain ⟨slot, hs⟩ := readSlot_isSome_of_lt hw.1 (by rw [hlen]; exact hw.2)
      by_cases href : slot.state = 3 ∨ (pool.allow_overwrite_ = false ∧ slot.state ≠ 0)
      · exact ⟨_, by simp only [Sys.call, GetPutBuffer_refused time hbd hs href]; rfl⟩
      · exact ⟨_, by simp only [Sys.call, GetPutBuffer_granted time hbd hs href]; rfl⟩
  | donePut status =>
    cases wr with
    | none => simp [Sys.inTurn] at hturn
    | some x =>
      obtain ⟨idx, t⟩ := x
      obtain ⟨hput, slot, hs, h1, _⟩ := hW idx t rfl
      exact ⟨_, by simp only [Sys.call, DonePutBuffer_commit idx status hbd hlen hput.symm hs h1]; rfl⟩
  | getGet time_get =>
    cases rd with
    | some x => simp [Sys.inTurn] at hturn
    | none =>
      obtain ⟨slot, hs⟩ := readSlot_isSome_of_lt hr.1 (by rw [hlen]; exact hr.2)
      by_cases h2 : slot.state = 2
      · obtain ⟨p', hp'⟩ := GetGetBuffer_ready_ok time_get hbd hs h2 hmode
        exact ⟨_, by simp only [Sys.call, hp']; rfl⟩
      · exact ⟨_, by simp only [Sys.call, GetGetBuffer_not_ready time_get hbd hs h2]; rfl⟩
  | doneGet =>
    cases rd with
    | none => simp [Sys.inTurn] at hturn
    | some idx =>
      obtain ⟨hget, slot, hs, _⟩ := hR idx rfl
      exact ⟨_, by simp only [Sys.call, DoneGetBuffer_release idx hbd hlen hget.symm hs]; rfl⟩

theorem Sys.run_defined_from : ∀ (calls : List Call) (s : Sys), s.Inv →
    (0 ≤ s.pool.write_inex_ ∧ s.pool.write_inex_ < s.pool.buffer_count_) →
    (0 ≤ s.pool.read_index_ ∧ s.pool.read_index_ < s.pool.buffer_count_) →
    (s.pool.last_mode_ = false ∨ s.pool.allow_overwrite_ = true) →
    s.disciplined calls = true → ∃ s', s.run calls = some s' := by
  intro calls
  induction calls with
  | nil =>
    intro s _ _ _ _ _
    exact ⟨s, rfl⟩
  | cons c cs ih =>
    intro s h hw hr hmode hd
    simp only [Sys.disciplined, Bool.and_eq_true] at hd
    obtain ⟨s1, hc⟩ := Sys.call_defined h hw hr hmode hd.1
    have hd2 := hd.2
    simp only [hc] at hd2
    obtain ⟨c1, c2⟩ := Sys.call_cursors hw hr hc
    obtain ⟨m1, m2, _⟩ := Sys.call_config hc
    obtain ⟨s', hs'⟩ := ih s1 (Sys.Inv_call h hc) c1 c2 (by rw [m1, m2]; exact hmode) hd2
    exact ⟨s', by simp only [Sys.run, hc, Option.some_bind, hs']⟩

/-- In FIFO mode (with or without overwrite) and in latest-wins mode with
overwrite, for every capacity of at least one slot, every sequence of calls in
turn from a cleared pool returns call by call: the run has a final state. -/
theorem Sys.run_defined (p : PclDataRingBuffer) (calls : List Call) (hclear : IsCleared p)
    (hcap : 1 ≤ p.buffer_count_)
    (hmode : p.last_mode_ = false ∨ p.allow_overwrite_ = true)
    (hd : (Sys.start p).disciplined calls = true) :
    ∃ s, (Sys.start p).run calls = some s := by
  have hc := hclear
  unfold IsCleared at hc
  cases hbd : p.buffer_data_ with
  | none => simp [hbd] at hc
  | some bd =>
    simp only [hbd] at hc
    obtain ⟨_, _, hw0, hr0, _, _⟩ := hc
    refine Sys.run_defined_from calls (Sys.start p) (Sys.Inv_start hclear) ?_ ?_ hmode hd
    · show 0 ≤ p.write_inex_ ∧ p.write_inex_ < p.buffer_count_
      omega
    · show 0 ≤ p.read_index_ ∧ p.read_index_ < p.buffer_count_
      omega

/-- Exclusivity outside the latest-wins no-overwrite submode: in FIFO mode and
in latest-wins mode with overwrite, for every capacity of at least one slot,
every sequence of calls in turn from a cleared pool has a final state, and in it
the slot the producer holds (state 1) and the slot the consumer holds (state 3)
are different slots, no other slot is in state 1 or 3, `GetPutBuffer` returns no
slot in state 3 and `GetGetBuffer` returns only a slot in state 2. -/
theorem pool_exclusivity_outside_walk (p : PclDataRingBuffer) (calls : List Call)
    (hclear : IsCleared p) (hcap : 1 ≤ p.buffer_count_)
    (hmode : p.last_mode_ = false ∨ p.allow_overwrite_ = true)
    (hd : (Sys.start p).disciplined calls = true) :
    ∃ s, (Sys.start p).run calls = some s ∧
      (∀ a ta b, s.writing = some (a, ta) → s.reading = some b →
        a ≠ b ∧ s.pool.stateAt a = some 1 ∧ s.pool.stateAt b = some 3) ∧
      (∀ j, s.pool.stateAt j = some 1 → ∃ t, s.writing = some (j, t)) ∧
      (∀ j, s.pool.stateAt j = some 3 → s.reading = some j) ∧
      (∀ time p' idx, s.pool.GetPutBuffer time = .ok (p', idx) → idx ≠ -1 →
        s.pool.stateAt idx ≠ some 3 ∧ s.reading ≠ some idx) ∧
      (∀ time_get p' idx t, s.pool.GetGetBuffer time_get = .ok (p', idx, t) → idx ≠ -1 →
        s.pool.stateAt idx = some 2 ∧ ∀ ta, s.writing ≠ some (idx, ta)) := by
  obtain ⟨s, hs⟩ := Sys.run_defined p calls hclear hcap hmode hd
  exact ⟨s, hs, pool_exclusivity_of_run p calls s hclear hs⟩

/-- Latest-wins delivery with overwrite (the pipeline's configuration
`Initialize(true, true, 4, ...)` included): for every capacity of at least one
slot, every sequence of calls in turn from a cleared pool has a final state, and
a `GetGetBuffer` that returns a slot in it returns the index and the time stamp
of the most recent `DonePutBuffer(index, status ≠ 0)`. -/
theorem latest_wins_delivery_with_overwrite (p : PclDataRingBuffer) (calls : List Call)
    (hclear : IsCleared p) (hcap : 1 ≤ p.buffer_count_)
    (hlast : p.last_mode_ = true) (hover : p.allow_overwrite_ = true)
    (hd : (Sys.start p).disciplined calls = true) :
    ∃ s, (Sys.start p).run calls = some s ∧
      ∀ time_get p' idx t, s.pool.GetGetBuffer time_get = .ok (p', idx, t) → idx ≠ -1 →
        s.committed = some (idx, t) := by
  obtain ⟨s, hs⟩ := Sys.run_defined p calls hclear hcap (Or.inr hover) hd
  exact ⟨s, hs, fun time_get p' idx t hg hidx =>
    latest_wins_delivery_of_run p calls s time_get p' idx t hclear hlast hs hg hidx⟩

/-! ## Frame pool: the stale-frame walk in a disciplined run -/

/-- C12 on a FIFO pool of capacity 4. Two frames (times 10 and 20) are committed
and read in order, so the last `GetGetBuffer` that returned a slot returned
index 1, and the last-get cursor is 1. `Clear()` puts the cursor back to 0. The
producer then acquires slot 0 (state 1), and `DoneGetBuffer(0)`, whose index is
not the one the last read returned, is not ignored: it sets slot 0 to state 0,
and the producer's `DonePutBuffer(0, 1)` is rejected with -1. Likewise on a
fresh pool, before any `GetGetBuffer`: with one frame committed in slot 0,
`DoneGetBuffer(0)` sets the slot to state 0 and `GetGetBuffer` then finds
nothing. -/
theorem C12_release_passes_the_index_check :
    (submitFrames (clearedPool false false 4) [10, 20]).bind (fun r => readFrames r.1 2) =
      .ok (⟨false, false, 4, some [⟨0, 0, 10⟩, ⟨1, 0, 20⟩, ⟨2, 0, 0⟩, ⟨3, 0, 0⟩], 2, 2, 1, 1⟩,
        [(0, 10), (1, 20)]) ∧
    (PclDataRingBuffer.mk false false 4
        (some [⟨0, 0, 10⟩, ⟨1, 0, 20⟩, ⟨2, 0, 0⟩, ⟨3, 0, 0⟩]) 2 2 1 1).Clear =
      (⟨false, false, 4, some [⟨0, 0, 10⟩, ⟨1, 0, 20⟩, ⟨2, 0, 0⟩, ⟨3, 0, 0⟩], 0, 0, 0, 0⟩, 0) ∧
    (PclDataRingBuffer.mk false false 4
        (some [⟨0, 0, 10⟩, ⟨1, 0, 20⟩, ⟨2, 0, 0⟩, ⟨3, 0, 0⟩]) 0 0 0 0).GetPutBuffer 30 =
      .ok (⟨false, false, 4, some [⟨0, 1, 30⟩, ⟨1, 0, 20⟩, ⟨2, 0, 0⟩, ⟨3, 0, 0⟩], 0, 0, 0, 0⟩, 0) ∧
    (0 : Int) ≠ 1 ∧
    (PclDataRingBuffer.mk false false 4
        (some [⟨0, 1, 30⟩, ⟨1, 0, 20⟩, ⟨2, 0, 0⟩, ⟨3, 0, 0⟩]) 0 0 0 0).DoneGetBuffer 0 =
      .ok ⟨false, false, 4, some [⟨0, 0, 30⟩, ⟨1, 0, 20⟩, ⟨2, 0, 0⟩, ⟨3, 0, 0⟩], 0, 0, 0, 0⟩ ∧
    (PclDataRingBuffer.mk false false 4
        (some [⟨0, 0, 30⟩, ⟨1, 0, 20⟩, ⟨2, 0, 0⟩, ⟨3, 0, 0⟩]) 0 0 0 0).DonePutBuffer 0 1 =
      .ok (⟨false, false, 4, some [⟨0, 0, 30⟩, ⟨1, 0, 20⟩, ⟨2, 0, 0⟩, ⟨3, 0, 0⟩], 0, 0, 0, 0⟩, -1) ∧
    submitFrames (clearedPool false false 4) [10] =
      .ok (⟨false, false, 4, some [⟨0, 2, 10⟩, ⟨1, 0, 0⟩, ⟨2, 0, 0⟩, ⟨3, 0, 0⟩], 1, 0, 0, 0⟩,
        [(0, 0)]) ∧
    (PclDataRingBuffer.mk false false 4
        (some [⟨0, 2, 10⟩, ⟨1, 0, 0⟩, ⟨2, 0, 0⟩, ⟨3, 0, 0⟩]) 1 0 0 0).DoneGetBuffer 0 =
      .ok ⟨false, false, 4, some [⟨0, 0, 10⟩, ⟨1, 0, 0⟩, ⟨2, 0, 0⟩, ⟨3, 0, 0⟩], 1, 0, 0, 0⟩ ∧
    (PclDataRingBuffer.mk false false 4
        (some [⟨0, 0, 10⟩, ⟨1, 0, 0⟩, ⟨2, 0, 0⟩, ⟨3, 0, 0⟩]) 1 0 0 0).GetGetBuffer 0 =
      .ok (⟨false, false, 4, some [⟨0, 0, 10⟩, ⟨1, 0, 0⟩, ⟨2, 0, 0⟩, ⟨3, 0, 0⟩], 1, 0, 0, 0⟩,
        -1, 0) :=
  ⟨by decide, by decide, by decide, by decide, by decide, by decide, by decide, by decide,
    by decide⟩

end IscDpl
